import Mathlib

/-!
# Expense-Tracker backend: a shallow embedding of the expense and category controllers

The development follows `backend/controllers/expenses.js`,
`backend/controllers/categories.js`, the two Mongoose schemas in
`backend/models/` and the global error handler of `backend/server.js`.

Conventions of the embedding

* ObjectIds are natural numbers; a request always carries a well-formed id.
* A `Date` is its time value, an integer: milliseconds since the epoch, read on the local
  time line of the server (the zone offset is taken to be zero).
* A `Number` is a finite IEEE 754 double, kept as its exact value: a whole count of units
  of 2^-1074, the smallest positive double. Addition rounds the exact sum to 53
  significant bits, to nearest, ties to even, as the addition of the code does; a sum
  beyond the largest double, for which the code gives `Infinity`, is kept as
  its rounded finite value. `NaN` is `none` where it can arise.
* Strings are Lean strings; JavaScript truthiness of a string is non-emptiness.
* The library functions the controllers call (`parseInt`, the `Date`
  constructor, `String.prototype.trim`, the Mongoose model methods) are
  written out from their documented behaviour, next to the controller code
  that uses them.
-/

namespace ExpenseTracker

/-! ## JavaScript library functions used by the controllers -/

/-- White space and line terminators of ECMAScript, the characters removed by
`String.prototype.trim` and skipped by `parseInt`. -/
def isJsWhiteSpace (c : Char) : Bool :=
  let n := c.toNat
  n = 0x09 || n = 0x0A || n = 0x0B || n = 0x0C || n = 0x0D || n = 0x20 ||
  n = 0xA0 || n = 0x1680 || (0x2000 ≤ n && n ≤ 0x200A) || n = 0x2028 ||
  n = 0x2029 || n = 0x202F || n = 0x205F || n = 0x3000 || n = 0xFEFF

/-- Removal of leading white space from a list of characters. -/
def trimStart : List Char → List Char
  | [] => []
  | c :: cs => if isJsWhiteSpace c then trimStart cs else c :: cs

/-- Removal of trailing white space from a list of characters. -/
def trimEnd (cs : List Char) : List Char :=
  (trimStart cs.reverse).reverse

/-- The method `String.prototype.trim`. -/
def jsTrim (s : String) : String :=
  String.mk (trimEnd (trimStart s.data))

/-- Truthiness of an optional string value: present and not the empty string. -/
def truthy : Option String → Bool
  | none => false
  | some s => s ≠ ""

/-- Value of a character as a digit of the given radix (10 or 16). -/
def digitValue (radix : Nat) (c : Char) : Option Nat :=
  let n := c.toNat
  if 48 ≤ n ∧ n ≤ 57 then some (n - 48)
  else if radix = 16 ∧ 97 ≤ n ∧ n ≤ 102 then some (n - 87)
  else if radix = 16 ∧ 65 ≤ n ∧ n ≤ 70 then some (n - 55)
  else none

/-- Reading of the longest prefix of digits: the accumulated value and the
number of digits consumed. -/
def readDigits (radix : Nat) : List Char → Nat → Nat → Nat × Nat
  | [], acc, k => (acc, k)
  | c :: cs, acc, k =>
    match digitValue radix c with
    | some d => readDigits radix cs (acc * radix + d) (k + 1)
    | none => (acc, k)

/-- The global function `parseInt` called with one argument; `none` is `NaN`.
Leading white space is skipped, one sign is accepted, a `0x` or `0X` prefix
selects radix 16, and the longest prefix of digits is read; whatever follows
is ignored. -/
def parseInt (s : String) : Option Int :=
  let t := trimStart s.data
  let (neg, t) :=
    match t with
    | '-' :: r => (true, r)
    | '+' :: r => (false, r)
    | r => (false, r)
  let (radix, t) :=
    match t with
    | '0' :: 'x' :: r => (16, r)
    | '0' :: 'X' :: r => (16, r)
    | r => (10, r)
  let (v, k) := readDigits radix t 0 0
  if k = 0 then none else some (if neg then - (v : Int) else (v : Int))

/-- Leap years of the Gregorian calendar. -/
def inLeapYear (y : Int) : Bool :=
  (y % 4 = 0 && y % 100 ≠ 0) || y % 400 = 0

/-- Day number of 1 January of year `y` (ECMAScript `DayFromYear`). -/
def dayFromYear (y : Int) : Int :=
  365 * (y - 1970) + (y - 1969) / 4 - (y - 1901) / 100 + (y - 1601) / 400

/-- Number of days of the year that precede month `mn` (0-based, 0..11). -/
def daysBeforeMonth (leap : Bool) (mn : Int) : Int :=
  let l : Int := if leap then 1 else 0
  if mn = 0 then 0
  else if mn = 1 then 31
  else if mn = 2 then 59 + l
  else if mn = 3 then 90 + l
  else if mn = 4 then 120 + l
  else if mn = 5 then 151 + l
  else if mn = 6 then 181 + l
  else if mn = 7 then 212 + l
  else if mn = 8 then 243 + l
  else if mn = 9 then 273 + l
  else if mn = 10 then 304 + l
  else 334 + l

/-- ECMAScript `MakeDay`: the month may lie outside 0..11 and the date outside
the month; both are carried into the neighbouring months and years. -/
def makeDay (year month date : Int) : Int :=
  let ym := year + month / 12
  let mn := month % 12
  dayFromYear ym + daysBeforeMonth (inLeapYear ym) mn + date - 1

/-- ECMAScript `MakeTime`. -/
def makeTime (hour min sec ms : Int) : Int :=
  hour * 3600000 + min * 60000 + sec * 1000 + ms

/-- ECMAScript `MakeDate`. -/
def makeDate (day time : Int) : Int :=
  day * 86400000 + time

/-- ECMAScript `MakeFullYear`: a year from 0 to 99 stands for 1900 + year. -/
def makeFullYear (y : Int) : Int :=
  if 0 ≤ y ∧ y ≤ 99 then 1900 + y else y

/-- ECMAScript `TimeClip`; `none` is the time value of an Invalid Date. -/
def timeClip (t : Int) : Option Int :=
  if -8640000000000000 ≤ t ∧ t ≤ 8640000000000000 then some t else none

/-- The constructor `new Date(year, month, date, hours, minutes, seconds, ms)`. -/
def newDate (year month date hour min sec ms : Int) : Option Int :=
  timeClip (makeDate (makeDay (makeFullYear year) month date) (makeTime hour min sec ms))

/-- The method `Number.prototype.toString(16)` on a non-negative integer:
lower-case hexadecimal digits without padding. -/
def toHex (n : Nat) : String :=
  String.mk (Nat.toDigits 16 n)

/-! ## JavaScript numbers -/

/-- Number of bits, a multiple of 32, that can be dropped from `a` so that
fewer than 33 bits remain. -/
def coarseBits : Nat → Nat → Nat → Nat
  | 0, _, acc => acc
  | fuel + 1, a, acc =>
    if a < 4294967296 then acc else coarseBits fuel (a >>> 32) (acc + 32)

/-- Position of the highest bit of a number below 2^fuel, added to `acc`. -/
def fineBits : Nat → Nat → Nat → Nat
  | 0, _, acc => acc
  | fuel + 1, a, acc => if a < 2 then acc else fineBits fuel (a >>> 1) (acc + 1)

/-- The position of the highest bit of `a`: the integer part of its binary
logarithm (0 for 0). -/
def log2 (a : Nat) : Nat :=
  fineBits 32 (a >>> coarseBits a a 0) (coarseBits a a 0)

/-- Rounding of a magnitude to the nearest multiple of 2^s, a tie to the
multiple whose quotient is even. -/
def roundAt (s a : Nat) : Nat :=
  let q := a >>> s
  let r := a - q <<< s
  if 1 <<< s < 2 * r ∨ (2 * r = 1 <<< s ∧ q % 2 = 1) then (q + 1) <<< s else q <<< s

/-- Rounding of a magnitude, in units of 2^-1074, to a double: the 53 highest
bits are kept, rounded to nearest, ties to even. Below 2^53 units every
magnitude is a double. -/
def roundNat (a : Nat) : Nat :=
  roundAt (log2 a - 52) a

/-- Rounding of a value in units of 2^-1074 to a double. -/
def roundUnits (n : Int) : Int :=
  if 0 ≤ n then (roundNat n.toNat : Int) else -(roundNat n.natAbs : Int)

/-- A finite JavaScript `Number`, as its exact value: `units` times 2^-1074.
Every finite double is such a value. -/
structure Number where
  units : Int
  deriving DecidableEq, Repr

/-- The whole number `n` as a `Number`. -/
def Number.ofNat (n : Nat) : Number :=
  ⟨((n <<< 1074 : Nat) : Int)⟩

instance (n : Nat) : OfNat Number n := ⟨Number.ofNat n⟩

instance : Neg Number := ⟨fun a => ⟨-a.units⟩⟩

instance : LinearOrder Number :=
  LinearOrder.lift' Number.units (fun a b h => by cases a; cases b; cases h; rfl)

/-- The operator `+` of two numbers: the exact sum, rounded. -/
def Number.add (a b : Number) : Number :=
  ⟨roundUnits (a.units + b.units)⟩

instance : Add Number := ⟨Number.add⟩

/-- The units of the double nearest to `num / den`: the quotient is taken with
two more bits, the lower of which records whether anything was cut off, and
then rounded. -/
def roundRatio (num den : Nat) : Nat :=
  let q := (num <<< 1076) / den
  let q1 := if (num <<< 1076) % den = 0 then q else 2 * (q / 2) + 1
  roundAt (max (log2 q1 - 52) 2) q1 / 4

/-- The `Number` a decimal literal denotes: the double nearest to
`m / 10 ^ places`, so `Number.ofDecimal 347 2` is the number written `3.47`. -/
def Number.ofDecimal (m : Int) (places : Nat) : Number :=
  ⟨if 0 ≤ m then (roundRatio m.natAbs (10 ^ places) : Int)
    else -(roundRatio m.natAbs (10 ^ places) : Int)⟩

/-! ## Data model: the two Mongoose schemas and the store -/

/-- An ObjectId. -/
abbrev ObjectId := Nat

/-- A document of the `Category` collection (`models/category.js`). -/
structure Category where
  id : ObjectId
  name : String
  color : String
  user : Option ObjectId
  isDefault : Bool
  deriving DecidableEq, Repr

/-- A document of the `Expense` collection (`models/expense.js`). -/
structure Expense where
  id : ObjectId
  amount : Number
  category : String
  description : Option String
  date : Int
  user : ObjectId
  deriving DecidableEq, Repr

/-- The two collections, each in insertion order, and the next ObjectId. -/
structure Store where
  categories : List Category
  expenses : List Expense
  nextId : ObjectId
  deriving DecidableEq, Repr

/-- The authenticated requester `req.user`. -/
structure ReqUser where
  id : ObjectId
  role : String
  deriving DecidableEq, Repr

/-- What a request sees of its surroundings: the clock behind `Date.now` and
the value of `Math.floor(Math.random() * 16777215)`. -/
structure Env where
  now : Int
  random : Nat
  deriving DecidableEq, Repr

/-- Modelled from the spec: the class of `utils/errorResponse.js` and the
wrapper of `middleware/async.js`, both required by the controllers. An
`ErrorResponse` is an error that carries a message and an HTTP status code;
an error thrown by a model method inside a handler is forwarded unchanged to
the global error handler. The next three constructors are the errors the
model methods throw, the last one is a `TypeError` of the language. -/
inductive Failure where
  | errorResponse (message : String) (statusCode : Nat)
  | validationError (messages : List String)
  | duplicateKey (name : String)
  | castError (path : String)
  | typeError (message : String)
  deriving DecidableEq, Repr

deriving instance DecidableEq for Except

/-- The status code chosen by the global error handler of `server.js`:
`err.statusCode || 500`. Only an `ErrorResponse` carries a status code. -/
def statusOf : Failure → Nat
  | .errorResponse _ code => if code = 0 then 500 else code
  | _ => 500

/-- The state after a request together with what was answered. -/
structure Outcome (α : Type) where
  store : Store
  result : Except Failure α

/-- The JSON body of a successful answer. -/
structure Reply (α : Type) where
  status : Nat
  data : α
  deriving DecidableEq, Repr

/-! ## Model methods of `Category` -/

/-- The body of `POST /api/categories` and `PUT /api/categories/:id`, limited
to the paths of the schema. -/
structure CategoryBody where
  name : Option String := none
  color : Option String := none
  user : Option ObjectId := none
  isDefault : Option Bool := none
  deriving DecidableEq, Repr

/-- The query `Category.findOne({ $or: [{ name, user }, { name, isDefault: true }] })`.
Query values pass through the setters of the schema, so the name is trimmed
before it is compared. -/
def findCategoryByName (cats : List Category) (name : Option String) (uid : ObjectId) :
    Option Category :=
  match name with
  | none => none
  | some n =>
    cats.find? (fun c => c.name = jsTrim n && (c.user = some uid || c.isDefault))

/-- The method `Category.create`: setters (`trim`), defaults, the `required`
validator of `name`, then the insert, which the unique index on `name`
rejects when a document with that name is present. -/
def categoryCreate (st : Store) (doc : CategoryBody) : Except Failure (Category × Store) :=
  let name := (doc.name.map jsTrim).getD ""
  if name = "" then
    .error (.validationError ["Please add a category name"])
  else if st.categories.any (fun c => c.name = name) then
    .error (.duplicateKey name)
  else
    let c : Category :=
      { id := st.nextId
        name := name
        color := (doc.color.map jsTrim).getD "#1976d2"
        user := doc.user
        isDefault := doc.isDefault.getD false }
    .ok (c, { st with categories := st.categories ++ [c], nextId := st.nextId + 1 })

/-! ## Model methods of `Expense` -/

/-- The body of `POST /api/expenses` and `PUT /api/expenses/:id`: the paths of
the schema and the `color` the controller reads. -/
structure ExpenseBody where
  amount : Option Number := none
  category : Option String := none
  description : Option String := none
  date : Option Int := none
  user : Option ObjectId := none
  color : Option String := none
  deriving DecidableEq, Repr

/-- Messages of the validators of the `Expense` schema that fail on a new
document. -/
def expenseCreateErrors (doc : ExpenseBody) : List String :=
  (match doc.amount with
    | none => ["Please add an amount"]
    | some a => if a < 0 then ["Amount cannot be negative"] else []) ++
  (match doc.category with
    | none => ["Please add a category"]
    | some c => if c = "" then ["Please add a category"] else []) ++
  (match doc.user with
    | none => ["Path user is required."]
    | some _ => [])

/-- The method `Expense.create`. -/
def expenseCreate (env : Env) (st : Store) (doc : ExpenseBody) :
    Except Failure (Expense × Store) :=
  match doc.amount, doc.category, doc.user with
  | some a, some c, some u =>
    if expenseCreateErrors doc = [] then
      let e : Expense :=
        { id := st.nextId
          amount := a
          category := c
          description := doc.description.map jsTrim
          date := doc.date.getD env.now
          user := u }
      .ok (e, { st with expenses := st.expenses ++ [e], nextId := st.nextId + 1 })
    else .error (.validationError (expenseCreateErrors doc))
  | _, _, _ => .error (.validationError (expenseCreateErrors doc))

/-- Messages of the update validators (`runValidators: true`): only the paths
present in the update are validated. -/
def expenseUpdateErrors (upd : ExpenseBody) : List String :=
  (match upd.amount with
    | some a => if a < 0 then ["Amount cannot be negative"] else []
    | none => []) ++
  (match upd.category with
    | some c => if c = "" then ["Please add a category"] else []
    | none => [])

/-- The document after `$set` of the paths present in the update. -/
def applyExpenseUpdate (e : Expense) (upd : ExpenseBody) : Expense :=
  { e with
    amount := upd.amount.getD e.amount
    category := upd.category.getD e.category
    description := match upd.description with
      | some d => some (jsTrim d)
      | none => e.description
    date := upd.date.getD e.date
    user := upd.user.getD e.user }

/-- Replacement of the first document with the given id. -/
def replaceExpense (id : ObjectId) (f : Expense → Expense) : List Expense → List Expense
  | [] => []
  | e :: es => if e.id = id then f e :: es else e :: replaceExpense id f es

/-- The method `Expense.findById`. -/
def expenseFindById (st : Store) (id : ObjectId) : Option Expense :=
  st.expenses.find? (fun e => e.id = id)

/-- The method `Expense.findByIdAndUpdate(id, body, { new: true, runValidators: true })`. -/
def expenseFindByIdAndUpdate (st : Store) (id : ObjectId) (upd : ExpenseBody) :
    Except Failure (Option Expense × Store) :=
  if expenseUpdateErrors upd = [] then
    let es := replaceExpense id (fun e => applyExpenseUpdate e upd) st.expenses
    .ok (es.find? (fun e => e.id = id), { st with expenses := es })
  else .error (.validationError (expenseUpdateErrors upd))

/-- The document method `deleteOne`: the first document with that id goes. -/
def removeExpense (id : ObjectId) : List Expense → List Expense
  | [] => []
  | e :: es => if e.id = id then es else e :: removeExpense id es

/-! ## `controllers/expenses.js` -/

/-- The query string of `GET /api/expenses`. -/
structure ExpenseQuery where
  startDate : Option String := none
  endDate : Option String := none
  category : Option String := none
  minAmount : Option String := none
  maxAmount : Option String := none
  deriving DecidableEq, Repr

/-- The two parsers `getExpenses` applies to query strings: `new Date(string)`
(`none` is an Invalid Date) and `parseFloat` (`none` is `NaN`). -/
structure Parsers where
  date : String → Option Int
  float : String → Option Number

/-- A bound of a query condition: not asked for, or the value a parser gave. -/
abbrev Bound (α : Type) := Option (Option α)

/-- The filter object `query` built by `getExpenses`. -/
structure ExpenseFilter where
  user : ObjectId
  dateGte : Bound Int := none
  dateLte : Bound Int := none
  category : Option String := none
  amountGte : Bound Number := none
  amountLte : Bound Number := none

/-- Construction of the filter, line by line as in `getExpenses`. -/
def buildExpenseFilter (P : Parsers) (user : ReqUser) (q : ExpenseQuery) : ExpenseFilter :=
  let (dateGte, dateLte) : Bound Int × Bound Int :=
    if truthy q.startDate && truthy q.endDate then
      (some (P.date (q.startDate.getD "")), some (P.date (q.endDate.getD "")))
    else if truthy q.startDate then
      (some (P.date (q.startDate.getD "")), none)
    else if truthy q.endDate then
      (none, some (P.date (q.endDate.getD "")))
    else (none, none)
  let category := if truthy q.category then q.category else none
  let (amountGte, amountLte) : Bound Number × Bound Number :=
    if truthy q.minAmount || truthy q.maxAmount then
      (if truthy q.minAmount then some (P.float (q.minAmount.getD "")) else none,
       if truthy q.maxAmount then some (P.float (q.maxAmount.getD "")) else none)
    else (none, none)
  { user := user.id, dateGte := dateGte, dateLte := dateLte, category := category,
    amountGte := amountGte, amountLte := amountLte }

/-- A bound that was asked for but is an Invalid Date or `NaN` cannot be cast. -/
def Bound.bad {α : Type} : Bound α → Bool
  | some none => true
  | _ => false

/-- The condition `$gte` on a value. -/
def Bound.gte {α : Type} [LinearOrder α] : Bound α → α → Bool
  | some (some b) , v => b ≤ v
  | _, _ => true

/-- The condition `$lte` on a value. -/
def Bound.lte {α : Type} [LinearOrder α] : Bound α → α → Bool
  | some (some b) , v => v ≤ b
  | _, _ => true

/-- Whether a document satisfies the filter. -/
def ExpenseFilter.holds (f : ExpenseFilter) (e : Expense) : Bool :=
  e.user = f.user && f.dateGte.gte e.date && f.dateLte.lte e.date &&
  (match f.category with
    | some c => e.category = c
    | none => true) &&
  f.amountGte.gte e.amount && f.amountLte.lte e.amount

/-- Order of `sort({ date: -1 })`. -/
def dateDesc (a b : Expense) : Prop := b.date ≤ a.date

instance : DecidableRel dateDesc := fun a b => inferInstanceAs (Decidable (b.date ≤ a.date))

/-- Order of `sort({ date: 1 })`. -/
def dateAsc (a b : Expense) : Prop := a.date ≤ b.date

instance : DecidableRel dateAsc := fun a b => inferInstanceAs (Decidable (a.date ≤ b.date))

/-- The query `Expense.find(filter)`: casting of the filter, then the matching
documents in insertion order. -/
def expenseFind (st : Store) (f : ExpenseFilter) : Except Failure (List Expense) :=
  if f.dateGte.bad || f.dateLte.bad then .error (.castError "date")
  else if f.amountGte.bad || f.amountLte.bad then .error (.castError "amount")
  else .ok (st.expenses.filter f.holds)

/-- The answer of a listing: `{ success, count, data }`. -/
structure ListReply (α : Type) where
  status : Nat
  count : Nat
  data : List α
  deriving DecidableEq, Repr

/-- The handler of `GET /api/expenses`. The `populate` of the user name is
left out: it adds a field to each document and selects nothing. -/
def getExpenses (P : Parsers) (st : Store) (user : ReqUser) (q : ExpenseQuery) :
    Outcome (ListReply Expense) :=
  let query := buildExpenseFilter P user q
  match expenseFind st query with
  | .error err => { store := st, result := .error err }
  | .ok found =>
    let expenses := found.insertionSort dateDesc
    { store := st, result := .ok { status := 200, count := expenses.length, data := expenses } }

/-- The ownership test shared by `getExpense`, `updateExpense` and
`deleteExpense`: `expense.user.toString() !== req.user.id && req.user.role !== "admin"`. -/
def notAuthorized (expense : Expense) (user : ReqUser) : Bool :=
  expense.user ≠ user.id && user.role ≠ "admin"

/-- The handler of `GET /api/expenses/:id`. -/
def getExpense (st : Store) (user : ReqUser) (id : ObjectId) : Outcome (Reply Expense) :=
  match expenseFindById st id with
  | none =>
    { store := st
      result := .error (.errorResponse ("Expense not found with id of " ++ toString id) 404) }
  | some expense =>
    if notAuthorized expense user then
      { store := st
        result := .error (.errorResponse
          ("User " ++ toString user.id ++ " is not authorized to access this expense") 401) }
    else { store := st, result := .ok { status := 200, data := expense } }

/-- The value `req.body.color || "#" + Math.floor(Math.random() * 16777215).toString(16)`. -/
def colorOrRandom (env : Env) (color : Option String) : String :=
  if truthy color then color.getD "" else "#" ++ toHex env.random

/-- The step shared by `createExpense` and `updateExpense`: look the category
name up among the requester's and the default categories and create it for
the requester when it is not there. -/
def ensureCategory (env : Env) (st : Store) (user : ReqUser) (body : ExpenseBody) :
    Except Failure Store :=
  match findCategoryByName st.categories body.category user.id with
  | some _ => .ok st
  | none =>
    match categoryCreate st
        { name := body.category, user := some user.id,
          color := some (colorOrRandom env body.color) } with
    | .ok (_, st1) => .ok st1
    | .error err => .error err

/-- The handler of `POST /api/expenses`. -/
def createExpense (env : Env) (st : Store) (user : ReqUser) (body : ExpenseBody) :
    Outcome (Reply Expense) :=
  let body := { body with user := some user.id }
  match ensureCategory env st user body with
  | .error err => { store := st, result := .error err }
  | .ok st1 =>
    match expenseCreate env st1 body with
    | .error err => { store := st1, result := .error err }
    | .ok (expense, st2) => { store := st2, result := .ok { status := 201, data := expense } }

/-- The handler of `PUT /api/expenses/:id`. -/
def updateExpense (env : Env) (st : Store) (user : ReqUser) (id : ObjectId)
    (body : ExpenseBody) : Outcome (Reply (Option Expense)) :=
  match expenseFindById st id with
  | none =>
    { store := st
      result := .error (.errorResponse ("Expense not found with id of " ++ toString id) 404) }
  | some expense =>
    if notAuthorized expense user then
      { store := st
        result := .error (.errorResponse
          ("User " ++ toString user.id ++ " is not authorized to update this expense") 401) }
    else
      let checked : Except Failure Store :=
        if truthy body.category && body.category ≠ some expense.category then
          ensureCategory env st user body
        else .ok st
      match checked with
      | .error err => { store := st, result := .error err }
      | .ok st1 =>
        match expenseFindByIdAndUpdate st1 id body with
        | .error err => { store := st1, result := .error err }
        | .ok (updated, st2) => { store := st2, result := .ok { status := 200, data := updated } }

/-- The handler of `DELETE /api/expenses/:id`. -/
def deleteExpense (st : Store) (user : ReqUser) (id : ObjectId) : Outcome (Reply Unit) :=
  match expenseFindById st id with
  | none =>
    { store := st
      result := .error (.errorResponse ("Expense not found with id of " ++ toString id) 404) }
  | some expense =>
    if notAuthorized expense user then
      { store := st
        result := .error (.errorResponse
          ("User " ++ toString user.id ++ " is not authorized to delete this expense") 401) }
    else
      { store := { st with expenses := removeExpense expense.id st.expenses }
        result := .ok { status := 200, data := () } }

/-- The validation that opens `getMonthlyExpenses` and `getCategoryTotals`:
`yearNum = parseInt(year)`, `monthNum = parseInt(month) - 1`, and the test
`isNaN(yearNum) || isNaN(monthNum) || monthNum < 0 || monthNum > 11`.
The result is the pair `(yearNum, monthNum)`. -/
def validateYearMonth (year month : String) : Except Failure (Int × Int) :=
  match parseInt year, parseInt month with
  | some yearNum, some m =>
    let monthNum := m - 1
    if monthNum < 0 ∨ monthNum > 11 then .error (.errorResponse "Invalid year or month" 400)
    else .ok (yearNum, monthNum)
  | _, _ => .error (.errorResponse "Invalid year or month" 400)

/-- The value `startDate = new Date(yearNum, monthNum, 1)`. -/
def windowStart (yearNum monthNum : Int) : Option Int :=
  newDate yearNum monthNum 1 0 0 0 0

/-- The value `endDate = new Date(yearNum, monthNum + 1, 0, 23, 59, 59, 999)`. -/
def windowEnd (yearNum monthNum : Int) : Option Int :=
  newDate yearNum (monthNum + 1) 0 23 59 59 999

/-- The `meta` object of the two monthly reports. -/
structure MonthMeta where
  year : Int
  month : Int
  startDate : Option Int
  endDate : Option Int
  deriving DecidableEq, Repr

/-- The answer of a monthly report: `{ success, count, data, meta }`. -/
structure MonthReply (α : Type) where
  status : Nat
  count : Nat
  data : List α
  meta : MonthMeta
  deriving DecidableEq, Repr

/-- The handler of `GET /api/expenses/monthly/:year/:month`. -/
def getMonthlyExpenses (st : Store) (user : ReqUser) (year month : String) :
    Outcome (MonthReply Expense) :=
  match validateYearMonth year month with
  | .error err => { store := st, result := .error err }
  | .ok (yearNum, monthNum) =>
    let startDate := windowStart yearNum monthNum
    let endDate := windowEnd yearNum monthNum
    match expenseFind st { user := user.id, dateGte := some startDate, dateLte := some endDate } with
    | .error err => { store := st, result := .error err }
    | .ok found =>
      let expenses := found.insertionSort dateAsc
      { store := st
        result := .ok
          { status := 200, count := expenses.length, data := expenses
            meta := { year := yearNum, month := monthNum + 1,
                      startDate := startDate, endDate := endDate } } }

/-- A document produced by the `$group` stage. -/
structure GroupRow where
  key : String
  total : Number
  count : Nat
  deriving DecidableEq, Repr

/-- One step of `$group`: the document joins the group of its category, which
is opened, with the sum 0, when it is the first of that category. The
accumulator `$sum` adds the amounts in the order of the documents, as the
operator `+` of numbers does. -/
def accumulate : List GroupRow → Expense → List GroupRow
  | [], e => [{ key := e.category, total := 0 + e.amount, count := 1 }]
  | r :: rs, e =>
    if r.key = e.category then
      { r with total := r.total + e.amount, count := r.count + 1 } :: rs
    else r :: accumulate rs e

/-- The stage `$group: { _id: "$category", total: { $sum: "$amount" }, count: { $sum: 1 } }`. -/
def groupByCategory (es : List Expense) : List GroupRow :=
  es.foldl accumulate []

/-- Order of the stage `$sort: { total: -1 }`. -/
def totalDesc (a b : GroupRow) : Prop := b.total ≤ a.total

instance : DecidableRel totalDesc := fun a b => inferInstanceAs (Decidable (b.total ≤ a.total))

/-- The time value the driver writes for a `Date`; an Invalid Date is written
as 0. An aggregation pipeline is sent as it is, without casting. -/
def bsonDate (d : Option Int) : Int := d.getD 0

/-- The pipeline `Expense.aggregate([$match, $group, $sort])` of `getCategoryTotals`. -/
def aggregateTotals (st : Store) (uid : ObjectId) (startDate endDate : Option Int) :
    List GroupRow :=
  let matched := st.expenses.filter
    (fun e => e.user = uid && bsonDate startDate ≤ e.date && e.date ≤ bsonDate endDate)
  (groupByCategory matched).insertionSort totalDesc

/-- An element of the `data` of `getCategoryTotals`. -/
structure CategoryTotal where
  category : String
  total : Number
  count : Nat
  color : String
  deriving DecidableEq, Repr

/-- The query `Category.find({ $or: [{ user: req.user.id }, { isDefault: true }] })`. -/
def visibleCategories (st : Store) (uid : ObjectId) : List Category :=
  st.categories.filter (fun c => c.user = some uid || c.isDefault)

/-- The callback of `categoryTotals.map` that adds the colour. -/
def withColor (categories : List Category) (item : GroupRow) : CategoryTotal :=
  let category := categories.find? (fun c => c.name = item.key)
  { category := item.key, total := item.total, count := item.count
    color := match category with
      | some c => c.color
      | none => "#757575" }

/-- The handler of `GET /api/expenses/category-totals/:year/:month`. -/
def getCategoryTotals (st : Store) (user : ReqUser) (year month : String) :
    Outcome (MonthReply CategoryTotal) :=
  match validateYearMonth year month with
  | .error err => { store := st, result := .error err }
  | .ok (yearNum, monthNum) =>
    let startDate := windowStart yearNum monthNum
    let endDate := windowEnd yearNum monthNum
    let categoryTotals := aggregateTotals st user.id startDate endDate
    let categories := visibleCategories st user.id
    let result := categoryTotals.map (withColor categories)
    { store := st
      result := .ok
        { status := 200, count := result.length, data := result
          meta := { year := yearNum, month := monthNum + 1,
                    startDate := startDate, endDate := endDate } } }

/-! ## `controllers/categories.js` -/

/-- Comparison of two strings code point by code point, the simple binary
comparison the database applies to strings: `true` when the first string is
not after the second. -/
def lexLe : List Char → List Char → Bool
  | [], _ => true
  | _ :: _, [] => false
  | a :: as, b :: bs => a.toNat < b.toNat || (a.toNat = b.toNat && lexLe as bs)

/-- Order of `sort("name")`. -/
def nameAsc (a b : Category) : Prop := lexLe a.name.data b.name.data = true

instance : DecidableRel nameAsc :=
  fun a b => inferInstanceAs (Decidable (lexLe a.name.data b.name.data = true))

/-- The handler of `GET /api/categories`. -/
def getCategories (st : Store) (user : ReqUser) : Outcome (ListReply Category) :=
  let categories := (visibleCategories st user.id).insertionSort nameAsc
  { store := st
    result := .ok { status := 200, count := categories.length, data := categories } }

/-- The handler of `POST /api/categories`. -/
def createCategory (st : Store) (user : ReqUser) (body : CategoryBody) :
    Outcome (Reply Category) :=
  let body := { body with user := some user.id }
  match findCategoryByName st.categories body.name user.id with
  | some _ =>
    { store := st
      result := .error (.errorResponse
        ("Category with name " ++ body.name.getD "undefined" ++ " already exists") 400) }
  | none =>
    match categoryCreate st body with
    | .error err => { store := st, result := .error err }
    | .ok (category, st1) => { store := st1, result := .ok { status := 201, data := category } }


/-- The method `Category.findById`. -/
def categoryFindById (st : Store) (id : ObjectId) : Option Category :=
  st.categories.find? (fun c => c.id = id)

/-- The handler of `GET /api/categories/:id`. The test is
`!category.isDefault && category.user && category.user.toString() !== req.user.id`. -/
def getCategory (st : Store) (user : ReqUser) (id : ObjectId) : Outcome (Reply Category) :=
  match categoryFindById st id with
  | none =>
    { store := st
      result := .error (.errorResponse ("Category not found with id of " ++ toString id) 404) }
  | some category =>
    if !category.isDefault && category.user.isSome && category.user ≠ some user.id then
      { store := st
        result := .error (.errorResponse
          ("User " ++ toString user.id ++ " is not authorized to access this category") 401) }
    else { store := st, result := .ok { status := 200, data := category } }

/-- The document after `$set` of the paths present in the update; the setters
of the schema trim `name` and `color`. -/
def applyCategoryUpdate (c : Category) (upd : CategoryBody) : Category :=
  { c with
    name := match upd.name with
      | some n => jsTrim n
      | none => c.name
    color := match upd.color with
      | some col => jsTrim col
      | none => c.color
    user := match upd.user with
      | some u => some u
      | none => c.user
    isDefault := upd.isDefault.getD c.isDefault }

/-- Replacement of the first document with the given id. -/
def replaceCategory (id : ObjectId) (f : Category → Category) : List Category → List Category
  | [] => []
  | c :: cs => if c.id = id then f c :: cs else c :: replaceCategory id f cs

/-- The method `Category.findByIdAndUpdate(id, body, { new: true, runValidators: true })`:
the `required` validator of `name` runs when the update sets `name`, and the
unique index on `name` rejects a changed name that another document has. -/
def categoryFindByIdAndUpdate (st : Store) (id : ObjectId) (upd : CategoryBody) :
    Except Failure (Option Category × Store) :=
  if (upd.name.map jsTrim) = some "" then
    .error (.validationError ["Please add a category name"])
  else
    match categoryFindById st id with
    | none => .ok (none, st)
    | some c =>
      let c1 := applyCategoryUpdate c upd
      if c1.name ≠ c.name && st.categories.any (fun x => x.name = c1.name) then
        .error (.duplicateKey c1.name)
      else
        .ok (some c1, { st with categories := replaceCategory id (fun _ => c1) st.categories })

/-- The handler of `PUT /api/categories/:id`. Reading `category.user.toString()`
of a category without owner throws a `TypeError`. -/
def updateCategory (st : Store) (user : ReqUser) (id : ObjectId) (body : CategoryBody) :
    Outcome (Reply (Option Category)) :=
  match categoryFindById st id with
  | none =>
    { store := st
      result := .error (.errorResponse ("Category not found with id of " ++ toString id) 404) }
  | some category =>
    if category.isDefault then
      { store := st, result := .error (.errorResponse "Cannot modify default category" 401) }
    else
      match category.user with
      | none =>
        { store := st
          result := .error (.typeError "Cannot read properties of undefined (reading toString)") }
      | some owner =>
        if owner ≠ user.id then
          { store := st
            result := .error (.errorResponse
              ("User " ++ toString user.id ++ " is not authorized to update this category") 401) }
        else if truthy body.name && body.name ≠ some category.name &&
            (findCategoryByName st.categories body.name user.id).isSome then
          { store := st
            result := .error (.errorResponse
              ("Category with name " ++ body.name.getD "undefined" ++ " already exists") 400) }
        else
          match categoryFindByIdAndUpdate st id body with
          | .error err => { store := st, result := .error err }
          | .ok (updated, st1) =>
            { store := st1, result := .ok { status := 200, data := updated } }

/-- The document method `deleteOne`: the first document with that id goes. -/
def removeCategory (id : ObjectId) : List Category → List Category
  | [] => []
  | c :: cs => if c.id = id then cs else c :: removeCategory id cs

/-- The query `Expense.countDocuments({ user, category })`. -/
def expenseCountDocuments (st : Store) (uid : ObjectId) (name : String) : Nat :=
  (st.expenses.filter (fun e => e.user = uid && e.category = name)).length

/-- The handler of `DELETE /api/categories/:id`. -/
def deleteCategory (st : Store) (user : ReqUser) (id : ObjectId) : Outcome (Reply Unit) :=
  match categoryFindById st id with
  | none =>
    { store := st
      result := .error (.errorResponse ("Category not found with id of " ++ toString id) 404) }
  | some category =>
    if category.isDefault then
      { store := st, result := .error (.errorResponse "Cannot delete default category" 401) }
    else
      match category.user with
      | none =>
        { store := st
          result := .error (.typeError "Cannot read properties of undefined (reading toString)") }
      | some owner =>
        if owner ≠ user.id then
          { store := st
            result := .error (.errorResponse
              ("User " ++ toString user.id ++ " is not authorized to delete this category") 401) }
        else
          let expenseCount := expenseCountDocuments st user.id category.name
          if expenseCount > 0 then
            { store := st
              result := .error (.errorResponse
                ("Cannot delete category that is in use by " ++ toString expenseCount ++
                  " expenses") 400) }
          else
            { store := { st with categories := removeCategory category.id st.categories }
              result := .ok { status := 200, data := () } }

/-! ## `controllers/auth.js` -/

/-- A document of the `User` collection, with the fields the controller reads
and writes. -/
structure User where
  id : ObjectId
  username : String
  email : String
  password : String
  role : String
  resetPasswordToken : Option String
  resetPasswordExpire : Option Int
  deriving DecidableEq, Repr

/-- The methods of the `User` model that `controllers/auth.js` calls and the
hash of `crypto`; `models/user.js` is required by the controller, and its
methods are taken as they come: `matchPassword` compares a plain password with
the stored hash, `hashPassword` is what the save hook stores for a modified
password, `passwordErrors` lists the messages of the validators that reject a
password at `save`, `getSignedJwtToken` signs the token of a user, and
`sha256` is `crypto.createHash("sha256").update(s).digest("hex")`. -/
structure UserModel where
  matchPassword : User → String → Bool
  hashPassword : String → String
  passwordErrors : String → List String
  getSignedJwtToken : User → String
  sha256 : String → String

/-- What a request to the auth routes sees of its surroundings: the clock, the
value of `crypto.randomBytes(20).toString("hex")`, whether the mail transport
delivers, and the variables `JWT_COOKIE_EXPIRE`, `NODE_ENV` and `FRONTEND_URL`. -/
structure AuthEnv where
  now : Int
  randomHex : String
  mailDelivers : Bool
  jwtCookieExpire : Option Int := none
  nodeEnv : Option String := none
  frontendUrl : Option String := none

/-- The cookie set by `sendTokenResponse`. -/
structure Cookie where
  name : String
  value : String
  expires : Int
  httpOnly : Bool
  secure : Bool
  deriving DecidableEq, Repr

/-- The `user` object of the answer of `sendTokenResponse`. -/
structure Profile where
  id : ObjectId
  username : String
  email : String
  role : String
  deriving DecidableEq, Repr

/-- The JSON body `{ success, token, user }` of `sendTokenResponse`. -/
structure TokenReply where
  status : Nat
  token : String
  user : Profile
  deriving DecidableEq, Repr

/-- A message handed to `sendEmail`. -/
structure Mail where
  email : String
  subject : String
  resetUrl : String
  deriving DecidableEq, Repr

/-- The state of the `User` collection after a request to an auth route, the
cookie the answer sets, the mail handed to the transport, and the answer. -/
structure AuthOutcome (α : Type) where
  users : List User
  cookie : Option Cookie
  mail : Option Mail
  result : Except Failure α

/-- The helper `sendTokenResponse`. -/
def sendTokenResponse (M : UserModel) (env : AuthEnv) (users : List User) (user : User)
    (statusCode : Nat) : AuthOutcome TokenReply :=
  let token := M.getSignedJwtToken user
  { users := users
    cookie := some
      { name := "token", value := token
        expires := env.now + env.jwtCookieExpire.getD 30 * 24 * 60 * 60 * 1000
        httpOnly := true
        secure := env.nodeEnv = some "production" }
    mail := none
    result := .ok
      { status := statusCode, token := token
        user := { id := user.id, username := user.username, email := user.email,
                  role := user.role } } }

/-- The handler of `POST /api/auth/login`. -/
def login (M : UserModel) (env : AuthEnv) (users : List User) (email password : Option String) :
    AuthOutcome TokenReply :=
  if !truthy email || !truthy password then
    { users := users, cookie := none, mail := none
      result := .error (.errorResponse "Please provide an email and password" 400) }
  else
    match users.find? (fun u => some u.email = email) with
    | none =>
      { users := users, cookie := none, mail := none
        result := .error (.errorResponse "Invalid credentials" 401) }
    | some user =>
      let isMatch := M.matchPassword user (password.getD "")
      if !isMatch then
        { users := users, cookie := none, mail := none
          result := .error (.errorResponse "Invalid credentials" 401) }
      else sendTokenResponse M env users user 200

/-- Replacement of the first document with the given id: what `user.save()`
writes. -/
def replaceUser (id : ObjectId) (u1 : User) : List User → List User
  | [] => []
  | u :: us => if u.id = id then u1 :: us else u :: replaceUser id u1 us

/-- The answer `{ success, data: "Email sent", meta }` of `forgotPassword`. -/
structure MailReply where
  status : Nat
  data : String
  expiresIn : String
  deriving DecidableEq, Repr

/-- The handler of `POST /api/auth/forgot-password`. The two calls of
`user.save({ validateBeforeSave: false })` write without validation. -/
def forgotPassword (M : UserModel) (env : AuthEnv) (users : List User) (email : Option String) :
    AuthOutcome MailReply :=
  match users.find? (fun u => some u.email = email) with
  | none =>
    { users := users, cookie := none, mail := none
      result := .error (.errorResponse "There is no user with that email" 404) }
  | some user =>
    let resetToken := env.randomHex
    let user1 : User :=
      { user with
        resetPasswordToken := some (M.sha256 resetToken)
        resetPasswordExpire := some (env.now + 10 * 60 * 1000) }
    let users1 := replaceUser user.id user1 users
    let frontendBaseUrl :=
      if truthy env.frontendUrl then env.frontendUrl.getD "" else "http://localhost:3000"
    let resetUrl := frontendBaseUrl ++ "/reset-password/" ++ resetToken
    let mail : Mail :=
      { email := user1.email, subject := "Password Reset for Expense Tracker",
        resetUrl := resetUrl }
    if env.mailDelivers then
      { users := users1, cookie := none, mail := some mail
        result := .ok { status := 200, data := "Email sent", expiresIn := "10 minutes" } }
    else
      let user2 : User :=
        { user1 with resetPasswordToken := none, resetPasswordExpire := none }
      { users := replaceUser user.id user2 users1, cookie := none, mail := none
        result := .error (.errorResponse "Email could not be sent" 500) }

/-- The query `User.findOne({ resetPasswordToken, resetPasswordExpire: { $gt: Date.now() } })`. -/
def findByResetToken (users : List User) (resetPasswordToken : String) (now : Int) :
    Option User :=
  users.find? (fun u =>
    u.resetPasswordToken = some resetPasswordToken &&
    (match u.resetPasswordExpire with
      | some expire => decide (expire > now)
      | none => false))

/-- The handler of `PUT /api/auth/reset-password/:resettoken`. The call of
`user.save()` validates and, for the modified password, stores its hash. -/
def resetPassword (M : UserModel) (env : AuthEnv) (users : List User) (resettoken : String)
    (password : String) : AuthOutcome TokenReply :=
  let resetPasswordToken := M.sha256 resettoken
  match findByResetToken users resetPasswordToken env.now with
  | none =>
    { users := users, cookie := none, mail := none
      result := .error (.errorResponse "Invalid token" 400) }
  | some user =>
    if M.passwordErrors password = [] then
      let user1 : User :=
        { user with
          password := M.hashPassword password
          resetPasswordToken := none
          resetPasswordExpire := none }
      sendTokenResponse M env (replaceUser user.id user1 users) user1 200
    else
      { users := users, cookie := none, mail := none
        result := .error (.validationError (M.passwordErrors password)) }

/-! ## The global error handler of `server.js` -/

/-- The property `err.message`. For the errors thrown by the model methods the
text stands for the message the library composes. -/
def Failure.message : Failure → String
  | .errorResponse message _ => message
  | .validationError messages => "Validation failed: " ++ ", ".intercalate messages
  | .duplicateKey name => "E11000 duplicate key error, dup key: name: " ++ name
  | .castError path => "Cast failed for value at path " ++ path
  | .typeError message => message

/-- The JSON body the global error handler sends. The field `error` is `none`
for the empty object and `some err` for the error object itself, which is
serialised with its enumerable properties: the `statusCode` of an
`ErrorResponse`, the `errors` of a validation error, the key pattern and key
value of a duplicate-key error. -/
structure ErrorBody where
  status : Nat
  message : String
  error : Option Failure
  deriving DecidableEq, Repr

/-- The global error handler: `statusCode = err.statusCode || 500`,
`message: err.message || "Something went wrong!"` and
`error: process.env.NODE_ENV === "production" ? {} : err`. -/
def errorHandler (nodeEnv : Option String) (err : Failure) : ErrorBody :=
  let statusCode := statusOf err
  { status := statusCode
    message := if err.message ≠ "" then err.message else "Something went wrong!"
    error := if nodeEnv = some "production" then none else some err }

/-! ## Frontend: `utils/exportUtils.js` and `utils/exportToCSV.js` -/

/-- An expense as the frontend holds it: the date is the text received from
the API. -/
structure ClientExpense where
  date : String
  category : String
  description : Option String
  amount : Number
  deriving DecidableEq, Repr

/-- The method `Array.prototype.join` for a separator of one character, on
lists of characters. -/
def joinChars (sep : Char) : List (List Char) → List Char
  | [] => []
  | [x] => x
  | x :: y :: rest => x ++ sep :: joinChars sep (y :: rest)

/-! ## Numbers as text -/

/-- The units of the double nearest to `v × 10 ^ p`. -/
def decimalUnits (v : Nat) (p : Int) : Nat :=
  roundRatio (v * 10 ^ p.toNat) (10 ^ (-p).toNat)

/-- The least `j`, from the given one on, for which `a × 10 ^ j` units reach 1. -/
def leadingShift : Nat → Nat → Nat → Nat
  | 0, _, j => j
  | fuel + 1, a, j => if 1 <<< 1074 ≤ a * 10 ^ j then j else leadingShift fuel a (j + 1)

/-- The decimal exponent `n` of a positive magnitude `a` in units of 2^-1074:
`10 ^ (n - 1) ≤ a × 2^-1074 < 10 ^ n`. -/
def decimalExponent (a : Nat) : Int :=
  if 1 <<< 1074 ≤ a then ((toString (a >>> 1074)).length : Int)
  else 1 - (leadingShift 400 a 1 : Int)

/-- The integer `s` of `k` digits for which `s × 10 ^ (n - k)` reads as the
number of magnitude `a`, if there is one: of the two integers next to the
exact quotient, one that reads back, the nearer one when both do and the even
one when they are equally near. -/
def digitsOfLength (a : Nat) (n : Int) (k : Nat) : Option (Nat × Int) :=
  let p := n - (k : Int)
  let num := a * 10 ^ (-p).toNat
  let den := (10 ^ p.toNat) <<< 1074
  let lo := num / den
  let rem := num % den
  let okLo := decide (decimalUnits lo p = a)
  let okHi := decide (decimalUnits (lo + 1) p = a)
  if okLo && okHi then
    some (if 2 * rem < den then lo else if den < 2 * rem then lo + 1
      else if lo % 2 = 0 then lo else lo + 1, p)
  else if okLo then some (lo, p)
  else if okHi then some (lo + 1, p)
  else none

/-- The decimal digits without the zeros at the end. -/
def stripZeros (ds : List Char) : List Char :=
  (ds.reverse.dropWhile (fun c => c = '0')).reverse

/-- The digits and the exponent `n` of ECMAScript `Number::toString` for a
positive magnitude: the shortest decimal, of at most 17 digits, that reads back
as the number. -/
def shortestDigits (a : Nat) : List Char × Int :=
  match (List.range 17).findSome? (fun i => digitsOfLength a (decimalExponent a) (i + 1)) with
  | some (v, p) => (stripZeros (toString v).data, ((toString v).length : Int) + p)
  | none => (['0'], 1)

/-- The layout of ECMAScript `Number::toString`: plain digits, digits with a
decimal point, or exponent notation when `n` is above 21 or below -5. -/
def layoutNumber (digits : List Char) (n : Int) : List Char :=
  let k : Int := digits.length
  if k ≤ n ∧ n ≤ 21 then digits ++ List.replicate (n - k).toNat '0'
  else if 0 < n ∧ n ≤ 21 then digits.take n.toNat ++ '.' :: digits.drop n.toNat
  else if -6 < n ∧ n ≤ 0 then '0' :: '.' :: (List.replicate (-n).toNat '0' ++ digits)
  else
    let exponent := (if n - 1 < 0 then '-' else '+') :: (toString (n - 1).natAbs).data
    if digits.length = 1 then digits ++ 'e' :: exponent
    else digits.take 1 ++ '.' :: (digits.drop 1 ++ 'e' :: exponent)

/-- The text of a number: ECMAScript `Number::toString` with radix 10. -/
def numberToString (x : Number) : String :=
  if x.units = 0 then "0"
  else
    let (digits, n) := shortestDigits x.units.natAbs
    String.mk ((if x.units < 0 then ['-'] else []) ++ layoutNumber digits n)

/-- The method `Number.prototype.toFixed(2)`: the integer nearest to 100 times
the magnitude, the larger of two equally near, written with a decimal point
before its last two digits; from 10^21 on, the text of the number. -/
def toFixed2 (x : Number) : String :=
  let a := x.units.natAbs
  let s := if x.units < 0 then ['-'] else []
  if (10 ^ 21) <<< 1074 ≤ a then
    String.mk (s ++ (numberToString ⟨(a : Int)⟩).data)
  else
    let n := (200 * a + 1 <<< 1074) >>> 1075
    let m := (toString n).data
    let m := List.replicate (3 - m.length) '0' ++ m
    String.mk (s ++ m.take (m.length - 2) ++ '.' :: m.drop (m.length - 2))

/-- The value `expense.description || ""`. -/
def descriptionOrEmpty (d : Option String) : String :=
  if truthy d then d.getD "" else ""

/-- The rows `csvRows` of `exportToCSV` in `utils/exportUtils.js`; the helper
`formatDate` of `utils/dateUtils` is a parameter. -/
def csvRows (formatDate : String → String) (expenses : List ClientExpense) :
    List (List String) :=
  ["Date", "Category", "Description", "Amount"] ::
    expenses.map (fun expense =>
      [formatDate expense.date, expense.category, descriptionOrEmpty expense.description,
       toFixed2 expense.amount])

/-- The text `csvString = csvRows.map((row) => row.join(",")).join("\n")`. -/
def csvString (rows : List (List String)) : String :=
  String.mk (joinChars '\n' (rows.map (fun row => joinChars ',' (row.map String.data))))

/-- The function `exportToCSV` of `utils/exportUtils.js`: `none` when there is
nothing to export, otherwise the text handed to the download. -/
def exportToCSV (formatDate : String → String) (expenses : List ClientExpense) :
    Option String :=
  if expenses.length = 0 then none
  else some (csvString (csvRows formatDate expenses))

/-- The function `exportToCSV` of `utils/exportToCSV.js`: the fields are joined
as they are, an absent description as the empty text. -/
def exportToCSVPlain (expenses : List ClientExpense) : String :=
  csvString
    (["Date", "Category", "Description", "Amount"] ::
      expenses.map (fun exp =>
        [exp.date, exp.category, exp.description.getD "",
         numberToString exp.amount]))

/-! ## Frontend: `pages/MonthlyReport.jsx`

The page reads dates in the local time of the browser. The zone is a fixed
offset from UTC; changes of the offset during the year are not modelled. -/

/-- ECMAScript `Day`. -/
def dayOfTime (t : Int) : Int :=
  t / 86400000

/-- ECMAScript `YearFromTime`: the largest year whose first day is not after
the day of `t`, found next to the estimate from the mean length of a year. -/
def yearFromTime (t : Int) : Int :=
  let d := dayOfTime t
  let e := 1970 + 400 * d / 146097
  if dayFromYear (e + 1) ≤ d then e + 1
  else if dayFromYear e ≤ d then e
  else e - 1

/-- ECMAScript `DayWithinYear`. -/
def dayWithinYear (t : Int) : Int :=
  dayOfTime t - dayFromYear (yearFromTime t)

/-- The table of ECMAScript `MonthFromTime`: the month (0-based) of day `d` of
a year, counted from 0. -/
def monthFromDay (leap : Bool) (d : Int) : Int :=
  let l : Int := if leap then 1 else 0
  if d < 31 then 0
  else if d < 59 + l then 1
  else if d < 90 + l then 2
  else if d < 120 + l then 3
  else if d < 151 + l then 4
  else if d < 181 + l then 5
  else if d < 212 + l then 6
  else if d < 243 + l then 7
  else if d < 273 + l then 8
  else if d < 304 + l then 9
  else if d < 334 + l then 10
  else 11

/-- ECMAScript `MonthFromTime` (0-based). -/
def monthFromTime (t : Int) : Int :=
  monthFromDay (inLeapYear (yearFromTime t)) (dayWithinYear t)

/-- ECMAScript `DateFromTime`: the day of the month, from 1. -/
def dateFromTime (t : Int) : Int :=
  dayWithinYear t + 1 - daysBeforeMonth (inLeapYear (yearFromTime t)) (monthFromTime t)

/-- What the page takes from the browser: the reading `new Date(text)` of a
date text (`none` is an Invalid Date), the offset of local time from UTC in
milliseconds, and the time of rendering. -/
structure Browser where
  parse : String → Option Int
  offset : Int
  now : Int

/-- ECMAScript `LocalTime`. -/
def localTime (b : Browser) (t : Int) : Int :=
  t + b.offset

/-- The method `getFullYear`; `none` is NaN. -/
def getFullYear (b : Browser) (date : Option Int) : Option Int :=
  date.map (fun t => yearFromTime (localTime b t))

/-- The method `getMonth`; `none` is NaN. -/
def getMonth (b : Browser) (date : Option Int) : Option Int :=
  date.map (fun t => monthFromTime (localTime b t))

/-- The method `getDate`; `none` is NaN. -/
def getDate (b : Browser) (date : Option Int) : Option Int :=
  date.map (fun t => dateFromTime (localTime b t))

/-- The constructor `new Date(year, month, date)` in the browser: the local
midnight of that day. -/
def newDateLocal (b : Browser) (year month date : Int) : Option Int :=
  timeClip (makeDate (makeDay (makeFullYear year) month date) (makeTime 0 0 0 0) - b.offset)

/-- The year of `currentDate`. -/
def currentYear (b : Browser) : Int :=
  yearFromTime (localTime b b.now)

/-- The list `years` offered for selection: the past five years and the
current one. -/
def years (b : Browser) : List Int :=
  (List.range 6).map (fun (i : Nat) => currentYear b - 5 + (i : Int))

/-- The list `filteredExpenses`: a comparison with NaN is false. -/
def filteredExpenses (b : Browser) (expenses : List ClientExpense)
    (selectedMonth selectedYear : Int) : List ClientExpense :=
  expenses.filter (fun expense =>
    let expenseDate := b.parse expense.date
    decide (getMonth b expenseDate = some selectedMonth) &&
      decide (getFullYear b expenseDate = some selectedYear))

/-- The value `totalAmount`. -/
def totalAmount (filtered : List ClientExpense) : Number :=
  filtered.foldl (fun sum expense => sum + expense.amount) 0

/-- A number that may be NaN (`none`), plus a number. -/
def numAdd (a b : Option Number) : Option Number :=
  match a, b with
  | some x, some y => some (x + y)
  | _, _ => none

/-- The object `dayMap`: its entries in the order of `Object.keys`, integer
keys ascending and the key `NaN` (`none`) after them; a value `none` is NaN. -/
abbrev DayMap := List (Option Int × Option Number)

/-- Order of the keys of a `dayMap`. -/
def keyBefore : Option Int → Option Int → Bool
  | some a, some b => decide (a < b)
  | some _, none => true
  | none, _ => false

/-- The loop `for (let i = 1; i <= daysInMonth; i++) dayMap[i] = 0`; it does
not run when `daysInMonth` is NaN. -/
def initDayMap : Option Int → DayMap
  | none => []
  | some n => (List.range n.toNat).map (fun (i : Nat) => (some ((i : Int) + 1), some 0))

/-- The statement `dayMap[day] += amount`: a key that is absent reads as
`undefined`, and `undefined + amount` is NaN. -/
def addToDay : DayMap → Option Int → Number → DayMap
  | [], day, _ => [(day, none)]
  | (k, v) :: rest, day, amount =>
    if k = day then (k, numAdd v (some amount)) :: rest
    else if keyBefore day k then (day, none) :: (k, v) :: rest
    else (k, v) :: addToDay rest day amount

/-- The object `expensesByDay`. -/
def expensesByDay (b : Browser) (filtered : List ClientExpense)
    (selectedMonth selectedYear : Int) : DayMap :=
  let daysInMonth := getDate b (newDateLocal b selectedYear (selectedMonth + 1) 0)
  filtered.foldl
    (fun dayMap expense => addToDay dayMap (getDate b (b.parse expense.date)) expense.amount)
    (initDayMap daysInMonth)

/-- The loop that fills `cumulativeData` from the daily amounts. -/
def cumulativeData : Option Number → List (Option Number) → List (Option Number)
  | _, [] => []
  | runningTotal, amount :: rest =>
    numAdd runningTotal amount :: cumulativeData (numAdd runningTotal amount) rest

/-- The labels and the data of `lineChartData`. -/
structure LineChart where
  labels : List (Option Int)
  data : List (Option Number)
  deriving DecidableEq, Repr

/-- The value `lineChartData`. -/
def lineChartData (expensesByDay : DayMap) : LineChart :=
  let days := expensesByDay.map Prod.fst
  let dailyAmounts := expensesByDay.map Prod.snd
  { labels := days, data := cumulativeData (some 0) dailyAmounts }

/-! ## Specification-side functions -/

/-- The sum of a list of numbers as floating-point addition gives it: from 0,
one number after the other, each addition rounded to a double. -/
def sumFromZero (xs : List Number) : Number :=
  xs.foldl (fun acc x => acc + x) 0

/-- Sum of the amounts of the documents that carry the category name `k`, in
the order of the documents. -/
def sumAmounts (k : String) (es : List Expense) : Number :=
  sumFromZero ((es.filter (fun e => e.category = k)).map (fun e => e.amount))

/-- The whole part of a number that is not negative. -/
def Number.whole (x : Number) : Nat :=
  x.units.toNat >>> 1074

/-- The number is a whole number that is not negative. -/
def IsWhole (x : Number) : Prop :=
  x = Number.ofNat x.whole

instance (x : Number) : Decidable (IsWhole x) :=
  inferInstanceAs (Decidable (x = Number.ofNat x.whole))

/-- The exact sum of the whole parts. -/
def wholeSum (xs : List Number) : Nat :=
  (xs.map Number.whole).sum

/-- The numbers are whole, not negative, and add up to at most 2^53: every
sum of some of them is a double, so that no addition rounds. -/
def WholeAmounts (xs : List Number) : Prop :=
  (∀ x ∈ xs, IsWhole x) ∧ wholeSum xs ≤ 9007199254740992

instance (xs : List Number) : Decidable (WholeAmounts xs) :=
  inferInstanceAs (Decidable ((∀ x ∈ xs, IsWhole x) ∧ wholeSum xs ≤ 9007199254740992))

/-- The lists obtained by putting `x` at each place of a list. -/
def insertAll {α : Type} (x : α) : List α → List (List α)
  | [] => [[x]]
  | y :: ys => (x :: y :: ys) :: (insertAll x ys).map (fun l => y :: l)

/-- The orders in which the elements of a list can be taken. -/
def orders {α : Type} : List α → List (List α)
  | [] => [[]]
  | x :: xs => (orders xs).flatMap (insertAll x)

/-- The exact sum of a list of numbers, in units of 2^-1074. -/
def exactSum (xs : List Number) : Int :=
  (xs.map (fun x => x.units)).sum

/-- Number of the documents that carry the category name `k`. -/
def countOf (k : String) (es : List Expense) : Nat :=
  (es.filter (fun e => e.category = k)).length

/-- The total of the first row with key `k`, 0 when there is none. -/
def rowsTotal (k : String) (rows : List GroupRow) : Number :=
  ((rows.find? (fun r => r.key = k)).map (fun r => r.total)).getD 0

/-- Sum of the counts of the rows with key `k`. -/
def rowsCount (k : String) (rows : List GroupRow) : Nat :=
  ((rows.filter (fun r => r.key = k)).map (fun r => r.count)).sum

/-- The expenses of a user dated inside the closed window from `s` to `e`. -/
def monthExpenses (st : Store) (uid : ObjectId) (s e : Int) : List Expense :=
  st.expenses.filter (fun x => x.user = uid && s ≤ x.date && x.date ≤ e)

/-- The store of the worked example: three expenses of user 7 in August 2025
(Food 10, Food 20, Transport 5), one of them at the first instant and one at
the last millisecond of the month, a fourth one millisecond later, a fifth
one millisecond before the month, and one expense of another user. -/
def exampleStore : Store :=
  { categories :=
      [{ id := 1, name := "Food", color := "#FF5722", user := none, isDefault := true },
       { id := 2, name := "Transport", color := "#2196F3", user := none, isDefault := true }]
    expenses :=
      [{ id := 3, amount := 5, category := "Transport", description := none,
         date := 1755000000000, user := 7 },
       { id := 4, amount := 10, category := "Food", description := none,
         date := 1754006400000, user := 7 },
       { id := 5, amount := 20, category := "Food", description := none,
         date := 1756684799999, user := 7 },
       { id := 6, amount := 50, category := "Food", description := none,
         date := 1756684800000, user := 7 },
       { id := 7, amount := 40, category := "Bills", description := none,
         date := 1754006399999, user := 7 },
       { id := 8, amount := 99, category := "Food", description := none,
         date := 1755000000000, user := 8 }]
    nextId := 9 }

/-- The requester of the worked example. -/
def exampleUser : ReqUser := { id := 7, role := "user" }

/-- A report over the expenses `es`: one entry for each category name that
occurs in `es` and no other entry, each entry with the sum of the amounts and
the number of the expenses of its name. -/
def IsCategoryReport (es : List Expense) (data : List CategoryTotal) : Prop :=
  (data.map (fun r => r.category)).Nodup ∧
  (∀ k, k ∈ data.map (fun r => r.category) ↔ ∃ x ∈ es, x.category = k) ∧
  (∀ r ∈ data, r.total = sumAmounts r.category es ∧ r.count = countOf r.category es)

/-- Number of days of month `m` (1..12) of year `y` by the Gregorian rule. -/
def daysInMonth (y m : Int) : Int :=
  if m = 2 then (if (y % 4 = 0 ∧ y % 100 ≠ 0) ∨ y % 400 = 0 then 29 else 28)
  else if m = 4 ∨ m = 6 ∨ m = 9 ∨ m = 11 then 30
  else 31

/-- The time value of `h:mi:s.ms` on day `d` of month `m` (1..12) of year `y`. -/
def civilTime (y m d h mi s ms : Int) : Int :=
  makeDate (makeDay y (m - 1) d) (makeTime h mi s ms)

/-- The text is a decimal numeral, with an optional sign, of an integer from 1
to 12: the reading of "the month parameter is an integer in 1..12". -/
def isMonthText (s : String) : Bool :=
  let ds := match s.data with
    | '+' :: r => r
    | r => r
  ds ≠ [] && ds.all Char.isDigit &&
    decide (1 ≤ ds.foldl (fun n c => 10 * n + (c.toNat - 48)) 0) &&
    decide (ds.foldl (fun n c => 10 * n + (c.toNat - 48)) 0 ≤ 12)

/-- An administrator who owns no expense of the worked example. -/
def exampleAdmin : ReqUser := { id := 1, role := "admin" }

/-- A requester who is neither the owner of the expenses of user 7 nor an
administrator. -/
def exampleOther : ReqUser := { id := 8, role := "user" }

/-- The surroundings of the worked examples. -/
def exampleEnv : Env := { now := 1755000000000, random := 255 }

/-- A supplied query value is usable: it is not the empty string and, when a
parser is given, the parser reads it. -/
def usable {α : Type} (parse : Option (String → Option α)) : Option String → Bool
  | none => true
  | some s => s ≠ "" &&
    (match parse with
      | some p => (p s).isSome
      | none => true)

/-- Every supplied filter of the query is usable. -/
def wellFormedQuery (P : Parsers) (q : ExpenseQuery) : Bool :=
  usable (some P.date) q.startDate && usable (some P.date) q.endDate &&
  usable (none : Option (String → Option Int)) q.category &&
  usable (some P.float) q.minAmount && usable (some P.float) q.maxAmount

/-- The lower bound `b ≤ v` of a supplied and parsed filter; an absent filter
imposes nothing. -/
def atLeast {α : Type} [LinearOrder α] (parse : String → Option α) (filter : Option String)
    (v : α) : Bool :=
  match filter.bind parse with
  | some b => b ≤ v
  | none => true

/-- The upper bound `v ≤ b` of a supplied and parsed filter; an absent filter
imposes nothing. -/
def atMost {α : Type} [LinearOrder α] (parse : String → Option α) (filter : Option String)
    (v : α) : Bool :=
  match filter.bind parse with
  | some b => v ≤ b
  | none => true

/-- The expense is owned by `uid` and satisfies every supplied filter. -/
def satisfiesFilters (P : Parsers) (uid : ObjectId) (q : ExpenseQuery) (x : Expense) : Bool :=
  x.user = uid &&
  atLeast P.date q.startDate x.date && atMost P.date q.endDate x.date &&
  (match q.category with
    | some c => x.category = c
    | none => true) &&
  atLeast P.float q.minAmount x.amount && atMost P.float q.maxAmount x.amount

/-- Parsers of the worked example, defined on the two texts it uses:
`new Date("2025-08-01")` and `parseFloat("10")`. -/
def exampleParsers : Parsers :=
  { date := fun s => if s = "2025-08-01" then some 1754006400000 else none
    float := fun s => if s = "10" then some 10 else none }

/-- A category with the stored name `n` is visible to `uid`: owned by `uid` or
default. -/
def hasVisibleCategory (st : Store) (uid : ObjectId) (n : String) : Prop :=
  ∃ c ∈ st.categories, c.name = n ∧ (c.user = some uid ∨ c.isDefault = true)

/-- Stored category names are trimmed, as every name written through the
schema is. -/
def TrimmedNames (st : Store) : Prop :=
  ∀ c ∈ st.categories, jsTrim c.name = c.name

/-- A store in which user 8 owns the category "Gifts" and user 7 owns none. -/
def sharedNameStore : Store :=
  { categories :=
      [{ id := 1, name := "Food", color := "#FF5722", user := none, isDefault := true },
       { id := 2, name := "Gifts", color := "#795548", user := some 8, isDefault := false }]
    expenses := []
    nextId := 3 }

/-- A store with a default category in use, a category of user 7 in use, an
unused category of user 7, a category of user 8 and a category that is neither
default nor owned. -/
def categoryStore : Store :=
  { categories :=
      [{ id := 1, name := "Food", color := "#FF5722", user := none, isDefault := true },
       { id := 2, name := "Gifts", color := "#795548", user := some 7, isDefault := false },
       { id := 3, name := "Education", color := "#00BCD4", user := some 7, isDefault := false },
       { id := 4, name := "Pets", color := "#123456", user := some 8, isDefault := false },
       { id := 5, name := "Orphan", color := "#654321", user := none, isDefault := false }]
    expenses :=
      [{ id := 6, amount := 12, category := "Food", description := none,
         date := 1755000000000, user := 7 },
       { id := 7, amount := 30, category := "Gifts", description := none,
         date := 1755000000000, user := 7 },
       { id := 8, amount := 30, category := "Education", description := none,
         date := 1755000000000, user := 8 }]
    nextId := 9 }

/-- No two categories visible to the same user, owned by that user or default,
have the same stored name. -/
def VisibleUnique (st : Store) : Prop :=
  ∀ uid : ObjectId, ((visibleCategories st uid).map (fun c => c.name)).Nodup

/-- All stored category names are distinct: what the unique index on `name`
maintains. -/
def NamesDistinct (st : Store) : Prop :=
  (st.categories.map (fun c => c.name)).Nodup

/-- A `User` model for the worked examples: the stored hash of a password is
the password behind "h:", a password shorter than six characters is refused,
the token of a user is "jwt-" and the user name, and the digest of a text is
the text behind "sha:". -/
def exampleModel : UserModel :=
  { matchPassword := fun u p => u.password = "h:" ++ p
    hashPassword := fun p => "h:" ++ p
    passwordErrors := fun p => if p.length < 6 then ["Password is too short"] else []
    getSignedJwtToken := fun u => "jwt-" ++ u.username
    sha256 := fun s => "sha:" ++ s }

/-- Two users: ann without a reset token, bob with a pending one that expires
at time 2000000. -/
def exampleUsers : List User :=
  [{ id := 1, username := "ann", email := "ann@example.com", password := "h:secret1",
     role := "user", resetPasswordToken := none, resetPasswordExpire := none },
   { id := 2, username := "bob", email := "bob@example.com", password := "h:secret2",
     role := "user", resetPasswordToken := some "sha:old", resetPasswordExpire := some 2000000 }]

/-- A request at time 1000000 whose random token is "abc" and whose mail is
delivered. -/
def exampleAuthEnv : AuthEnv :=
  { now := 1000000, randomHex := "abc", mailDelivers := true }

/-- A store in which user 7 spends on "Food" (a default category), on "Gifts"
(a category of user 7), on "Pets" (a category of user 8 only) and on "Misc"
(no category at all) in August 2025. -/
def colourStore : Store :=
  { categories :=
      [{ id := 1, name := "Food", color := "#FF5722", user := none, isDefault := true },
       { id := 2, name := "Gifts", color := "#795548", user := some 7, isDefault := false },
       { id := 3, name := "Pets", color := "#123456", user := some 8, isDefault := false }]
    expenses :=
      [{ id := 4, amount := 40, category := "Food", description := none,
         date := 1755000000000, user := 7 },
       { id := 5, amount := 30, category := "Gifts", description := none,
         date := 1755000000000, user := 7 },
       { id := 6, amount := 20, category := "Pets", description := none,
         date := 1755000000000, user := 7 },
       { id := 7, amount := 10, category := "Misc", description := none,
         date := 1755000000000, user := 7 }]
    nextId := 8 }

/-- A hexadecimal digit. -/
def isHexDigit (c : Char) : Bool :=
  (48 ≤ c.toNat && c.toNat ≤ 57) || (97 ≤ c.toNat && c.toNat ≤ 102) ||
  (65 ≤ c.toNat && c.toNat ≤ 70)

/-- A well-formed display hex colour: "#" followed by exactly six hexadecimal
digits. -/
def isHexColour (s : String) : Bool :=
  match s.data with
  | '#' :: ds => ds.length = 6 && ds.all isHexDigit
  | _ => false

/-- The method `String.prototype.split` for a separator of one character, on
lists of characters. -/
def splitChars (sep : Char) : List Char → List (List Char)
  | [] => [[]]
  | c :: cs =>
    if c = sep then [] :: splitChars sep cs
    else
      match splitChars sep cs with
      | [] => [[c]]
      | f :: fs => (c :: f) :: fs

/-- The text holds neither a comma nor a line break. -/
def plainText (s : String) : Prop :=
  ',' ∉ s.data ∧ '\n' ∉ s.data

/-- Three expenses for the export; the second has a comma in its category and
the third a line break in its description. -/
def exportExamples : List ClientExpense :=
  [{ date := "2025-08-01", category := "Food", description := some "Lunch", amount := 10 },
   { date := "2025-08-02", category := "Food, drinks", description := none, amount := 20 },
   { date := "2025-08-03", category := "Bills", description := some "Rent\nAugust",
     amount := 5 }]

/-- Two expenses for the export whose texts hold neither a comma nor a line
break. -/
def exportPlainExamples : List ClientExpense :=
  [{ date := "2025-08-01", category := "Food", description := some "Lunch \"out\"",
     amount := 10 },
   { date := "2025-08-02", category := "Bills", description := none, amount := -20 }]

/-- The sum of the amounts of the expenses dated on day `d` of the month, in
the order of the list. -/
def dayTotal (b : Browser) (filtered : List ClientExpense) (d : Int) : Number :=
  sumFromZero ((filtered.filter (fun e => decide (getDate b (b.parse e.date) = some d))).map
    (fun e => e.amount))

/-- The sum of the totals of days 1 to `d`, in this order. -/
def totalUpTo (b : Browser) (filtered : List ClientExpense) (d : Nat) : Number :=
  sumFromZero ((List.range d).map (fun (j : Nat) => dayTotal b filtered ((j : Int) + 1)))

/-- A browser two hours ahead of UTC on 12 August 2025 that reads five date
texts; any other text is an Invalid Date. -/
def exampleBrowser : Browser where
  parse := fun s =>
    if s = "2025-08-01T10:00:00.000Z" then some 1754042400000
    else if s = "2025-08-02T10:00:00.000Z" then some 1754128800000
    else if s = "2025-08-31T21:59:59.999Z" then some 1756677599999
    else if s = "2025-08-31T22:00:00.000Z" then some 1756677600000
    else if s = "2025-07-31T22:30:00.000Z" then some 1754001000000
    else none
  offset := 7200000
  now := 1755000000000

/-- Expenses for the monthly report: two in August 2025, one in September by
local time, one in July by UTC but in August by local time, and one whose
date cannot be read. -/
def reportExamples : List ClientExpense :=
  [{ date := "2025-08-01T10:00:00.000Z", category := "Food", description := none, amount := 10 },
   { date := "2025-08-31T21:59:59.999Z", category := "Food", description := none, amount := 7 },
   { date := "2025-08-31T22:00:00.000Z", category := "Bills", description := none, amount := 100 },
   { date := "2025-07-31T22:30:00.000Z", category := "Bills", description := none, amount := 5 },
   { date := "soon", category := "Bills", description := none, amount := 1 }]

/-- The entries of a `dayMap` with the keys `ks`, in that order, and the value
`f k` at key `k`. -/
def dayRow (ks : List Int) (f : Int → Number) : DayMap :=
  ks.map (fun k => (some k, some (f k)))

/-- The days 1 to `n`. -/
def daysUpTo (n : Nat) : List Int :=
  (List.range n).map (fun (i : Nat) => (i : Int) + 1)

/-- A store with two expenses of user 7 in August 2025, both of the category
"Food", of the amounts 0.1 and 0.2. -/
def roundingStore : Store :=
  { categories :=
      [{ id := 1, name := "Food", color := "#FF5722", user := none, isDefault := true }]
    expenses :=
      [{ id := 3, amount := Number.ofDecimal 1 1, category := "Food", description := none,
         date := 1755000000000, user := 7 },
       { id := 4, amount := Number.ofDecimal 2 1, category := "Food", description := none,
         date := 1755000000001, user := 7 }]
    nextId := 5 }

/-- A store with four expenses of user 7 in August 2025: "Food" 3.47 and 61.13,
"Bills" 41.9 and 20.94. -/
def centsStore : Store :=
  { categories :=
      [{ id := 1, name := "Food", color := "#FF5722", user := none, isDefault := true },
       { id := 2, name := "Bills", color := "#607D8B", user := none, isDefault := true }]
    expenses :=
      [{ id := 3, amount := Number.ofDecimal 347 2, category := "Food", description := none,
         date := 1755000000000, user := 7 },
       { id := 4, amount := Number.ofDecimal 6113 2, category := "Food", description := none,
         date := 1755000000001, user := 7 },
       { id := 5, amount := Number.ofDecimal 419 1, category := "Bills", description := none,
         date := 1755000000002, user := 7 },
       { id := 6, amount := Number.ofDecimal 2094 2, category := "Bills", description := none,
         date := 1755000000003, user := 7 }]
    nextId := 7 }

/-- Expenses for the monthly report with amounts in cents: 3.47 and 61.13 on
1 August 2025, 41.9 and 20.94 on 2 August 2025. -/
def reportCents : List ClientExpense :=
  [{ date := "2025-08-01T10:00:00.000Z", category := "Food", description := none,
     amount := Number.ofDecimal 347 2 },
   { date := "2025-08-01T10:00:00.000Z", category := "Food", description := none,
     amount := Number.ofDecimal 6113 2 },
   { date := "2025-08-02T10:00:00.000Z", category := "Bills", description := none,
     amount := Number.ofDecimal 419 1 },
   { date := "2025-08-02T10:00:00.000Z", category := "Bills", description := none,
     amount := Number.ofDecimal 2094 2 }]

/-- The exact sum of the whole parts of the amounts of the expenses dated on
day `d`. -/
def dayWhole (b : Browser) (filtered : List ClientExpense) (d : Int) : Nat :=
  wholeSum ((filtered.filter (fun e => decide (getDate b (b.parse e.date) = some d))).map
    (fun e => e.amount))

/-! ## Rounding to a double -/

theorem coarseBits_spec : ∀ (fuel a acc : Nat), a ≤ fuel →
    ∃ c, coarseBits fuel a acc = acc + c ∧ (a / 2 ^ c < 4294967296) ∧ (c = 0 ∨ 1 ≤ a / 2 ^ c)
  | 0, a, acc, h => ⟨0, by simp [coarseBits], by simp; omega, Or.inl rfl⟩
  | fuel + 1, a, acc, h => by
    unfold coarseBits
    by_cases ha : a < 4294967296
    · exact ⟨0, by simp [ha], by simpa using ha, Or.inl rfl⟩
    · rw [if_neg ha]
      have hd : a >>> 32 = a / 2 ^ 32 := Nat.shiftRight_eq_div_pow a 32
      have hle : a >>> 32 ≤ fuel := by rw [hd]; omega
      obtain ⟨c, h1, h2, h3⟩ := coarseBits_spec fuel (a >>> 32) (acc + 32) hle
      have hdd : a >>> 32 / 2 ^ c = a / 2 ^ (32 + c) := by
        rw [hd, Nat.div_div_eq_div_mul, ← pow_add]
      refine ⟨32 + c, by rw [h1]; omega, by rw [← hdd]; exact h2, Or.inr ?_⟩
      rw [← hdd]
      rcases h3 with rfl | h3
      · rw [hd]; simp; omega
      · exact h3

theorem fineBits_spec : ∀ (fuel a acc : Nat), 1 ≤ a → a < 2 ^ fuel →
    ∃ c, fineBits fuel a acc = acc + c ∧ 2 ^ c ≤ a ∧ a < 2 ^ (c + 1)
  | 0, a, acc, h1, h2 => by
    rw [pow_zero] at h2
    omega
  | fuel + 1, a, acc, h1, h2 => by
    unfold fineBits
    by_cases ha : a < 2
    · exact ⟨0, by simp [ha], by simpa using h1, by simpa using ha⟩
    · rw [if_neg ha]
      have hd : a >>> 1 = a / 2 := by rw [Nat.shiftRight_eq_div_pow, pow_one]
      obtain ⟨c, e1, e2, e3⟩ := fineBits_spec fuel (a >>> 1) (acc + 1) (by rw [hd]; omega)
        (by rw [hd]; rw [pow_succ] at h2; omega)
      rw [hd] at e2 e3
      refine ⟨c + 1, by rw [e1]; omega, ?_, ?_⟩
      · rw [pow_succ]; omega
      · rw [pow_succ]; omega

/-- The highest bit of a positive number. -/
theorem log2_spec (a : Nat) (h : 1 ≤ a) : 2 ^ log2 a ≤ a ∧ a < 2 ^ (log2 a + 1) := by
  unfold log2
  obtain ⟨c, h1, h2, h3⟩ := coarseBits_spec a a 0 (le_refl a)
  rw [h1, zero_add, Nat.shiftRight_eq_div_pow]
  have hpos : 1 ≤ a / 2 ^ c := by
    rcases h3 with rfl | h3
    · simpa using h
    · exact h3
  obtain ⟨d, e1, e2, e3⟩ := fineBits_spec 32 (a / 2 ^ c) c hpos (by simpa using h2)
  rw [e1]
  have hp : 0 < 2 ^ c := by positivity
  constructor
  · rw [pow_add]
    calc 2 ^ c * 2 ^ d ≤ 2 ^ c * (a / 2 ^ c) := Nat.mul_le_mul_left _ e2
      _ ≤ a := Nat.mul_div_le a (2 ^ c)
  · rw [show c + d + 1 = (d + 1) + c by omega, pow_add]
    exact (Nat.div_lt_iff_lt_mul hp).1 e3

theorem log2_unique (a L : Nat) (h1 : 2 ^ L ≤ a) (h2 : a < 2 ^ (L + 1)) : log2 a = L := by
  have hpos : 1 ≤ a := le_trans (Nat.one_le_two_pow) h1
  obtain ⟨s1, s2⟩ := log2_spec a hpos
  have a1 : log2 a < L + 1 := (Nat.pow_lt_pow_iff_right (by decide : 1 < 2)).1 (lt_of_le_of_lt s1 h2)
  have a2 : L < log2 a + 1 := (Nat.pow_lt_pow_iff_right (by decide : 1 < 2)).1 (lt_of_le_of_lt h1 s2)
  omega

theorem log2_mono (a b : Nat) (h : a ≤ b) : log2 a ≤ log2 b := by
  by_cases ha : a = 0
  · subst ha
    have : log2 0 = 0 := by decide
    omega
  · obtain ⟨s1, _⟩ := log2_spec a (by omega)
    obtain ⟨_, t2⟩ := log2_spec b (by omega)
    have := (Nat.pow_lt_pow_iff_right (by decide : 1 < 2)).1 (lt_of_le_of_lt (le_trans s1 h) t2)
    omega
/-- Rounding to the nearest multiple of `p`, ties to the even multiple. -/
theorem roundAt_eq (s a : Nat) :
    roundAt s a =
      if 2 ^ s < 2 * (a % 2 ^ s) ∨ (2 * (a % 2 ^ s) = 2 ^ s ∧ (a / 2 ^ s) % 2 = 1)
      then (a / 2 ^ s + 1) * 2 ^ s else (a / 2 ^ s) * 2 ^ s := by
  have hr : a - a / 2 ^ s * 2 ^ s = a % 2 ^ s := by
    have := Nat.div_add_mod a (2 ^ s)
    rw [Nat.mul_comm] at this
    omega
  simp only [roundAt, Nat.shiftRight_eq_div_pow, Nat.shiftLeft_eq, one_mul, hr]

theorem roundAt_bounds (s a : Nat) :
    (a / 2 ^ s) * 2 ^ s ≤ roundAt s a ∧ roundAt s a ≤ (a / 2 ^ s + 1) * 2 ^ s := by
  rw [roundAt_eq]
  split
  · exact ⟨Nat.mul_le_mul_right _ (Nat.le_succ _), le_refl _⟩
  · exact ⟨le_refl _, Nat.mul_le_mul_right _ (Nat.le_succ _)⟩

theorem roundAt_of_dvd (s a : Nat) (h : 2 ^ s ∣ a) : roundAt s a = a := by
  have hm : a % 2 ^ s = 0 := Nat.mod_eq_zero_of_dvd h
  have hp : 0 < 2 ^ s := by positivity
  rw [roundAt_eq, hm, if_neg (by omega)]
  exact Nat.div_mul_cancel h

theorem roundAt_mono (s a b : Nat) (h : a ≤ b) : roundAt s a ≤ roundAt s b := by
  have hq : a / 2 ^ s ≤ b / 2 ^ s := Nat.div_le_div_right h
  rcases Nat.lt_or_eq_of_le hq with hlt | heq
  · calc roundAt s a ≤ (a / 2 ^ s + 1) * 2 ^ s := (roundAt_bounds s a).2
      _ ≤ (b / 2 ^ s) * 2 ^ s := Nat.mul_le_mul_right _ hlt
      _ ≤ roundAt s b := (roundAt_bounds s b).1
  · have ha := Nat.div_add_mod a (2 ^ s)
    have hb := Nat.div_add_mod b (2 ^ s)
    rw [heq] at ha
    have hr : a % 2 ^ s ≤ b % 2 ^ s := by omega
    rw [roundAt_eq, roundAt_eq, heq]
    by_cases ca : 2 ^ s < 2 * (a % 2 ^ s) ∨ (2 * (a % 2 ^ s) = 2 ^ s ∧ (b / 2 ^ s) % 2 = 1)
    · have cb : 2 ^ s < 2 * (b % 2 ^ s) ∨ (2 * (b % 2 ^ s) = 2 ^ s ∧ (b / 2 ^ s) % 2 = 1) := by
        rcases ca with c | ⟨c1, c2⟩
        · left; omega
        · by_cases e : a % 2 ^ s = b % 2 ^ s
          · right; exact ⟨by omega, c2⟩
          · left; omega
      rw [if_pos ca, if_pos cb]
    · rw [if_neg ca]
      split
      · exact Nat.mul_le_mul_right _ (Nat.le_succ _)
      · exact le_refl _
theorem roundNat_of_dvd (a : Nat) (h : 2 ^ (log2 a - 52) ∣ a) : roundNat a = a :=
  roundAt_of_dvd _ a h

/-- The shift of a number with at least 54 bits: its 53 highest bits are kept. -/
theorem shift_spec (a : Nat) (h : 0 < log2 a - 52) :
    2 ^ (52 + (log2 a - 52)) ≤ a ∧ a < 2 ^ (53 + (log2 a - 52)) := by
  have hpos : 1 ≤ a := by
    by_contra hc
    have h0 : a = 0 := by omega
    subst h0
    have : log2 0 = 0 := by decide
    omega
  obtain ⟨s1, s2⟩ := log2_spec a hpos
  rw [show 52 + (log2 a - 52) = log2 a by omega, show 53 + (log2 a - 52) = log2 a + 1 by omega]
  exact ⟨s1, s2⟩

theorem below_shift (a : Nat) : a < 2 ^ (53 + (log2 a - 52)) := by
  by_cases ha : a = 0
  · subst ha; positivity
  · obtain ⟨_, s2⟩ := log2_spec a (by omega)
    exact lt_of_lt_of_le s2 (Nat.pow_le_pow_right (by decide) (by omega))

theorem roundNat_mono (a b : Nat) (h : a ≤ b) : roundNat a ≤ roundNat b := by
  have hl := log2_mono a b h
  unfold roundNat
  rcases Nat.lt_or_eq_of_le (Nat.sub_le_sub_right hl 52) with hlt | heq
  · have hb := shift_spec b (by omega)
    have ha := below_shift a
    have hqa : a / 2 ^ (log2 a - 52) < 2 ^ 53 := by
      rw [Nat.div_lt_iff_lt_mul (by positivity), ← pow_add]
      exact ha
    have hqb : 2 ^ 52 ≤ b / 2 ^ (log2 b - 52) := by
      rw [Nat.le_div_iff_mul_le (by positivity), ← pow_add]
      exact hb.1
    calc roundAt (log2 a - 52) a ≤ (a / 2 ^ (log2 a - 52) + 1) * 2 ^ (log2 a - 52) :=
          (roundAt_bounds _ a).2
      _ ≤ 2 ^ 53 * 2 ^ (log2 a - 52) := Nat.mul_le_mul_right _ hqa
      _ = 2 ^ (53 + (log2 a - 52)) := by rw [pow_add]
      _ ≤ 2 ^ (52 + (log2 b - 52)) := Nat.pow_le_pow_right (by decide) (by omega)
      _ = 2 ^ 52 * 2 ^ (log2 b - 52) := by rw [pow_add]
      _ ≤ (b / 2 ^ (log2 b - 52)) * 2 ^ (log2 b - 52) := Nat.mul_le_mul_right _ hqb
      _ ≤ roundAt (log2 b - 52) b := (roundAt_bounds _ b).1
  · rw [heq]
    exact roundAt_mono _ a b h

theorem roundNat_idem (a : Nat) : roundNat (roundNat a) = roundNat a := by
  by_cases hs : log2 a - 52 = 0
  · have : roundNat a = a := by
      apply roundNat_of_dvd
      rw [hs]
      simp
    rw [this, this]
  · obtain ⟨h1, h2⟩ := shift_spec a (by omega)
    obtain ⟨b1, b2⟩ := roundAt_bounds (log2 a - 52) a
    have hqa : a / 2 ^ (log2 a - 52) < 2 ^ 53 := by
      rw [Nat.div_lt_iff_lt_mul (by positivity), ← pow_add]
      exact h2
    have hqb : 2 ^ 52 ≤ a / 2 ^ (log2 a - 52) := by
      rw [Nat.le_div_iff_mul_le (by positivity), ← pow_add]
      exact h1
    have hdvd : 2 ^ (log2 a - 52) ∣ roundNat a := by
      unfold roundNat
      rw [roundAt_eq]
      split
      · exact Dvd.intro_left _ rfl
      · exact Dvd.intro_left _ rfl
    have hlo : 2 ^ (52 + (log2 a - 52)) ≤ roundNat a := by
      calc 2 ^ (52 + (log2 a - 52)) = 2 ^ 52 * 2 ^ (log2 a - 52) := by rw [pow_add]
        _ ≤ (a / 2 ^ (log2 a - 52)) * 2 ^ (log2 a - 52) := Nat.mul_le_mul_right _ hqb
        _ ≤ roundNat a := b1
    have hhi : roundNat a ≤ 2 ^ (53 + (log2 a - 52)) := by
      calc roundNat a ≤ (a / 2 ^ (log2 a - 52) + 1) * 2 ^ (log2 a - 52) := b2
        _ ≤ 2 ^ 53 * 2 ^ (log2 a - 52) := Nat.mul_le_mul_right _ hqa
        _ = 2 ^ (53 + (log2 a - 52)) := by rw [pow_add]
    rcases Nat.lt_or_eq_of_le hhi with hlt | heq
    · have hl : log2 (roundNat a) = 52 + (log2 a - 52) :=
        log2_unique _ _ hlo (by rw [show 52 + (log2 a - 52) + 1 = 53 + (log2 a - 52) by omega]; exact hlt)
      apply roundNat_of_dvd
      rw [hl, show 52 + (log2 a - 52) - 52 = log2 a - 52 by omega]
      exact hdvd
    · have hl : log2 (roundNat a) = 53 + (log2 a - 52) :=
        log2_unique _ _ (by rw [heq]) (by rw [heq]; exact Nat.pow_lt_pow_right (by decide) (by omega))
      apply roundNat_of_dvd
      rw [hl, heq]
      exact pow_dvd_pow 2 (by omega)

theorem roundNat_zero : roundNat 0 = 0 := by decide
theorem roundUnits_zero : roundUnits 0 = 0 := by decide

theorem roundUnits_mono (m n : Int) (h : m ≤ n) : roundUnits m ≤ roundUnits n := by
  unfold roundUnits
  by_cases hm : 0 ≤ m
  · have hn : 0 ≤ n := le_trans hm h
    rw [if_pos hm, if_pos hn]
    exact Int.ofNat_le.2 (roundNat_mono _ _ (Int.toNat_le_toNat h))
  · rw [if_neg hm]
    by_cases hn : 0 ≤ n
    · rw [if_pos hn]
      have h1 : (0 : Int) ≤ (roundNat m.natAbs : Int) := Int.ofNat_nonneg _
      have h2 : (0 : Int) ≤ (roundNat n.toNat : Int) := Int.ofNat_nonneg _
      omega
    · rw [if_neg hn]
      have := Int.ofNat_le.2 (roundNat_mono n.natAbs m.natAbs (by omega))
      omega

theorem roundUnits_idem (n : Int) : roundUnits (roundUnits n) = roundUnits n := by
  unfold roundUnits
  by_cases hn : 0 ≤ n
  · rw [if_pos hn, if_pos (Int.ofNat_nonneg _), Int.toNat_ofNat, roundNat_idem]
  · rw [if_neg hn]
    by_cases hz : roundNat n.natAbs = 0
    · rw [hz]
      decide
    · have hneg : ¬ (0 : Int) ≤ -(roundNat n.natAbs : Int) := by omega
      rw [if_neg hneg, Int.natAbs_neg, Int.natAbs_ofNat, roundNat_idem]

theorem roundNat_whole (n : Nat) (h : n ≤ 2 ^ 53) : roundNat (n * 2 ^ 1074) = n * 2 ^ 1074 := by
  apply roundNat_of_dvd
  by_cases h0 : n = 0
  · subst h0
    rw [Nat.zero_mul]
    exact dvd_zero _
  · have hpos : 1 ≤ n * 2 ^ 1074 := Nat.mul_pos (by omega) (by positivity)
    obtain ⟨s1, _⟩ := log2_spec _ hpos
    have hle : n * 2 ^ 1074 ≤ 2 ^ 1127 := by
      calc n * 2 ^ 1074 ≤ 2 ^ 53 * 2 ^ 1074 := Nat.mul_le_mul_right _ h
        _ = 2 ^ 1127 := by rw [← pow_add]
    rcases Nat.lt_or_eq_of_le hle with hlt | heq
    · have hl : log2 (n * 2 ^ 1074) < 1127 :=
        (Nat.pow_lt_pow_iff_right (by decide : 1 < 2)).1 (lt_of_le_of_lt s1 hlt)
      have hs : log2 (n * 2 ^ 1074) - 52 ≤ 1074 := by
        clear hlt hle s1
        omega
      exact Dvd.dvd.mul_left (pow_dvd_pow 2 hs) n
    · rw [heq]
      have hl : log2 (2 ^ 1127) = 1127 :=
        log2_unique _ _ (le_refl _) (Nat.pow_lt_pow_right (by decide) (by omega))
      rw [hl]
      exact pow_dvd_pow 2 (by omega)

/-! ## Numbers -/

theorem Number.le_iff (a b : Number) : a ≤ b ↔ a.units ≤ b.units := Iff.rfl

theorem Number.lt_iff (a b : Number) : a < b ↔ a.units < b.units := Iff.rfl

theorem Number.zero_units : (0 : Number).units = 0 := by decide

theorem Number.add_units (a b : Number) : (a + b).units = roundUnits (a.units + b.units) := rfl

theorem Number.ofNat_units (n : Nat) : (Number.ofNat n).units = ((n * 2 ^ 1074 : Nat) : Int) := by
  unfold Number.ofNat
  rw [Nat.shiftLeft_eq]

/-- Whole numbers are added exactly as long as the sum is at most 2^53. -/
theorem Number.ofNat_add (j k : Nat) (h : j + k ≤ 9007199254740992) :
    Number.ofNat j + Number.ofNat k = Number.ofNat (j + k) := by
  have hu : (Number.ofNat j + Number.ofNat k).units = (Number.ofNat (j + k)).units := by
    rw [Number.add_units, Number.ofNat_units, Number.ofNat_units, Number.ofNat_units]
    have e : ((j * 2 ^ 1074 : Nat) : Int) + ((k * 2 ^ 1074 : Nat) : Int) =
        (((j + k) * 2 ^ 1074 : Nat) : Int) := by
      rw [← Int.ofNat_add, Nat.add_mul]
    rw [e]
    unfold roundUnits
    rw [if_pos (Int.ofNat_nonneg _), Int.toNat_ofNat, roundNat_whole (j + k) h]
  cases hx : Number.ofNat j + Number.ofNat k
  cases hy : Number.ofNat (j + k)
  rw [hx, hy] at hu
  simp only at hu
  rw [hu]

theorem Number.whole_ofNat (n : Nat) : (Number.ofNat n).whole = n := by
  unfold Number.whole
  rw [Number.ofNat_units, Int.toNat_ofNat, Nat.shiftRight_eq_div_pow]
  exact Nat.mul_div_cancel n (Nat.two_pow_pos 1074)

theorem isWhole_ofNat (n : Nat) : IsWhole (Number.ofNat n) := by
  unfold IsWhole
  rw [Number.whole_ofNat]

theorem Number.zero_eq : (0 : Number) = Number.ofNat 0 := rfl

/-- A number that is a double: rounding leaves it as it is. Every sum is one. -/
theorem Number.add_isDouble (a b : Number) : roundUnits (a + b).units = (a + b).units := by
  rw [Number.add_units, roundUnits_idem]

/-- Adding a number that is not negative to a double does not give less. -/
theorem Number.le_add (a b : Number) (ha : roundUnits a.units = a.units) (hb : 0 ≤ b) :
    a ≤ a + b := by
  rw [Number.le_iff, Number.add_units]
  rw [Number.le_iff, Number.zero_units] at hb
  calc a.units = roundUnits a.units := ha.symm
    _ ≤ roundUnits (a.units + b.units) := roundUnits_mono _ _ (by omega)

/-- The sum of two numbers that are not negative is not negative. -/
theorem Number.add_nonneg (a b : Number) (ha : 0 ≤ a) (hb : 0 ≤ b) : 0 ≤ a + b := by
  rw [Number.le_iff, Number.zero_units] at ha hb ⊢
  rw [Number.add_units]
  calc (0 : Int) = roundUnits 0 := roundUnits_zero.symm
    _ ≤ roundUnits (a.units + b.units) := roundUnits_mono _ _ (by omega)

/-- The doubles that the decimal literals of the examples denote, each as its
53-bit significand times a power of two (in units of 2^-1074), and the sums of
two of them as the operator `+` gives them. -/
theorem decimal_literals :
    (Number.ofDecimal 1 1).units = ((7205759403792794 <<< 1018 : Nat) : Int) ∧
    (Number.ofDecimal 2 1).units = ((7205759403792794 <<< 1019 : Nat) : Int) ∧
    (Number.ofDecimal 3 1).units = ((5404319552844595 <<< 1020 : Nat) : Int) ∧
    (Number.ofDecimal 30000000000000004 17).units = ((5404319552844596 <<< 1020 : Nat) : Int) ∧
    (Number.ofDecimal 347 2).units = ((7813745353487811 <<< 1023 : Nat) : Int) ∧
    (Number.ofDecimal 6113 2).units = ((8603282663161201 <<< 1027 : Nat) : Int) ∧
    (Number.ofDecimal 419 1).units = ((5896900762088243 <<< 1027 : Nat) : Int) ∧
    (Number.ofDecimal 2094 2).units = ((5894086012321137 <<< 1026 : Nat) : Int) ∧
    (Number.ofDecimal 6460000000000001 14).units = ((4545820873877095 <<< 1028 : Nat) : Int) ∧
    (Number.ofDecimal 6284 2).units = ((8843943768248812 <<< 1027 : Nat) : Int) ∧
    (Number.ofDecimal 12744 2).units = ((8967792758001500 <<< 1028 : Nat) : Int) ∧
    (Number.ofDecimal 12744000000000001 14).units = ((8967792758001501 <<< 1028 : Nat) : Int) ∧
    Number.ofDecimal 1 1 + Number.ofDecimal 2 1 = Number.ofDecimal 30000000000000004 17 ∧
    Number.ofDecimal 347 2 + Number.ofDecimal 6113 2 = Number.ofDecimal 6460000000000001 14 ∧
    Number.ofDecimal 419 1 + Number.ofDecimal 2094 2 = Number.ofDecimal 6284 2 ∧
    Number.ofDecimal 5 0 = 5 ∧ Number.ofDecimal 150 1 = 15 ∧ (5 : Number) + 10 = 15 := by
  decide

/-! ## Sums of whole numbers -/

/-- Adding whole numbers one after the other gives their exact sum as long as
it is at most 2^53. -/
theorem foldl_whole : ∀ (xs : List Number) (n0 : Nat), (∀ x ∈ xs, IsWhole x) →
    n0 + wholeSum xs ≤ 9007199254740992 →
    xs.foldl (fun acc x => acc + x) (Number.ofNat n0) = Number.ofNat (n0 + wholeSum xs)
  | [], n0, _, _ => by simp [wholeSum]
  | x :: xs, n0, hw, hb => by
    have hx : x = Number.ofNat x.whole := hw x (by simp)
    have hs : wholeSum (x :: xs) = x.whole + wholeSum xs := by simp [wholeSum]
    rw [hs] at hb ⊢
    have step : Number.ofNat n0 + x = Number.ofNat (n0 + x.whole) := by
      calc Number.ofNat n0 + x = Number.ofNat n0 + Number.ofNat x.whole := by rw [← hx]
        _ = Number.ofNat (n0 + x.whole) := Number.ofNat_add _ _ (by omega)
    rw [List.foldl_cons, step, foldl_whole xs (n0 + x.whole)
      (fun y hy => hw y (List.mem_cons_of_mem _ hy)) (by omega), Nat.add_assoc]

theorem sumFromZero_whole (xs : List Number) (h : WholeAmounts xs) :
    sumFromZero xs = Number.ofNat (wholeSum xs) := by
  unfold sumFromZero
  rw [Number.zero_eq, foldl_whole xs 0 h.1 (by have := h.2; omega), Nat.zero_add]

theorem wholeSum_sublist (l1 l2 : List Number) (h : l1.Sublist l2) :
    wholeSum l1 ≤ wholeSum l2 := by
  unfold wholeSum
  exact List.Sublist.sum_le_sum (h.map _) (fun _ _ => Nat.zero_le _)

theorem wholeAmounts_sublist (l1 l2 : List Number) (h : l1.Sublist l2)
    (hw : WholeAmounts l2) : WholeAmounts l1 :=
  ⟨fun x hx => hw.1 x (h.subset hx), le_trans (wholeSum_sublist l1 l2 h) hw.2⟩

theorem wholeSum_perm (l1 l2 : List Number) (h : l1.Perm l2) : wholeSum l1 = wholeSum l2 := by
  unfold wholeSum
  exact (h.map _).sum_eq

theorem wholeAmounts_perm (l1 l2 : List Number) (h : l1.Perm l2) (hw : WholeAmounts l2) :
    WholeAmounts l1 :=
  ⟨fun x hx => hw.1 x (h.mem_iff.1 hx), by rw [wholeSum_perm l1 l2 h]; exact hw.2⟩

/-! ## The `$group` stage -/

theorem keys_accumulate (rows : List GroupRow) (e : Expense) :
    (accumulate rows e).map (fun r => r.key) =
      if e.category ∈ rows.map (fun r => r.key) then rows.map (fun r => r.key)
      else rows.map (fun r => r.key) ++ [e.category] := by
  induction rows with
  | nil => simp [accumulate]
  | cons r rs ih =>
    unfold accumulate
    by_cases h : r.key = e.category
    · simp [h]
    · have h2 : ¬ e.category = r.key := fun h3 => h h3.symm
      simp only [h, if_false, List.map_cons, List.mem_cons, h2, false_or, ih]
      split <;> simp

theorem rowsTotal_accumulate (k : String) (rows : List GroupRow) (e : Expense) :
    rowsTotal k (accumulate rows e) =
      if e.category = k then rowsTotal k rows + e.amount else rowsTotal k rows := by
  induction rows with
  | nil =>
    by_cases h : e.category = k <;> simp [accumulate, rowsTotal, h]
  | cons r rs ih =>
    unfold accumulate
    by_cases h : r.key = e.category
    · by_cases hk : e.category = k
      · simp [rowsTotal, h, hk]
      · have hk2 : ¬ r.key = k := fun h2 => hk (h ▸ h2)
        simp [rowsTotal, h, hk, hk2]
    · simp only [h, if_false]
      by_cases hk : r.key = k
      · have hk2 : ¬ e.category = k := fun h2 => h (hk.trans h2.symm)
        simp [rowsTotal, hk, hk2]
      · simp only [rowsTotal, List.find?_cons, hk, decide_False] at ih ⊢
        exact ih

theorem rowsCount_accumulate (k : String) (rows : List GroupRow) (e : Expense) :
    rowsCount k (accumulate rows e) =
      rowsCount k rows + (if e.category = k then 1 else 0) := by
  induction rows with
  | nil =>
    by_cases h : e.category = k <;> simp [accumulate, rowsCount, h]
  | cons r rs ih =>
    unfold accumulate
    by_cases h : r.key = e.category
    · by_cases hk : e.category = k
      · simp [rowsCount, h, hk, List.filter_cons]; ring
      · simp [rowsCount, h, hk, List.filter_cons]
    · simp only [h, if_false]
      simp only [rowsCount, List.filter_cons] at ih ⊢
      by_cases hk : r.key = k
      · simp only [hk, decide_True, if_true, List.map_cons, List.sum_cons, ih]; ring
      · simp only [hk, decide_False, Bool.false_eq_true, if_false, ih]

theorem nodup_keys_accumulate (rows : List GroupRow) (e : Expense)
    (h : (rows.map (fun r => r.key)).Nodup) :
    ((accumulate rows e).map (fun r => r.key)).Nodup := by
  rw [keys_accumulate]
  split
  · exact h
  · rename_i hne
    exact List.Nodup.append h (List.nodup_singleton _) (by simpa using hne)

theorem foldl_accumulate_spec (k : String) (es : List Expense) :
    ∀ rows : List GroupRow,
      rowsTotal k (es.foldl accumulate rows) =
        ((es.filter (fun e => e.category = k)).map (fun e => e.amount)).foldl
          (fun acc x => acc + x) (rowsTotal k rows) ∧
      rowsCount k (es.foldl accumulate rows) = rowsCount k rows + countOf k es := by
  induction es with
  | nil => intro rows; simp [countOf]
  | cons e es ih =>
    intro rows
    obtain ⟨h1, h2⟩ := ih (accumulate rows e)
    rw [List.foldl_cons, h1, h2, rowsTotal_accumulate, rowsCount_accumulate]
    by_cases hk : e.category = k
    · simp [countOf, hk, List.filter_cons]; ring
    · simp [countOf, hk, List.filter_cons]

theorem foldl_accumulate_nodup (es : List Expense) :
    ∀ rows : List GroupRow, (rows.map (fun r => r.key)).Nodup →
      ((es.foldl accumulate rows).map (fun r => r.key)).Nodup := by
  induction es with
  | nil => intro rows h; exact h
  | cons e es ih =>
    intro rows h
    exact ih _ (nodup_keys_accumulate rows e h)

theorem foldl_accumulate_keys (es : List Expense) :
    ∀ (rows : List GroupRow) (k : String),
      k ∈ (es.foldl accumulate rows).map (fun r => r.key) ↔
        k ∈ rows.map (fun r => r.key) ∨ k ∈ es.map (fun e => e.category) := by
  induction es with
  | nil => intro rows k; simp
  | cons e es ih =>
    intro rows k
    rw [List.foldl_cons, ih, keys_accumulate]
    split
    · rename_i hmem
      constructor
      · rintro (h | h)
        · exact Or.inl h
        · exact Or.inr (by simp [h])
      · rintro (h | h)
        · exact Or.inl h
        · simp only [List.map_cons, List.mem_cons] at h
          rcases h with h | h
          · exact Or.inl (h ▸ hmem)
          · exact Or.inr h
    · simp only [List.mem_append, List.mem_singleton, List.map_cons, List.mem_cons]
      tauto

/-- In a list of rows with distinct keys a row carries the total and the
whole count of its key. -/
theorem rowsTotal_of_mem (rows : List GroupRow) (h : (rows.map (fun r => r.key)).Nodup)
    (r : GroupRow) (hr : r ∈ rows) :
    rowsTotal r.key rows = r.total ∧ rowsCount r.key rows = r.count := by
  induction rows with
  | nil => simp at hr
  | cons a rs ih =>
    simp only [List.map_cons, List.nodup_cons] at h
    obtain ⟨hna, hnd⟩ := h
    rcases List.mem_cons.mp hr with rfl | hmem
    · have hnone : rs.filter (fun x => x.key = r.key) = [] := by
        rw [List.filter_eq_nil_iff]
        intro x hx hkey
        exact hna (List.mem_map.mpr ⟨x, hx, by simpa using hkey⟩)
      simp [rowsTotal, rowsCount, List.filter_cons, hnone]
    · have hne : a.key ≠ r.key := by
        intro heq
        exact hna (List.mem_map.mpr ⟨r, hmem, heq.symm⟩)
      obtain ⟨h1, h2⟩ := ih hnd hmem
      simp only [rowsTotal, rowsCount, List.filter_cons, List.find?_cons] at h1 h2 ⊢
      simp [hne, h1, h2]

theorem groupByCategory_spec (es : List Expense) :
    ((groupByCategory es).map (fun r => r.key)).Nodup ∧
    (∀ k, k ∈ (groupByCategory es).map (fun r => r.key) ↔ k ∈ es.map (fun e => e.category)) ∧
    (∀ r ∈ groupByCategory es, r.total = sumAmounts r.key es ∧ r.count = countOf r.key es) := by
  have hnd := foldl_accumulate_nodup es [] (by simp)
  refine ⟨hnd, ?_, ?_⟩
  · intro k
    have := foldl_accumulate_keys es [] k
    simpa [groupByCategory] using this
  · intro r hr
    obtain ⟨h1, h2⟩ := rowsTotal_of_mem _ hnd r hr
    obtain ⟨h3, h4⟩ := foldl_accumulate_spec r.key es []
    simp only [groupByCategory] at hr h1 h2
    constructor
    · rw [← h1, h3]
      rfl
    · rw [← h2, h4]; simp [rowsCount]

/-! ## `getCategoryTotals` -/

instance : IsTotal GroupRow totalDesc := ⟨fun a b => by unfold totalDesc; exact le_total _ _⟩

instance : IsTrans GroupRow totalDesc :=
  ⟨fun a b c h1 h2 => by unfold totalDesc at *; exact le_trans h2 h1⟩

/-- After a passed validation `getCategoryTotals` answers with status 200. -/
theorem getCategoryTotals_ok (st : Store) (user : ReqUser) (year month : String)
    (yearNum monthNum : Int)
    (hv : validateYearMonth year month = .ok (yearNum, monthNum)) :
    (getCategoryTotals st user year month).result = .ok
      { status := 200
        count := (aggregateTotals st user.id (windowStart yearNum monthNum)
          (windowEnd yearNum monthNum)).length
        data := (aggregateTotals st user.id (windowStart yearNum monthNum)
          (windowEnd yearNum monthNum)).map (withColor (visibleCategories st user.id))
        meta := { year := yearNum, month := monthNum + 1,
                  startDate := windowStart yearNum monthNum,
                  endDate := windowEnd yearNum monthNum } } := by
  simp [getCategoryTotals, hv]

theorem aggregateTotals_perm (st : Store) (uid : ObjectId) (s e : Int) :
    (aggregateTotals st uid (some s) (some e)).Perm
      (groupByCategory (monthExpenses st uid s e)) := by
  simp only [aggregateTotals, monthExpenses, bsonDate, Option.getD_some]
  exact List.perm_insertionSort _ _

/-- C1: for every store and every year and month that pass the validation and
give a window from `s` to `e`, `getCategoryTotals` answers, and its data has
exactly one entry for each category name occurring among the requester's
expenses dated inside the window and no other entry; the count of an entry is
the number of those expenses of its name, and its total is the sum of their
amounts, added as numbers in the order of the documents. When the amounts are
whole numbers adding up to at most 2^53, no addition rounds and the total is
their exact sum. -/
theorem getCategoryTotals_groups (st : Store) (user : ReqUser) (year month : String)
    (yearNum monthNum : Int) (s e : Int)
    (hv : validateYearMonth year month = .ok (yearNum, monthNum))
    (hs : windowStart yearNum monthNum = some s) (he : windowEnd yearNum monthNum = some e) :
    ∃ reply, (getCategoryTotals st user year month).result = .ok reply ∧
      IsCategoryReport (monthExpenses st user.id s e) reply.data ∧
      (WholeAmounts ((monthExpenses st user.id s e).map (fun x => x.amount)) →
        ∀ r ∈ reply.data, r.total = Number.ofNat (wholeSum
          (((monthExpenses st user.id s e).filter (fun x => x.category = r.category)).map
            (fun x => x.amount)))) := by
  refine ⟨_, getCategoryTotals_ok st user year month yearNum monthNum hv, ?_⟩
  rw [hs, he]
  have hperm := aggregateTotals_perm st user.id s e
  obtain ⟨hnd, hkeys, hrows⟩ := groupByCategory_spec (monthExpenses st user.id s e)
  have hmap : ((aggregateTotals st user.id (some s) (some e)).map
      (withColor (visibleCategories st user.id))).map (fun r => r.category) =
      (aggregateTotals st user.id (some s) (some e)).map (fun r => r.key) := by
    simp [List.map_map, Function.comp_def, withColor]
  have hreport : IsCategoryReport (monthExpenses st user.id s e)
      ((aggregateTotals st user.id (some s) (some e)).map
        (withColor (visibleCategories st user.id))) := by
    refine ⟨?_, ?_, ?_⟩
    · simp only [hmap]
      exact (hperm.map _).nodup_iff.mpr hnd
    · intro k
      simp only [hmap]
      rw [(hperm.map _).mem_iff, hkeys]
      simp only [List.mem_map]
    · intro r hr
      simp only [List.mem_map] at hr
      obtain ⟨g, hg, rfl⟩ := hr
      have := hrows g (hperm.mem_iff.mp hg)
      simpa [withColor] using this
  refine ⟨hreport, ?_⟩
  intro hw r hr
  rw [(hreport.2.2 r hr).1]
  exact sumFromZero_whole _
    (wholeAmounts_sublist _ _ ((List.filter_sublist _).map _) hw)

/-- The worked example of C1: Food 10, Food 20 and Transport 5 in August 2025
give Food with total 30 and count 2 and Transport with total 5 and count 1. -/
theorem getCategoryTotals_groups_witness :
    (validateYearMonth "2025" "8" = .ok (2025, 7) ∧
      windowStart 2025 7 = some 1754006400000 ∧ windowEnd 2025 7 = some 1756684799999) ∧
    (∃ reply, (getCategoryTotals exampleStore exampleUser "2025" "8").result = .ok reply ∧
      IsCategoryReport (monthExpenses exampleStore exampleUser.id 1754006400000 1756684799999)
        reply.data ∧
      (WholeAmounts ((monthExpenses exampleStore exampleUser.id 1754006400000
          1756684799999).map (fun x => x.amount)) →
        ∀ r ∈ reply.data, r.total = Number.ofNat (wholeSum
          (((monthExpenses exampleStore exampleUser.id 1754006400000 1756684799999).filter
            (fun x => x.category = r.category)).map (fun x => x.amount))))) ∧
    WholeAmounts ((monthExpenses exampleStore exampleUser.id 1754006400000
      1756684799999).map (fun x => x.amount)) ∧
    (getCategoryTotals exampleStore exampleUser "2025" "8").result = .ok
      { status := 200, count := 2
        data := [{ category := "Food", total := 30, count := 2, color := "#FF5722" },
                 { category := "Transport", total := 5, count := 1, color := "#2196F3" }]
        meta := { year := 2025, month := 8, startDate := some 1754006400000,
                  endDate := some 1756684799999 } } :=
  ⟨by decide,
    getCategoryTotals_groups exampleStore exampleUser "2025" "8" 2025 7
      1754006400000 1756684799999 (by decide) (by decide) (by decide),
    by unfold WholeAmounts; decide,
    by decide⟩

/-- An example of a total of amounts that are not whole: 0.1 and 0.2 of the
category "Food" give the total 0.30000000000000004, their sum as numbers, which
is not the number 0.3 and not the exact sum of the two amounts. -/
theorem groups_rounding_example :
    (getCategoryTotals roundingStore exampleUser "2025" "8").result = .ok
      { status := 200, count := 1
        data := [{ category := "Food", total := Number.ofDecimal 30000000000000004 17,
                   count := 2, color := "#FF5722" }]
        meta := { year := 2025, month := 8, startDate := some 1754006400000,
                  endDate := some 1756684799999 } } ∧
    Number.ofDecimal 30000000000000004 17 ≠ Number.ofDecimal 3 1 ∧
    (Number.ofDecimal 30000000000000004 17).units ≠
      exactSum [Number.ofDecimal 1 1, Number.ofDecimal 2 1] ∧
    numberToString (Number.ofDecimal 30000000000000004 17) = "0.30000000000000004" ∧
    numberToString (Number.ofDecimal 1 1) = "0.1" ∧
    numberToString (Number.ofDecimal 2 1) = "0.2" := by
  decide

/-- C2: for every store and every year and month that pass the validation, the
data of `getCategoryTotals` is ordered by non-increasing total, between
adjacent entries and between any two entries, and the entries are the rows of
the sorted aggregation in the same order, with their colour added. -/
theorem getCategoryTotals_sorted (st : Store) (user : ReqUser) (year month : String)
    (yearNum monthNum : Int)
    (hv : validateYearMonth year month = .ok (yearNum, monthNum)) :
    ∃ reply, (getCategoryTotals st user year month).result = .ok reply ∧
      reply.data.Chain' (fun a b => b.total ≤ a.total) ∧
      reply.data.Pairwise (fun a b => b.total ≤ a.total) ∧
      reply.data.map (fun r => (r.category, r.total, r.count)) =
        (aggregateTotals st user.id (windowStart yearNum monthNum)
          (windowEnd yearNum monthNum)).map (fun g => (g.key, g.total, g.count)) := by
  refine ⟨_, getCategoryTotals_ok st user year month yearNum monthNum hv, ?_⟩
  have hsorted : (aggregateTotals st user.id (windowStart yearNum monthNum)
      (windowEnd yearNum monthNum)).Pairwise totalDesc := by
    unfold aggregateTotals
    exact List.sorted_insertionSort totalDesc _
  have hpw : ((aggregateTotals st user.id (windowStart yearNum monthNum)
      (windowEnd yearNum monthNum)).map (withColor (visibleCategories st user.id))).Pairwise
      (fun a b => b.total ≤ a.total) := by
    rw [List.pairwise_map]
    exact hsorted.imp (fun h => by simpa [withColor, totalDesc] using h)
  refine ⟨List.Pairwise.chain' hpw, hpw, ?_⟩
  simp [List.map_map, Function.comp_def, withColor]

/-- An instance of C2 on the worked example. -/
theorem getCategoryTotals_sorted_witness :
    validateYearMonth "2025" "8" = .ok (2025, 7) ∧
    ∃ reply, (getCategoryTotals exampleStore exampleUser "2025" "8").result = .ok reply ∧
      reply.data.Chain' (fun a b => b.total ≤ a.total) ∧
      reply.data.Pairwise (fun a b => b.total ≤ a.total) ∧
      reply.data.map (fun r => (r.category, r.total, r.count)) =
        (aggregateTotals exampleStore exampleUser.id (windowStart 2025 7)
          (windowEnd 2025 7)).map (fun g => (g.key, g.total, g.count)) :=
  ⟨by decide, getCategoryTotals_sorted exampleStore exampleUser "2025" "8" 2025 7 (by decide)⟩

/-! ## The month window -/

theorem inLeapYear_iff (y : Int) :
    inLeapYear y = true ↔ (y % 4 = 0 ∧ y % 100 ≠ 0) ∨ y % 400 = 0 := by
  simp [inLeapYear]

theorem dayFromYear_succ (y : Int) :
    dayFromYear (y + 1) = dayFromYear y + 365 + (if inLeapYear y then 1 else 0) := by
  have d4 : (y + 1 - 1969) / 4 = (y - 1969) / 4 + (if y % 4 = 0 then 1 else 0) := by
    split <;> omega
  have d100 : (y + 1 - 1901) / 100 = (y - 1901) / 100 + (if y % 100 = 0 then 1 else 0) := by
    split <;> omega
  have d400 : (y + 1 - 1601) / 400 = (y - 1601) / 400 + (if y % 400 = 0 then 1 else 0) := by
    split <;> omega
  have m1 : y % 100 = 0 → y % 4 = 0 := by omega
  have m2 : y % 400 = 0 → y % 100 = 0 := by omega
  simp only [dayFromYear, d4, d100, d400]
  by_cases h4 : y % 4 = 0 <;> by_cases h100 : y % 100 = 0 <;> by_cases h400 : y % 400 = 0 <;>
    simp [inLeapYear, h4, h100, h400] <;> omega

/-- Day 0 of the following month is the last day of the month, also when the
following month is January of the next year. -/
theorem makeDay_next_month_zero (y mn : Int) (h0 : 0 ≤ mn) (h11 : mn ≤ 11) :
    makeDay y (mn + 1) 0 = makeDay y mn (daysInMonth y (mn + 1)) := by
  have hl := dayFromYear_succ y
  by_cases hleap : (y % 4 = 0 ∧ y % 100 ≠ 0) ∨ y % 400 = 0
  · have h : inLeapYear y = true := (inLeapYear_iff y).mpr hleap
    simp only [h, if_true] at hl
    interval_cases mn <;> simp [makeDay, daysBeforeMonth, daysInMonth, h, hleap, hl] <;> omega
  · have h : inLeapYear y = false := by
      cases hb : inLeapYear y
      · rfl
      · exact absurd ((inLeapYear_iff y).mp hb) hleap
    simp only [h] at hl
    interval_cases mn <;> simp [makeDay, daysBeforeMonth, daysInMonth, h, hleap, hl] <;> omega

theorem dayFromYear_bounds (y : Int) (hlo : -271820 ≤ y) (hhi : y ≤ 275759) :
    -99999900 ≤ dayFromYear y ∧ dayFromYear y ≤ 99999600 := by
  unfold dayFromYear
  omega

theorem daysInMonth_bounds (y m : Int) : 28 ≤ daysInMonth y m ∧ daysInMonth y m ≤ 31 := by
  unfold daysInMonth
  split_ifs <;> omega

theorem makeDay_in_year (y mn d : Int) :
    makeDay y mn d = makeDay y mn 1 + (d - 1) := by
  simp only [makeDay]
  omega

theorem daysBeforeMonth_bounds (leap : Bool) (mn : Int) (h0 : 0 ≤ mn) (h11 : mn ≤ 11) :
    0 ≤ daysBeforeMonth leap mn ∧ daysBeforeMonth leap mn ≤ 335 := by
  interval_cases mn <;> cases leap <;> simp [daysBeforeMonth]

/-- The validation passes exactly when both parameters are read as integers
and the month read lies between 1 and 12. -/
theorem validateYearMonth_ok_iff (year month : String) (yearNum monthNum : Int) :
    validateYearMonth year month = .ok (yearNum, monthNum) ↔
      parseInt year = some yearNum ∧ parseInt month = some (monthNum + 1) ∧
        0 ≤ monthNum ∧ monthNum ≤ 11 := by
  unfold validateYearMonth
  cases hy : parseInt year with
  | none => simp
  | some y =>
    cases hm : parseInt month with
    | none => simp
    | some m =>
      by_cases hr : m - 1 < 0 ∨ m - 1 > 11
      · simp only [hr, if_true]
        constructor
        · intro h; cases h
        · rintro ⟨_, h2, h3, h4⟩
          simp only [Option.some.injEq] at h2
          omega
      · simp only [hr, if_false, Except.ok.injEq, Prod.mk.injEq, Option.some.injEq]
        constructor
        · rintro ⟨rfl, rfl⟩
          refine ⟨rfl, by omega, by omega, by omega⟩
        · rintro ⟨rfl, h2, _, _⟩
          exact ⟨rfl, by omega⟩

/-- A window that exists is not empty: its start is not after its end. -/
theorem window_start_le_end (yearNum monthNum : Int) (s e : Int)
    (h0 : 0 ≤ monthNum) (h11 : monthNum ≤ 11)
    (hs : windowStart yearNum monthNum = some s) (he : windowEnd yearNum monthNum = some e) :
    s ≤ e := by
  have hb := daysInMonth_bounds (makeFullYear yearNum) (monthNum + 1)
  have h1 := makeDay_next_month_zero (makeFullYear yearNum) monthNum h0 h11
  have h2 := makeDay_in_year (makeFullYear yearNum) monthNum
    (daysInMonth (makeFullYear yearNum) (monthNum + 1))
  simp only [windowStart, windowEnd, newDate, timeClip, h1, h2] at hs he
  split at hs
  · split at he
    · simp only [Option.some.injEq] at hs he
      subst hs; subst he
      simp only [makeDate, makeTime]
      omega
    · cases he
  · cases hs

/-- C4 (amended): for every year from -271820 to 275759 other than 0..99 and
every month from 1 to 12, the window starts at 00:00:00.000 on day 1 of that
month of that year and ends at 23:59:59.999 on its last calendar day, which is
day 28, 29, 30 or 31 by the Gregorian rule and day 31 for month 12, and the
start is not after the end. -/
theorem window_spec (y m : Int) (hm1 : 1 ≤ m) (hm12 : m ≤ 12)
    (hlo : -271820 ≤ y) (hhi : y ≤ 275759) (h99 : y < 0 ∨ 99 < y) :
    windowStart y (m - 1) = some (civilTime y m 1 0 0 0 0) ∧
    windowEnd y (m - 1) = some (civilTime y m (daysInMonth y m) 23 59 59 999) ∧
    (28 ≤ daysInMonth y m ∧ daysInMonth y m ≤ 31) ∧
    (m = 12 → daysInMonth y m = 31) ∧
    civilTime y m 1 0 0 0 0 ≤ civilTime y m (daysInMonth y m) 23 59 59 999 := by
  have hfull : makeFullYear y = y := by
    unfold makeFullYear
    split
    · omega
    · rfl
  have hb := daysInMonth_bounds y m
  have h1 := makeDay_next_month_zero y (m - 1) (by omega) (by omega)
  have h2 := makeDay_in_year y (m - 1) (daysInMonth y m)
  have hday : makeDay y (m - 1) 1 = dayFromYear y + daysBeforeMonth (inLeapYear y) (m - 1) := by
    have e1 : (m - 1) / 12 = 0 := by omega
    have e2 : (m - 1) % 12 = m - 1 := by omega
    simp [makeDay, e1, e2]
  have hdb := daysBeforeMonth_bounds (inLeapYear y) (m - 1) (by omega) (by omega)
  have hdy := dayFromYear_bounds y hlo hhi
  rw [show m - 1 + 1 = m by ring] at h1
  refine ⟨?_, ?_, hb, ?_, ?_⟩
  · simp only [windowStart, newDate, timeClip, civilTime, hfull, makeDate, makeTime, hday]
    rw [if_pos (by omega)]
  · simp only [windowEnd, newDate, timeClip, civilTime, hfull, makeDate, makeTime, hday,
      show m - 1 + 1 = m by ring, h1, h2]
    rw [if_pos (by omega)]
  · rintro rfl
    simp [daysInMonth]
  · simp only [civilTime, makeDate, makeTime, h2]
    omega

/-- An instance of C4: February of the leap year 2024 ends on day 29. -/
theorem window_spec_witness :
    ((1 : Int) ≤ 2 ∧ (2 : Int) ≤ 12 ∧ (-271820 : Int) ≤ 2024 ∧ (2024 : Int) ≤ 275759 ∧
      ((2024 : Int) < 0 ∨ (99 : Int) < 2024)) ∧
    (windowStart 2024 (2 - 1) = some (civilTime 2024 2 1 0 0 0 0) ∧
      windowEnd 2024 (2 - 1) = some (civilTime 2024 2 (daysInMonth 2024 2) 23 59 59 999) ∧
      (28 ≤ daysInMonth 2024 2 ∧ daysInMonth 2024 2 ≤ 31) ∧
      ((2 : Int) = 12 → daysInMonth 2024 2 = 31) ∧
      civilTime 2024 2 1 0 0 0 0 ≤ civilTime 2024 2 (daysInMonth 2024 2) 23 59 59 999) ∧
    daysInMonth 2024 2 = 29 ∧ windowEnd 2024 1 = some 1709251199999 :=
  ⟨by decide, window_spec 2024 2 (by decide) (by decide) (by decide) (by decide) (by decide),
    by decide, by decide⟩

/-- C4 as stated fails outside that range: the year 300000 gives an Invalid
Date and no window, and the year 50 gives the window of January 1950. -/
theorem window_every_year_counterexample :
    windowStart 300000 (1 - 1) = none ∧
    windowStart 50 (1 - 1) = some (civilTime 1950 1 1 0 0 0 0) ∧
    windowStart 50 (1 - 1) ≠ some (civilTime 50 1 1 0 0 0 0) := by
  decide

/-! ## `getMonthlyExpenses` -/

theorem getMonthlyExpenses_ok (st : Store) (user : ReqUser) (year month : String)
    (yearNum monthNum : Int) (s e : Int)
    (hv : validateYearMonth year month = .ok (yearNum, monthNum))
    (hs : windowStart yearNum monthNum = some s) (he : windowEnd yearNum monthNum = some e) :
    (getMonthlyExpenses st user year month).result = .ok
      { status := 200
        count := ((monthExpenses st user.id s e).insertionSort dateAsc).length
        data := (monthExpenses st user.id s e).insertionSort dateAsc
        meta := { year := yearNum, month := monthNum + 1,
                  startDate := some s, endDate := some e } } := by
  have hf : (fun x : Expense => ExpenseFilter.holds
      { user := user.id, dateGte := some (some s), dateLte := some (some e) } x) =
      (fun x : Expense => (x.user = user.id && s ≤ x.date && x.date ≤ e : Bool)) := by
    funext x
    simp [ExpenseFilter.holds, Bound.gte, Bound.lte]
  simp only [getMonthlyExpenses, hv, hs, he, expenseFind, Bound.bad, monthExpenses]
  simp [hf]

/-- C3: for every store and every year and month that pass the validation and
give a window from `s` to `e`, `getMonthlyExpenses` answers with exactly the
expenses owned by the requester whose date lies between `s` and `e`, both
ends included: an expense of the requester dated `s` or `e` is returned and
one dated `s - 1` or `e + 1` is not. -/
theorem getMonthlyExpenses_window (st : Store) (user : ReqUser) (year month : String)
    (yearNum monthNum : Int) (s e : Int)
    (hv : validateYearMonth year month = .ok (yearNum, monthNum))
    (hs : windowStart yearNum monthNum = some s) (he : windowEnd yearNum monthNum = some e) :
    ∃ reply, (getMonthlyExpenses st user year month).result = .ok reply ∧
      (∀ x, x ∈ reply.data ↔ x ∈ st.expenses ∧ x.user = user.id ∧ s ≤ x.date ∧ x.date ≤ e) ∧
      reply.data.Perm (monthExpenses st user.id s e) ∧
      (∀ x ∈ st.expenses, x.user = user.id → (x.date = s ∨ x.date = e) → x ∈ reply.data) ∧
      (∀ x, (x.date = s - 1 ∨ x.date = e + 1) → x ∉ reply.data) := by
  refine ⟨_, getMonthlyExpenses_ok st user year month yearNum monthNum s e hv hs he, ?_⟩
  obtain ⟨_, _, h0, h11⟩ := (validateYearMonth_ok_iff year month yearNum monthNum).mp hv
  have hle := window_start_le_end yearNum monthNum s e h0 h11 hs he
  have hperm := List.perm_insertionSort dateAsc (monthExpenses st user.id s e)
  have hmem : ∀ x, x ∈ (monthExpenses st user.id s e).insertionSort dateAsc ↔
      x ∈ st.expenses ∧ x.user = user.id ∧ s ≤ x.date ∧ x.date ≤ e := by
    intro x
    rw [hperm.mem_iff]
    simp only [monthExpenses, List.mem_filter, Bool.and_eq_true, decide_eq_true_eq]
    tauto
  refine ⟨hmem, hperm, ?_, ?_⟩
  · intro x hx hu hd
    refine (hmem x).mpr ⟨hx, hu, ?_⟩
    rcases hd with hd | hd <;> omega
  · intro x hd hx
    obtain ⟨_, _, h1, h2⟩ := (hmem x).mp hx
    rcases hd with hd | hd <;> omega

/-- The worked example of C3: in August 2025 the expenses dated at the first
instant and at the last millisecond of the month are returned, those dated
one millisecond before and after are not, nor is the expense of another user. -/
theorem getMonthlyExpenses_window_witness :
    (validateYearMonth "2025" "8" = .ok (2025, 7) ∧
      windowStart 2025 7 = some 1754006400000 ∧ windowEnd 2025 7 = some 1756684799999) ∧
    (∃ reply, (getMonthlyExpenses exampleStore exampleUser "2025" "8").result = .ok reply ∧
      (∀ x, x ∈ reply.data ↔ x ∈ exampleStore.expenses ∧ x.user = exampleUser.id ∧
        1754006400000 ≤ x.date ∧ x.date ≤ 1756684799999) ∧
      reply.data.Perm (monthExpenses exampleStore exampleUser.id 1754006400000 1756684799999) ∧
      (∀ x ∈ exampleStore.expenses, x.user = exampleUser.id →
        (x.date = 1754006400000 ∨ x.date = 1756684799999) → x ∈ reply.data) ∧
      (∀ x, (x.date = 1754006400000 - 1 ∨ x.date = 1756684799999 + 1) → x ∉ reply.data)) ∧
    (getMonthlyExpenses exampleStore exampleUser "2025" "8").result = .ok
      { status := 200, count := 3
        data :=
          [{ id := 4, amount := 10, category := "Food", description := none,
             date := 1754006400000, user := 7 },
           { id := 3, amount := 5, category := "Transport", description := none,
             date := 1755000000000, user := 7 },
           { id := 5, amount := 20, category := "Food", description := none,
             date := 1756684799999, user := 7 }]
        meta := { year := 2025, month := 8, startDate := some 1754006400000,
                  endDate := some 1756684799999 } } :=
  ⟨by decide,
    getMonthlyExpenses_window exampleStore exampleUser "2025" "8" 2025 7
      1754006400000 1756684799999 (by decide) (by decide) (by decide),
    by decide⟩

/-! ## The validation of year and month -/

theorem expenseFind_cases (st : Store) (f : ExpenseFilter) :
    (∃ p, expenseFind st f = .error (.castError p)) ∨ ∃ l, expenseFind st f = .ok l := by
  unfold expenseFind
  split
  · exact Or.inl ⟨_, rfl⟩
  · split
    · exact Or.inl ⟨_, rfl⟩
    · exact Or.inr ⟨_, rfl⟩

theorem validateYearMonth_cases (year month : String) :
    validateYearMonth year month = .error (.errorResponse "Invalid year or month" 400) ∨
      ∃ p, validateYearMonth year month = .ok p := by
  unfold validateYearMonth
  cases parseInt year with
  | none => exact Or.inl rfl
  | some y =>
    cases parseInt month with
    | none => exact Or.inl rfl
    | some m =>
      by_cases hr : m - 1 < 0 ∨ m - 1 > 11
      · exact Or.inl (by simp only [hr, if_true])
      · exact Or.inr ⟨(y, m - 1), by simp only [hr, if_false]⟩

theorem validateYearMonth_error_iff (year month : String) :
    validateYearMonth year month = .error (.errorResponse "Invalid year or month" 400) ↔
      parseInt year = none ∨ parseInt month = none ∨
        ∃ m, parseInt month = some m ∧ (m < 1 ∨ 12 < m) := by
  unfold validateYearMonth
  cases parseInt year with
  | none => simp
  | some y =>
    cases parseInt month with
    | none => simp
    | some m =>
      by_cases hr : m - 1 < 0 ∨ m - 1 > 11
      · simp only [hr, if_true, true_iff]
        exact Or.inr (Or.inr ⟨m, rfl, by omega⟩)
      · simp only [hr, if_false]
        constructor
        · intro h; cases h
        · rintro (h | h | ⟨m2, h1, h2⟩)
          · cases h
          · cases h
          · simp only [Option.some.injEq] at h1
            omega

theorem getMonthlyExpenses_store (st : Store) (user : ReqUser) (year month : String) :
    (getMonthlyExpenses st user year month).store = st := by
  rcases validateYearMonth_cases year month with h | ⟨p, h⟩
  · simp [getMonthlyExpenses, h]
  · obtain ⟨q, h2⟩ | ⟨l, h2⟩ := expenseFind_cases st
      (ExpenseFilter.mk user.id (some (windowStart p.1 p.2)) (some (windowEnd p.1 p.2))
        none none none)
    · simp [getMonthlyExpenses, h, h2]
    · simp [getMonthlyExpenses, h, h2]

theorem getCategoryTotals_store (st : Store) (user : ReqUser) (year month : String) :
    (getCategoryTotals st user year month).store = st := by
  rcases validateYearMonth_cases year month with h | ⟨p, h⟩
  · simp [getCategoryTotals, h]
  · simp [getCategoryTotals, h]

/-- C5 (amended): each of the two monthly handlers fails with the error
"Invalid year or month" of status 400 exactly when `parseInt` reads no
integer from the year, or none from the month, or reads from the month an
integer outside 1..12; the store is left as it was. -/
theorem invalid_year_or_month_iff (st : Store) (user : ReqUser) (year month : String) :
    ((getMonthlyExpenses st user year month).result =
        .error (.errorResponse "Invalid year or month" 400) ↔
      parseInt year = none ∨ parseInt month = none ∨
        ∃ m, parseInt month = some m ∧ (m < 1 ∨ 12 < m)) ∧
    ((getCategoryTotals st user year month).result =
        .error (.errorResponse "Invalid year or month" 400) ↔
      parseInt year = none ∨ parseInt month = none ∨
        ∃ m, parseInt month = some m ∧ (m < 1 ∨ 12 < m)) ∧
    statusOf (.errorResponse "Invalid year or month" 400) = 400 ∧
    (getMonthlyExpenses st user year month).store = st ∧
    (getCategoryTotals st user year month).store = st := by
  refine ⟨?_, ?_, by decide, getMonthlyExpenses_store st user year month,
    getCategoryTotals_store st user year month⟩
  · rw [← validateYearMonth_error_iff]
    rcases validateYearMonth_cases year month with h | ⟨p, h⟩
    · simp [getMonthlyExpenses, h]
    · obtain ⟨q, h2⟩ | ⟨l, h2⟩ := expenseFind_cases st
        (ExpenseFilter.mk user.id (some (windowStart p.1 p.2)) (some (windowEnd p.1 p.2))
          none none none)
      · simp [getMonthlyExpenses, h, h2]
      · simp [getMonthlyExpenses, h, h2]
  · rw [← validateYearMonth_error_iff]
    rcases validateYearMonth_cases year month with h | ⟨p, h⟩
    · simp [getCategoryTotals, h]
    · simp [getCategoryTotals, h]

/-- C5 as stated fails: the month text "5abc" is not an integer from 1 to 12,
yet both handlers read it as month 5 and do not answer with the error. -/
theorem invalid_year_or_month_counterexample :
    isMonthText "5abc" = false ∧
    (getMonthlyExpenses exampleStore exampleUser "2025" "5abc").result ≠
      .error (.errorResponse "Invalid year or month" 400) ∧
    (getCategoryTotals exampleStore exampleUser "2025" "5abc").result ≠
      .error (.errorResponse "Invalid year or month" 400) ∧
    ((getMonthlyExpenses exampleStore exampleUser "2025" "5abc").result.toOption.map
      (fun r => (r.status, r.meta.month))) = some (200, 5) := by
  decide

/-! ## Ownership of expenses -/

theorem categoryCreate_error (st : Store) (doc : CategoryBody) (err : Failure)
    (h : categoryCreate st doc = .error err) :
    (∃ msgs, err = .validationError msgs) ∨ ∃ n, err = .duplicateKey n := by
  unfold categoryCreate at h
  simp only at h
  split at h
  · cases h; exact Or.inl ⟨_, rfl⟩
  · split at h
    · cases h; exact Or.inr ⟨_, rfl⟩
    · cases h

theorem ensureCategory_error (env : Env) (st : Store) (user : ReqUser) (body : ExpenseBody)
    (err : Failure) (h : ensureCategory env st user body = .error err) :
    (∃ msgs, err = .validationError msgs) ∨ ∃ n, err = .duplicateKey n := by
  unfold ensureCategory at h
  split at h
  · cases h
  · split at h
    · cases h
    · rename_i err2 hc
      cases h
      exact categoryCreate_error _ _ _ hc

theorem expenseFindByIdAndUpdate_error (st : Store) (id : ObjectId) (upd : ExpenseBody)
    (err : Failure) (h : expenseFindByIdAndUpdate st id upd = .error err) :
    ∃ msgs, err = .validationError msgs := by
  unfold expenseFindByIdAndUpdate at h
  split at h
  · cases h
  · cases h; exact ⟨_, rfl⟩

/-- What `updateExpense` answers once the ownership test is passed. -/
theorem updateExpense_authorized (env : Env) (st : Store) (user : ReqUser) (id : ObjectId)
    (e : Expense) (body : ExpenseBody)
    (hfind : expenseFindById st id = some e) (hauth : notAuthorized e user = false) :
    (∃ r, (updateExpense env st user id body).result = .ok r ∧ r.status = 200) ∨
    (∃ msgs, (updateExpense env st user id body).result = .error (.validationError msgs)) ∨
    (∃ n, (updateExpense env st user id body).result = .error (.duplicateKey n)) := by
  simp only [updateExpense, hfind, hauth]
  simp only [Bool.false_eq_true, if_false]
  split
  · rename_i err hc
    have herr : (∃ msgs, err = .validationError msgs) ∨ ∃ n, err = .duplicateKey n := by
      split at hc
      · exact ensureCategory_error _ _ _ _ _ hc
      · cases hc
    rcases herr with ⟨m, rfl⟩ | ⟨n, rfl⟩
    · exact Or.inr (Or.inl ⟨m, rfl⟩)
    · exact Or.inr (Or.inr ⟨n, rfl⟩)
  · split
    · rename_i err hu
      obtain ⟨m, rfl⟩ := expenseFindByIdAndUpdate_error _ _ _ _ hu
      exact Or.inr (Or.inl ⟨m, rfl⟩)
    · exact Or.inl ⟨_, rfl, rfl⟩

/-- C6 (amended): for every existing expense, a requester who is neither its
owner nor an administrator gets a 401 error from `getExpense`,
`updateExpense` and `deleteExpense`, and both collections stay as they were;
an administrator always succeeds with `getExpense` and `deleteExpense`, is
never answered by `updateExpense` with an `ErrorResponse` (401 or 404), and
succeeds with `updateExpense` unless a validator or the creation of the
category rejects the body; it succeeds whenever the body passes the validators
and names no category. -/
theorem expense_ownership (env : Env) (st : Store) (user : ReqUser) (id : ObjectId)
    (e : Expense) (body : ExpenseBody) (hfind : expenseFindById st id = some e) :
    (e.user ≠ user.id → user.role ≠ "admin" →
      (∃ msg, (getExpense st user id).result = .error (.errorResponse msg 401)) ∧
      (getExpense st user id).store = st ∧
      (∃ msg, (updateExpense env st user id body).result = .error (.errorResponse msg 401)) ∧
      (updateExpense env st user id body).store = st ∧
      (∃ msg, (deleteExpense st user id).result = .error (.errorResponse msg 401)) ∧
      (deleteExpense st user id).store = st ∧
      statusOf (.errorResponse "" 401) = 401) ∧
    (user.role = "admin" →
      (getExpense st user id).result = .ok { status := 200, data := e } ∧
      (deleteExpense st user id).result = .ok { status := 200, data := () } ∧
      (deleteExpense st user id).store.expenses = removeExpense e.id st.expenses ∧
      (∀ msg code, (updateExpense env st user id body).result ≠
        .error (.errorResponse msg code)) ∧
      ((∃ r, (updateExpense env st user id body).result = .ok r ∧ r.status = 200) ∨
        (∃ msgs, (updateExpense env st user id body).result = .error (.validationError msgs)) ∨
        (∃ n, (updateExpense env st user id body).result = .error (.duplicateKey n))) ∧
      (expenseUpdateErrors body = [] → body.category = none →
        ∃ r, (updateExpense env st user id body).result = .ok r ∧ r.status = 200)) := by
  constructor
  · intro howner hrole
    have hauth : notAuthorized e user = true := by
      simp [notAuthorized, howner, hrole]
    refine ⟨?_, ?_, ?_, ?_, ?_, ?_, by decide⟩ <;>
      simp [getExpense, updateExpense, deleteExpense, hfind, hauth]
  · intro hrole
    have hauth : notAuthorized e user = false := by
      simp [notAuthorized, hrole]
    have hupd := updateExpense_authorized env st user id e body hfind hauth
    refine ⟨?_, ?_, ?_, ?_, hupd, ?_⟩
    · simp [getExpense, hfind, hauth]
    · simp [deleteExpense, hfind, hauth]
    · simp [deleteExpense, hfind, hauth]
    · intro msg code hEq
      rcases hupd with ⟨r, h, _⟩ | ⟨m, h⟩ | ⟨n, h⟩ <;> rw [h] at hEq <;> cases hEq
    · intro hval hcat
      simp [updateExpense, hfind, hauth, hcat, truthy, expenseFindByIdAndUpdate, hval]

/-- An instance of C6 on the worked example: user 8 is refused on expense 3 of
user 7, the administrator reads it, deletes it, and updates its amount. -/
theorem expense_ownership_witness :
    expenseFindById exampleStore 3 = some
      { id := 3, amount := 5, category := "Transport", description := none,
        date := 1755000000000, user := 7 } ∧
    (getExpense exampleStore exampleOther 3).result = .error (.errorResponse
      "User 8 is not authorized to access this expense" 401) ∧
    (updateExpense exampleEnv exampleStore exampleAdmin 3 { amount := some 6 }).result = .ok
      { status := 200
        data := some { id := 3, amount := 6, category := "Transport", description := none,
                       date := 1755000000000, user := 7 } } ∧
    ((7 : ObjectId) ≠ exampleOther.id → exampleOther.role ≠ "admin" →
      (∃ msg, (getExpense exampleStore exampleOther 3).result =
        .error (.errorResponse msg 401)) ∧
      (getExpense exampleStore exampleOther 3).store = exampleStore ∧
      (∃ msg, (updateExpense exampleEnv exampleStore exampleOther 3 { amount := some 6 }).result =
        .error (.errorResponse msg 401)) ∧
      (updateExpense exampleEnv exampleStore exampleOther 3 { amount := some 6 }).store =
        exampleStore ∧
      (∃ msg, (deleteExpense exampleStore exampleOther 3).result =
        .error (.errorResponse msg 401)) ∧
      (deleteExpense exampleStore exampleOther 3).store = exampleStore ∧
      statusOf (.errorResponse "" 401) = 401) :=
  ⟨by decide, by decide, by decide,
    (expense_ownership exampleEnv exampleStore exampleOther 3
      { id := 3, amount := 5, category := "Transport", description := none,
        date := 1755000000000, user := 7 } { amount := some 6 } (by decide)).1⟩

/-- C6 as stated fails: an administrator who updates another user's expense
with a negative amount is rejected by the validator of the schema. -/
theorem admin_update_counterexample :
    exampleAdmin.role = "admin" ∧
    (expenseFindById exampleStore 3).map (fun x => x.user) = some 7 ∧
    (updateExpense exampleEnv exampleStore exampleAdmin 3 { amount := some (-1) }).result =
      .error (.validationError ["Amount cannot be negative"]) ∧
    (updateExpense exampleEnv exampleStore exampleAdmin 3 { amount := some (-1) }).store =
      exampleStore := by
  decide

/-! ## `getExpenses` -/

instance : IsTotal Expense dateDesc := ⟨fun a b => by unfold dateDesc; omega⟩

instance : IsTrans Expense dateDesc := ⟨fun a b c h1 h2 => by unfold dateDesc at *; omega⟩

theorem buildExpenseFilter_spec (P : Parsers) (user : ReqUser) (q : ExpenseQuery)
    (hq : wellFormedQuery P q = true) :
    (buildExpenseFilter P user q).dateGte.bad = false ∧
    (buildExpenseFilter P user q).dateLte.bad = false ∧
    (buildExpenseFilter P user q).amountGte.bad = false ∧
    (buildExpenseFilter P user q).amountLte.bad = false ∧
    ∀ x, (buildExpenseFilter P user q).holds x = satisfiesFilters P user.id q x := by
  obtain ⟨sd, ed, c, mn, mx⟩ := q
  simp only [wellFormedQuery, Bool.and_eq_true] at hq
  obtain ⟨⟨⟨⟨h1, h2⟩, h3⟩, h4⟩, h5⟩ := hq
  have key : ∀ {α : Type} (p : String → Option α) (o : Option String),
      usable (some p) o = true →
      (truthy o = false ∧ o = none) ∨
        ∃ s v, o = some s ∧ truthy o = true ∧ p s = some v := by
    intro α p o h
    cases o with
    | none => exact Or.inl ⟨rfl, rfl⟩
    | some s =>
      simp only [usable, Bool.and_eq_true, decide_eq_true_eq, Option.isSome_iff_exists] at h
      obtain ⟨hs, v, hv⟩ := h
      exact Or.inr ⟨s, v, rfl, by simp [truthy, hs], hv⟩
  have keyc : (truthy c = false ∧ c = none) ∨ ∃ s, c = some s ∧ truthy c = true := by
    cases c with
    | none => exact Or.inl ⟨rfl, rfl⟩
    | some s =>
      simp only [usable, Bool.and_eq_true, decide_eq_true_eq] at h3
      exact Or.inr ⟨s, rfl, by simp [truthy, h3.1]⟩
  rcases key P.date sd h1 with ⟨t1, rfl⟩ | ⟨s1, v1, rfl, t1, p1⟩ <;>
  rcases key P.date ed h2 with ⟨t2, rfl⟩ | ⟨s2, v2, rfl, t2, p2⟩ <;>
  rcases keyc with ⟨t3, rfl⟩ | ⟨s3, rfl, t3⟩ <;>
  rcases key P.float mn h4 with ⟨t4, rfl⟩ | ⟨s4, v4, rfl, t4, p4⟩ <;>
  rcases key P.float mx h5 with ⟨t5, rfl⟩ | ⟨s5, v5, rfl, t5, p5⟩ <;>
  simp [buildExpenseFilter, Bound.bad, ExpenseFilter.holds, satisfiesFilters, atLeast, atMost,
    Bound.gte, Bound.lte, *]

/-- C7: for every store, requester and query whose supplied filters are
usable, `getExpenses` answers with exactly the expenses owned by the
requester that satisfy every supplied filter (all bounds inclusive, an absent
filter imposing nothing), each as often as it is stored, ordered by
non-increasing date; every returned expense is owned by the requester,
whatever the role, and the store is left as it was. -/
theorem getExpenses_filters (P : Parsers) (st : Store) (user : ReqUser) (q : ExpenseQuery)
    (hq : wellFormedQuery P q = true) :
    ∃ reply, (getExpenses P st user q).result = .ok reply ∧
      reply.status = 200 ∧ reply.count = reply.data.length ∧
      reply.data.Perm (st.expenses.filter (satisfiesFilters P user.id q)) ∧
      (∀ x, x ∈ reply.data ↔ x ∈ st.expenses ∧ satisfiesFilters P user.id q x = true) ∧
      reply.data.Pairwise (fun a b => b.date ≤ a.date) ∧
      (∀ x ∈ reply.data, x.user = user.id) ∧
      (getExpenses P st user q).store = st := by
  obtain ⟨b1, b2, b3, b4, hholds⟩ := buildExpenseFilter_spec P user q hq
  have hfun : (buildExpenseFilter P user q).holds = satisfiesFilters P user.id q :=
    funext hholds
  have hfind : expenseFind st (buildExpenseFilter P user q) =
      .ok (st.expenses.filter (satisfiesFilters P user.id q)) := by
    simp [expenseFind, b1, b2, b3, b4, hfun]
  have hperm := List.perm_insertionSort dateDesc
    (st.expenses.filter (satisfiesFilters P user.id q))
  have hmem : ∀ x, x ∈ (st.expenses.filter (satisfiesFilters P user.id q)).insertionSort dateDesc ↔
      x ∈ st.expenses ∧ satisfiesFilters P user.id q x = true := by
    intro x
    rw [hperm.mem_iff, List.mem_filter]
  refine ⟨{ status := 200
            count := ((st.expenses.filter (satisfiesFilters P user.id q)).insertionSort
              dateDesc).length
            data := (st.expenses.filter (satisfiesFilters P user.id q)).insertionSort dateDesc },
    ?_, rfl, rfl, hperm, hmem, ?_, ?_, ?_⟩
  · simp [getExpenses, hfind]
  · exact List.sorted_insertionSort dateDesc _
  · intro x hx
    have h := ((hmem x).mp hx).2
    simp only [satisfiesFilters, Bool.and_eq_true, decide_eq_true_eq] at h
    exact h.1.1.1.1.1
  · simp [getExpenses, hfind]

/-- An instance of C7 on the worked example: from 1 August 2025 on and with an
amount of at least 10, user 7 gets the expenses 6, 5 and 4 in this order. -/
theorem getExpenses_filters_witness :
    wellFormedQuery exampleParsers
      { startDate := some "2025-08-01", minAmount := some "10" } = true ∧
    (∃ reply, (getExpenses exampleParsers exampleStore exampleUser
        { startDate := some "2025-08-01", minAmount := some "10" }).result = .ok reply ∧
      reply.status = 200 ∧ reply.count = reply.data.length ∧
      reply.data.Perm (exampleStore.expenses.filter (satisfiesFilters exampleParsers
        exampleUser.id { startDate := some "2025-08-01", minAmount := some "10" })) ∧
      (∀ x, x ∈ reply.data ↔ x ∈ exampleStore.expenses ∧ satisfiesFilters exampleParsers
        exampleUser.id { startDate := some "2025-08-01", minAmount := some "10" } x = true) ∧
      reply.data.Pairwise (fun a b => b.date ≤ a.date) ∧
      (∀ x ∈ reply.data, x.user = exampleUser.id) ∧
      (getExpenses exampleParsers exampleStore exampleUser
        { startDate := some "2025-08-01", minAmount := some "10" }).store = exampleStore) ∧
    ((getExpenses exampleParsers exampleStore exampleUser
        { startDate := some "2025-08-01", minAmount := some "10" }).result.toOption.map
      (fun r => r.data.map (fun x => x.id))) = some [6, 5, 4] :=
  ⟨by decide,
    getExpenses_filters exampleParsers exampleStore exampleUser
      { startDate := some "2025-08-01", minAmount := some "10" } (by decide),
    by decide⟩

/-! ## `createExpense` -/

theorem findCategoryByName_none_iff (st : Store) (uid : ObjectId) (n : String) :
    findCategoryByName st.categories (some n) uid = none ↔
      ¬ hasVisibleCategory st uid (jsTrim n) := by
  simp only [findCategoryByName, List.find?_eq_none, hasVisibleCategory]
  constructor
  · rintro h ⟨c, hc, hn, hv⟩
    apply h c hc
    rcases hv with hv | hv <;> simp [hn, hv]
  · intro h c hc hmatch
    apply h
    simp only [Bool.and_eq_true, Bool.or_eq_true, decide_eq_true_eq] at hmatch
    exact ⟨c, hc, hmatch.1, hmatch.2⟩

theorem findCategoryByName_some (st : Store) (uid : ObjectId) (name : Option String)
    (c : Category) (h : findCategoryByName st.categories name uid = some c) :
    ∃ n, name = some n ∧ hasVisibleCategory st uid (jsTrim n) := by
  cases name with
  | none => simp [findCategoryByName] at h
  | some n =>
    refine ⟨n, rfl, ?_⟩
    by_contra hno
    rw [(findCategoryByName_none_iff st uid n).mpr hno] at h
    cases h

theorem categoryCreate_ok (st : Store) (doc : CategoryBody) (c : Category) (st1 : Store)
    (h : categoryCreate st doc = .ok (c, st1)) :
    st1.categories = st.categories ++ [c] ∧ st1.expenses = st.expenses ∧
    st1.nextId = st.nextId + 1 ∧ c.id = st.nextId ∧
    (∃ n, doc.name = some n ∧ c.name = jsTrim n) ∧ c.name ≠ "" ∧
    (∀ x ∈ st.categories, x.name ≠ c.name) ∧
    c.color = (doc.color.map jsTrim).getD "#1976d2" ∧
    c.user = doc.user ∧ c.isDefault = doc.isDefault.getD false := by
  unfold categoryCreate at h
  simp only at h
  split at h
  · cases h
  · rename_i hne
    split at h
    · cases h
    · rename_i hfree
      simp only [Except.ok.injEq, Prod.mk.injEq] at h
      obtain ⟨rfl, rfl⟩ := h
      refine ⟨rfl, rfl, rfl, rfl, ?_, hne, ?_, rfl, rfl, rfl⟩
      · cases hn : doc.name with
        | none => simp [hn] at hne
        | some n => exact ⟨n, rfl, by simp⟩
      · intro x hx heq
        apply hfree
        simp only [List.any_eq_true, decide_eq_true_eq]
        exact ⟨x, hx, heq⟩

theorem expenseCreate_ok (env : Env) (st : Store) (doc : ExpenseBody) (e : Expense)
    (st1 : Store) (h : expenseCreate env st doc = .ok (e, st1)) :
    st1.expenses = st.expenses ++ [e] ∧ st1.categories = st.categories ∧
    st1.nextId = st.nextId + 1 ∧ e.id = st.nextId ∧
    doc.amount = some e.amount ∧ 0 ≤ e.amount ∧
    doc.category = some e.category ∧ e.category ≠ "" ∧
    doc.user = some e.user ∧ e.date = doc.date.getD env.now ∧
    e.description = doc.description.map jsTrim := by
  unfold expenseCreate at h
  split at h
  · rename_i a c u ha hc hu
    split at h
    · rename_i herr
      simp only [Except.ok.injEq, Prod.mk.injEq] at h
      obtain ⟨rfl, rfl⟩ := h
      simp only [expenseCreateErrors, ha, hc, hu, List.append_nil, List.append_eq_nil,
        ite_eq_right_iff, List.cons_ne_self, imp_false, not_lt] at herr
      refine ⟨rfl, rfl, rfl, rfl, ha, ?_, hc, ?_, hu, rfl, rfl⟩
      · simpa using herr.1
      · simpa using herr.2
    · cases h
  · cases h

theorem ensureCategory_ok (env : Env) (st : Store) (user : ReqUser) (body : ExpenseBody)
    (st1 : Store) (h : ensureCategory env st user body = .ok st1) :
    st1.expenses = st.expenses ∧
    ((∃ n, body.category = some n ∧ hasVisibleCategory st user.id (jsTrim n) ∧ st1 = st) ∨
     (∃ n c, body.category = some n ∧ ¬ hasVisibleCategory st user.id (jsTrim n) ∧
        st1.categories = st.categories ++ [c] ∧ c.name = jsTrim n ∧
        c.user = some user.id ∧ c.isDefault = false ∧
        c.color = jsTrim (colorOrRandom env body.color))) := by
  unfold ensureCategory at h
  split at h
  · rename_i c0 hfound
    cases h
    obtain ⟨n, hn, hv⟩ := findCategoryByName_some st user.id body.category c0 hfound
    exact ⟨rfl, Or.inl ⟨n, hn, hv, rfl⟩⟩
  · rename_i hnone
    split at h
    · rename_i c st2 hc
      cases h
      obtain ⟨h1, h2, _, _, ⟨n, hn, hname⟩, _, _, hcol, hu, hd⟩ :=
        categoryCreate_ok _ _ _ _ hc
      simp only at hn
      refine ⟨h2, Or.inr ⟨n, c, hn, ?_, h1, hname, hu, by simpa using hd, by simpa using hcol⟩⟩
      rw [hn] at hnone
      exact (findCategoryByName_none_iff st user.id n).mp hnone
    · cases h

/-- C8 (amended): a successful `createExpense` adds exactly one expense, owned
by the requester and carrying the requested category text; when no category
visible to the requester has the trimmed requested name it adds exactly one
category, named with the trimmed text, owned by the requester, not default,
and coloured with the trimmed supplied colour when one is given; when such a
category exists it adds no category. -/
theorem createExpense_adds (env : Env) (st : Store) (user : ReqUser) (body : ExpenseBody)
    (reply : Reply Expense) (hok : (createExpense env st user body).result = .ok reply) :
    ∃ n, body.category = some n ∧ reply.status = 201 ∧
      reply.data.user = user.id ∧ reply.data.category = n ∧
      (createExpense env st user body).store.expenses = st.expenses ++ [reply.data] ∧
      (¬ hasVisibleCategory st user.id (jsTrim n) →
        ∃ c, (createExpense env st user body).store.categories = st.categories ++ [c] ∧
          c.name = jsTrim n ∧ c.user = some user.id ∧ c.isDefault = false ∧
          (∀ col, body.color = some col → col ≠ "" → c.color = jsTrim col)) ∧
      (hasVisibleCategory st user.id (jsTrim n) →
        (createExpense env st user body).store.categories = st.categories) := by
  unfold createExpense at hok ⊢
  simp only at hok ⊢
  cases hens : ensureCategory env st user { body with user := some user.id } with
  | error err => simp [hens] at hok
  | ok st1 =>
    simp only [hens] at hok ⊢
    cases hexp : expenseCreate env st1 { body with user := some user.id } with
    | error err => simp [hexp] at hok
    | ok p =>
      obtain ⟨e, st2⟩ := p
      simp only [hexp, Except.ok.injEq] at hok ⊢
      subst hok
      obtain ⟨he, hcats, _, _, _, _, hcat, _, hu, _, _⟩ := expenseCreate_ok _ _ _ _ _ hexp
      obtain ⟨hexps, hcase⟩ := ensureCategory_ok _ _ _ _ _ hens
      simp only at hcat hu hcase
      simp only [Option.some.injEq] at hu
      refine ⟨e.category, hcat, rfl, hu.symm, rfl, by rw [he, hexps], ?_, ?_⟩
      · intro hno
        rcases hcase with ⟨n, hn, hv, _⟩ | ⟨n, c, hn, _, hc, hname, hcu, hcd, hcol⟩
        · rw [hcat] at hn
          cases hn
          exact absurd hv hno
        · rw [hcat] at hn
          cases hn
          refine ⟨c, by rw [hcats, hc], hname, hcu, hcd, ?_⟩
          intro col hcolor hne
          simp [hcol, colorOrRandom, hcolor, truthy, hne]
      · intro hv
        rcases hcase with ⟨n, hn, _, hst⟩ | ⟨n, c, hn, hno, _⟩
        · rw [hcats, hst]
        · rw [hcat] at hn
          cases hn
          exact absurd hv hno

/-- An instance of C8 on the worked example: an expense of category "Gym",
which user 7 does not have, adds the category with the supplied colour and
the expense. -/
theorem createExpense_adds_witness :
    (createExpense exampleEnv exampleStore exampleUser
      { amount := some 3, category := some "Gym", color := some "#abcdef" }).result = .ok
        { status := 201
          data := { id := 10, amount := 3, category := "Gym", description := none,
                    date := 1755000000000, user := 7 } } ∧
    (createExpense exampleEnv exampleStore exampleUser
      { amount := some 3, category := some "Gym", color := some "#abcdef" }).store.categories =
      exampleStore.categories ++
        [{ id := 9, name := "Gym", color := "#abcdef", user := some 7, isDefault := false }] ∧
    ∃ n, (some "Gym" : Option String) = some n ∧ (201 : Nat) = 201 ∧
      (7 : ObjectId) = exampleUser.id ∧ "Gym" = n ∧
      (createExpense exampleEnv exampleStore exampleUser
        { amount := some 3, category := some "Gym", color := some "#abcdef" }).store.expenses =
        exampleStore.expenses ++
          [{ id := 10, amount := 3, category := "Gym", description := none,
             date := 1755000000000, user := 7 }] ∧
      (¬ hasVisibleCategory exampleStore exampleUser.id (jsTrim n) →
        ∃ c, (createExpense exampleEnv exampleStore exampleUser
          { amount := some 3, category := some "Gym", color := some "#abcdef" }).store.categories =
            exampleStore.categories ++ [c] ∧
          c.name = jsTrim n ∧ c.user = some exampleUser.id ∧ c.isDefault = false ∧
          (∀ col, (some "#abcdef" : Option String) = some col → col ≠ "" →
            c.color = jsTrim col)) ∧
      (hasVisibleCategory exampleStore exampleUser.id (jsTrim n) →
        (createExpense exampleEnv exampleStore exampleUser
          { amount := some 3, category := some "Gym", color := some "#abcdef" }).store.categories =
          exampleStore.categories) :=
  ⟨by decide, by decide,
    createExpense_adds exampleEnv exampleStore exampleUser
      { amount := some 3, category := some "Gym", color := some "#abcdef" }
      { status := 201
        data := { id := 10, amount := 3, category := "Gym", description := none,
                  date := 1755000000000, user := 7 } } (by decide)⟩

/-- C8 as stated fails: for the category text " Gym" the category that is
added is named "Gym", and no category named " Gym" exists afterwards. -/
theorem createExpense_name_counterexample :
    (createExpense exampleEnv exampleStore exampleUser
      { amount := some 3, category := some " Gym" }).result = .ok
        { status := 201
          data := { id := 10, amount := 3, category := " Gym", description := none,
                    date := 1755000000000, user := 7 } } ∧
    (createExpense exampleEnv exampleStore exampleUser
      { amount := some 3, category := some " Gym" }).store.categories =
      exampleStore.categories ++
        [{ id := 9, name := "Gym", color := "#ff", user := some 7, isDefault := false }] ∧
    ∀ c ∈ (createExpense exampleEnv exampleStore exampleUser
      { amount := some 3, category := some " Gym" }).store.categories, c.name ≠ " Gym" := by
  decide

/-! ## `createCategory` -/

/-- C9: in every store whose category names are trimmed, `createCategory`
fails with the 400 error "Category with name ... already exists" and leaves
the store as it was whenever the requested name is the name of a default
category or of a category owned by the requester; when every category of that
name is owned by another user and not default, no `ErrorResponse` is
produced. -/
theorem createCategory_conflict (st : Store) (user : ReqUser) (body : CategoryBody)
    (name : String) (hwf : TrimmedNames st) (hname : body.name = some name) :
    ((∃ c ∈ st.categories, c.name = name ∧ (c.isDefault = true ∨ c.user = some user.id)) →
      (createCategory st user body).result =
        .error (.errorResponse ("Category with name " ++ name ++ " already exists") 400) ∧
      statusOf (.errorResponse ("Category with name " ++ name ++ " already exists") 400) = 400 ∧
      (createCategory st user body).store = st) ∧
    ((∀ c ∈ st.categories, c.name = jsTrim name →
        c.isDefault = false ∧ c.user ≠ some user.id) →
      ∀ msg code, (createCategory st user body).result ≠ .error (.errorResponse msg code)) := by
  obtain ⟨bn, bc, bu, bd⟩ := body
  simp only at hname
  subst hname
  constructor
  · rintro ⟨c, hc, hcn, hvis⟩
    have htrim : jsTrim name = name := by rw [← hcn]; exact hwf c hc
    have hv : hasVisibleCategory st user.id (jsTrim name) :=
      ⟨c, hc, by rw [htrim, hcn], hvis.symm⟩
    cases hf : findCategoryByName st.categories (some name) user.id with
    | none => exact absurd hv ((findCategoryByName_none_iff st user.id name).mp hf)
    | some c0 =>
      refine ⟨?_, rfl, ?_⟩ <;> simp [createCategory, hf]
  · intro hother msg code
    have hnone : findCategoryByName st.categories (some name) user.id = none := by
      rw [findCategoryByName_none_iff]
      rintro ⟨c, hc, hcn, hvis⟩
      obtain ⟨hd, hu⟩ := hother c hc hcn
      rcases hvis with h | h
      · exact hu h
      · rw [hd] at h; cases h
    simp only [createCategory, hnone]
    cases hcreate : categoryCreate st
        { name := some name, color := bc, user := some user.id, isDefault := bd } with
    | error err =>
      rcases categoryCreate_error _ _ _ hcreate with ⟨m, rfl⟩ | ⟨n, rfl⟩ <;> simp
    | ok p => simp

/-- An instance of C9: user 7 asks for "Food", the name of a default category,
and is refused; asking for "Gifts", which only user 8 owns, is not refused
with that error. -/
theorem createCategory_conflict_witness :
    (TrimmedNames sharedNameStore ∧
      ({ name := some "Food" } : CategoryBody).name = some "Food") ∧
    (((∃ c ∈ sharedNameStore.categories,
        c.name = "Food" ∧ (c.isDefault = true ∨ c.user = some exampleUser.id)) →
      (createCategory sharedNameStore exampleUser { name := some "Food" }).result =
        .error (.errorResponse ("Category with name " ++ "Food" ++ " already exists") 400) ∧
      statusOf (.errorResponse ("Category with name " ++ "Food" ++ " already exists") 400) = 400 ∧
      (createCategory sharedNameStore exampleUser { name := some "Food" }).store =
        sharedNameStore) ∧
    ((∀ c ∈ sharedNameStore.categories, c.name = jsTrim "Food" →
        c.isDefault = false ∧ c.user ≠ some exampleUser.id) →
      ∀ msg code, (createCategory sharedNameStore exampleUser { name := some "Food" }).result ≠
        .error (.errorResponse msg code))) ∧
    (createCategory sharedNameStore exampleUser { name := some "Food" }).result =
      .error (.errorResponse "Category with name Food already exists" 400) ∧
    (createCategory sharedNameStore exampleUser { name := some "Gifts" }).result =
      .error (.duplicateKey "Gifts") :=
  ⟨⟨by unfold TrimmedNames; decide, rfl⟩,
    createCategory_conflict sharedNameStore exampleUser { name := some "Food" } "Food"
      (by unfold TrimmedNames; decide) rfl,
    by decide, by decide⟩

theorem categoryCreate_succeeds (st : Store) (doc : CategoryBody) (n : String)
    (hn : doc.name = some n) (hne : jsTrim n ≠ "")
    (hfree : ∀ c ∈ st.categories, c.name ≠ jsTrim n) :
    ∃ c st1, categoryCreate st doc = .ok (c, st1) := by
  have hany : st.categories.any (fun c => c.name = jsTrim n) = false := by
    rw [List.any_eq_false]
    intro c hc
    simpa using hfree c hc
  simp [categoryCreate, hn, hne, hany]

/-- C10 (amended): for every store and every requested name whose trimmed
form is not empty and is not the name of any stored category,
`createCategory` succeeds with status 201 and stores the trimmed name, and a
following `getCategories` of the same user returns the new category, whose
name is the trimmed requested name. -/
theorem createCategory_then_list (st : Store) (user : ReqUser) (body : CategoryBody)
    (name : String) (hname : body.name = some name) (hne : jsTrim name ≠ "")
    (hfree : ∀ c ∈ st.categories, c.name ≠ jsTrim name) :
    ∃ reply, (createCategory st user body).result = .ok reply ∧
      reply.status = 201 ∧ reply.data.name = jsTrim name ∧
      (createCategory st user body).store.categories = st.categories ++ [reply.data] ∧
      ∃ listing, (getCategories (createCategory st user body).store user).result = .ok listing ∧
        listing.status = 200 ∧ reply.data ∈ listing.data ∧
        ∃ c ∈ listing.data, c.name = jsTrim name := by
  have hnone : findCategoryByName st.categories body.name user.id = none := by
    rw [hname, findCategoryByName_none_iff]
    rintro ⟨c, hc, hcn, _⟩
    exact hfree c hc hcn
  obtain ⟨c, st1, hcreate⟩ := categoryCreate_succeeds st { body with user := some user.id }
    name hname hne hfree
  obtain ⟨hcats, _, _, _, ⟨n, hn, hcn⟩, _, _, _, hu, _⟩ := categoryCreate_ok _ _ _ _ hcreate
  simp only at hn hu
  rw [hname] at hn
  cases hn
  have hres : createCategory st user body =
      { store := st1, result := .ok { status := 201, data := c } } := by
    simp [createCategory, hnone, hcreate]
  have hmem : c ∈ (visibleCategories st1 user.id).insertionSort nameAsc := by
    rw [(List.perm_insertionSort nameAsc _).mem_iff]
    simp [visibleCategories, hcats, hu]
  rw [hres]
  exact ⟨_, rfl, rfl, hcn, hcats, _, rfl, rfl, hmem, c, hmem, hcn⟩

/-- An instance of C10: user 7 creates "Gym" and finds it in the listing. -/
theorem createCategory_then_list_witness :
    (({ name := some "Gym" } : CategoryBody).name = some "Gym" ∧ jsTrim "Gym" ≠ "" ∧
      ∀ c ∈ sharedNameStore.categories, c.name ≠ jsTrim "Gym") ∧
    (∃ reply, (createCategory sharedNameStore exampleUser { name := some "Gym" }).result =
        .ok reply ∧
      reply.status = 201 ∧ reply.data.name = jsTrim "Gym" ∧
      (createCategory sharedNameStore exampleUser { name := some "Gym" }).store.categories =
        sharedNameStore.categories ++ [reply.data] ∧
      ∃ listing, (getCategories (createCategory sharedNameStore exampleUser
          { name := some "Gym" }).store exampleUser).result = .ok listing ∧
        listing.status = 200 ∧ reply.data ∈ listing.data ∧
        ∃ c ∈ listing.data, c.name = jsTrim "Gym") ∧
    ((getCategories (createCategory sharedNameStore exampleUser
        { name := some "Gym" }).store exampleUser).result.toOption.map
      (fun r => r.data.map (fun c => c.name))) = some ["Food", "Gym"] :=
  ⟨by decide,
    createCategory_then_list sharedNameStore exampleUser { name := some "Gym" } "Gym"
      rfl (by decide) (by decide),
    by decide⟩

/-- C10 as stated fails: the non-empty name " Gym" is the name of no category,
`createCategory` succeeds, and the listing that follows holds no category
named " Gym": the stored name is "Gym". The non-empty name " " is refused by
the validator of the schema. -/
theorem createCategory_name_counterexample :
    (∀ c ∈ sharedNameStore.categories, c.name ≠ " Gym") ∧
    ((createCategory sharedNameStore exampleUser { name := some " Gym" }).result.toOption.map
      (fun r => (r.status, r.data.name))) = some (201, "Gym") ∧
    (∀ listing, (getCategories (createCategory sharedNameStore exampleUser
          { name := some " Gym" }).store exampleUser).result = .ok listing →
      ∀ c ∈ listing.data, c.name ≠ " Gym") ∧
    (createCategory sharedNameStore exampleUser { name := some " " }).result =
      .error (.validationError ["Please add a category name"]) := by
  refine ⟨by decide, by decide, ?_, by decide⟩
  intro listing h
  have h3 : (getCategories (createCategory sharedNameStore exampleUser
      { name := some " Gym" }).store exampleUser).result = .ok
      { status := 200, count := 2
        data := [{ id := 1, name := "Food", color := "#FF5722", user := none,
                   isDefault := true },
                 { id := 3, name := "Gym", color := "#1976d2", user := some 7,
                   isDefault := false }] } := by decide
  rw [h3] at h
  have h2 := (Except.ok.inj h).symm
  subst h2
  decide

/-- What happens when another user owns the name: the unique index on `name`
rejects the insert and the global handler answers 500. -/
theorem createCategory_other_owner :
    (∀ c ∈ sharedNameStore.categories, c.name = "Gifts" →
      c.isDefault = false ∧ c.user ≠ some exampleUser.id) ∧
    (createCategory sharedNameStore exampleUser { name := some "Gifts" }).result =
      .error (.duplicateKey "Gifts") ∧
    statusOf (.duplicateKey "Gifts") = 500 ∧
    (createCategory sharedNameStore exampleUser { name := some "Gifts" }).store =
      sharedNameStore := by
  decide

/-! ## Stored names are trimmed -/

theorem trimStart_suffix (l : List Char) : trimStart l <:+ l := by
  induction l with
  | nil => exact List.suffix_refl _
  | cons c cs ih =>
    unfold trimStart
    split
    · exact ih.trans (List.suffix_cons c cs)
    · exact List.suffix_refl _

theorem trimStart_head (l : List Char) (c : Char) (h : (trimStart l).head? = some c) :
    isJsWhiteSpace c = false := by
  induction l with
  | nil => simp [trimStart] at h
  | cons a as ih =>
    unfold trimStart at h
    split at h
    · exact ih h
    · rename_i hws
      simp only [List.head?_cons, Option.some.injEq] at h
      subst h
      simpa using hws

theorem trimStart_of_head (l : List Char)
    (h : ∀ c, l.head? = some c → isJsWhiteSpace c = false) : trimStart l = l := by
  cases l with
  | nil => rfl
  | cons a as =>
    have := h a rfl
    simp [trimStart, this]

theorem trimStart_idem (l : List Char) : trimStart (trimStart l) = trimStart l :=
  trimStart_of_head _ (trimStart_head l)

theorem trimEnd_idem (l : List Char) : trimEnd (trimEnd l) = trimEnd l := by
  simp [trimEnd, trimStart_idem]

theorem trimEnd_prefix (l : List Char) : trimEnd l <+: l := by
  have h := trimStart_suffix l.reverse
  have h2 := List.reverse_prefix.mpr h
  simpa [trimEnd] using h2

theorem trimStart_trimEnd (l : List Char)
    (h : ∀ c, l.head? = some c → isJsWhiteSpace c = false) :
    trimStart (trimEnd l) = trimEnd l := by
  apply trimStart_of_head
  intro c hc
  obtain ⟨t, ht⟩ := trimEnd_prefix l
  apply h
  rw [← ht]
  cases hte : trimEnd l with
  | nil => simp [hte] at hc
  | cons a as =>
    rw [hte] at hc
    simpa using hc

/-- Trimming a trimmed string changes nothing. -/
theorem jsTrim_idem (s : String) : jsTrim (jsTrim s) = jsTrim s := by
  simp only [jsTrim]
  rw [trimStart_trimEnd _ (trimStart_head s.data), trimEnd_idem]

/-- The method `Category.create` keeps the stored names trimmed. -/
theorem categoryCreate_trimmed (st : Store) (doc : CategoryBody) (c : Category) (st1 : Store)
    (hwf : TrimmedNames st) (h : categoryCreate st doc = .ok (c, st1)) : TrimmedNames st1 := by
  obtain ⟨hcats, _, _, _, ⟨n, _, hcn⟩, _⟩ := categoryCreate_ok st doc c st1 h
  intro x hx
  rw [hcats, List.mem_append, List.mem_singleton] at hx
  rcases hx with hx | rfl
  · exact hwf x hx
  · rw [hcn, jsTrim_idem]

/-- The handler `createCategory` keeps the stored names trimmed. -/
theorem createCategory_trimmed (st : Store) (user : ReqUser) (body : CategoryBody)
    (hwf : TrimmedNames st) : TrimmedNames (createCategory st user body).store := by
  unfold createCategory
  simp only
  split
  · exact hwf
  · split
    · exact hwf
    · rename_i c st1 hc
      exact categoryCreate_trimmed _ _ _ _ hwf hc

/-- The handler `createExpense` keeps the stored names trimmed. -/
theorem createExpense_trimmed (env : Env) (st : Store) (user : ReqUser) (body : ExpenseBody)
    (hwf : TrimmedNames st) : TrimmedNames (createExpense env st user body).store := by
  have hens : ∀ st1, ensureCategory env st user { body with user := some user.id } = .ok st1 →
      TrimmedNames st1 := by
    intro st1 h
    unfold ensureCategory at h
    split at h
    · cases h; exact hwf
    · split at h
      · rename_i c st2 hc
        cases h
        exact categoryCreate_trimmed _ _ _ _ hwf hc
      · cases h
  unfold createExpense
  simp only
  split
  · exact hwf
  · rename_i st1 h1
    split
    · exact hens st1 h1
    · rename_i e st2 h2
      obtain ⟨_, hcats, _⟩ := expenseCreate_ok _ _ _ _ _ h2
      intro x hx
      rw [hcats] at hx
      exact hens st1 h1 x hx

/-! ## Ownership fields of a created category -/

/-- The category stored by a successful `createCategory` is owned by the
requester, and its `isDefault` flag is the one of the body when the body
carries one. -/
theorem createCategory_stored (st : Store) (user : ReqUser) (body : CategoryBody)
    (reply : Reply Category) (hok : (createCategory st user body).result = .ok reply) :
    reply.data.user = some user.id ∧ reply.data.isDefault = body.isDefault.getD false ∧
    (createCategory st user body).store.categories = st.categories ++ [reply.data] := by
  unfold createCategory at hok ⊢
  simp only at hok ⊢
  split at hok
  · cases hok
  · rename_i hnone
    cases hc : categoryCreate st { body with user := some user.id } with
    | error err => simp [hc] at hok
    | ok p =>
      obtain ⟨c, st1⟩ := p
      simp only [hc, Except.ok.injEq] at hok
      subst hok
      obtain ⟨hcats, _, _, _, _, _, _, _, hu, hd⟩ := categoryCreate_ok _ _ _ _ hc
      simp only [hnone, hc]
      exact ⟨hu, hd, hcats⟩

/-- C11 at the failing input: a body that carries `isDefault: true` (and a
foreign `user`) is accepted, and the stored category is owned by the requester
but is a default category. -/
theorem createCategory_isDefault_from_body :
    (createCategory categoryStore exampleUser
      { name := some "Mine", user := some 99, isDefault := some true }).result = .ok
        { status := 201
          data := { id := 9, name := "Mine", color := "#1976d2", user := some 7,
                    isDefault := true } } ∧
    { id := 9, name := "Mine", color := "#1976d2", user := some 7, isDefault := true } ∈
      (createCategory categoryStore exampleUser
        { name := some "Mine", user := some 99, isDefault := some true }).store.categories := by
  decide

/-! ## `deleteCategory` -/

theorem categoryFindById_some (st : Store) (id : ObjectId) (c : Category)
    (h : categoryFindById st id = some c) : c ∈ st.categories ∧ c.id = id := by
  unfold categoryFindById at h
  exact ⟨List.mem_of_find?_eq_some h, by simpa using List.find?_some h⟩

theorem removeCategory_eq_erase (cats : List Category) (c : Category)
    (h : cats.find? (fun x => x.id = c.id) = some c) :
    removeCategory c.id cats = cats.erase c := by
  induction cats with
  | nil => simp at h
  | cons x xs ih =>
    by_cases hx : x.id = c.id
    · simp only [List.find?_cons, hx, decide_True, Option.some.injEq] at h
      subst h
      simp [removeCategory]
    · have hne : x ≠ c := fun heq => hx (by rw [heq])
      simp only [List.find?_cons, hx, decide_False] at h
      simp [removeCategory, hx, List.erase_cons, hne, ih h]

/-- C12: for every non-default category owned by the requester,
`deleteCategory` fails with a 400 error and leaves the store as it was, the
category included, when an expense of the requester carries the name of the
category; otherwise it succeeds and removes exactly that category: no other
category and no expense changes. -/
theorem deleteCategory_in_use (st : Store) (user : ReqUser) (id : ObjectId) (c : Category)
    (hfind : categoryFindById st id = some c) (hdef : c.isDefault = false)
    (hown : c.user = some user.id) :
    ((∃ e ∈ st.expenses, e.user = user.id ∧ e.category = c.name) →
      (∃ msg, (deleteCategory st user id).result = .error (.errorResponse msg 400)) ∧
      (deleteCategory st user id).store = st ∧
      c ∈ (deleteCategory st user id).store.categories) ∧
    ((∀ e ∈ st.expenses, e.user = user.id → e.category ≠ c.name) →
      (deleteCategory st user id).result = .ok { status := 200, data := () } ∧
      (deleteCategory st user id).store.categories = st.categories.erase c ∧
      (deleteCategory st user id).store.expenses = st.expenses ∧
      st.categories.Perm (c :: (deleteCategory st user id).store.categories)) := by
  obtain ⟨hmem, hid⟩ := categoryFindById_some st id c hfind
  constructor
  · rintro ⟨e, he, heu, hec⟩
    have hpos : expenseCountDocuments st user.id c.name > 0 := by
      unfold expenseCountDocuments
      apply List.length_pos_of_mem (a := e)
      simp [List.mem_filter, he, heu, hec]
    simp [deleteCategory, hfind, hdef, hown, hpos, hmem]
  · intro hnone
    have hzero : expenseCountDocuments st user.id c.name = 0 := by
      unfold expenseCountDocuments
      rw [List.length_eq_zero, List.filter_eq_nil_iff]
      intro e he
      simp only [Bool.and_eq_true, decide_eq_true_eq, not_and]
      exact fun hu => hnone e he hu
    have herase : removeCategory c.id st.categories = st.categories.erase c := by
      apply removeCategory_eq_erase
      rw [hid]
      exact hfind
    simp only [deleteCategory, hfind, hdef, hown, hzero]
    simp only [herase]
    refine ⟨by simp, by simp, by simp, ?_⟩
    simpa using List.perm_cons_erase hmem

/-- An instance of C12: user 7 cannot delete "Gifts", which one of their
expenses uses, and deletes "Education", which only an expense of user 8 uses. -/
theorem deleteCategory_in_use_witness :
    (categoryFindById categoryStore 3 = some
        { id := 3, name := "Education", color := "#00BCD4", user := some 7,
          isDefault := false } ∧
      (false : Bool) = false ∧ (some 7 : Option ObjectId) = some exampleUser.id) ∧
    (((∃ e ∈ categoryStore.expenses, e.user = exampleUser.id ∧ e.category = "Education") →
      (∃ msg, (deleteCategory categoryStore exampleUser 3).result =
        .error (.errorResponse msg 400)) ∧
      (deleteCategory categoryStore exampleUser 3).store = categoryStore ∧
      { id := 3, name := "Education", color := "#00BCD4", user := some 7,
        isDefault := false } ∈ (deleteCategory categoryStore exampleUser 3).store.categories) ∧
    ((∀ e ∈ categoryStore.expenses, e.user = exampleUser.id → e.category ≠ "Education") →
      (deleteCategory categoryStore exampleUser 3).result = .ok { status := 200, data := () } ∧
      (deleteCategory categoryStore exampleUser 3).store.categories =
        categoryStore.categories.erase
          { id := 3, name := "Education", color := "#00BCD4", user := some 7,
            isDefault := false } ∧
      (deleteCategory categoryStore exampleUser 3).store.expenses = categoryStore.expenses ∧
      categoryStore.categories.Perm
        ({ id := 3, name := "Education", color := "#00BCD4", user := some 7,
           isDefault := false } :: (deleteCategory categoryStore exampleUser 3).store.categories))) ∧
    (deleteCategory categoryStore exampleUser 3).result = .ok { status := 200, data := () } ∧
    (deleteCategory categoryStore exampleUser 2).result = .error (.errorResponse
      "Cannot delete category that is in use by 1 expenses" 400) ∧
    (deleteCategory categoryStore exampleUser 2).store = categoryStore :=
  ⟨by decide,
    deleteCategory_in_use categoryStore exampleUser 3
      { id := 3, name := "Education", color := "#00BCD4", user := some 7, isDefault := false }
      (by decide) rfl rfl,
    by decide, by decide, by decide⟩

/-! ## Who may change or delete a category -/

/-- C13: for every default category, whoever the requester is, and for every
non-default category whose owner is another user, `updateCategory` and
`deleteCategory` fail with a 401 error and leave the store as it was; a
default category is refused with its own message before the owner or the use
by expenses is looked at. -/
theorem category_write_refused (st : Store) (user : ReqUser) (id : ObjectId) (c : Category)
    (body : CategoryBody) (hfind : categoryFindById st id = some c)
    (hcase : c.isDefault = true ∨ ∃ owner, c.user = some owner ∧ owner ≠ user.id) :
    (∃ msg, (updateCategory st user id body).result = .error (.errorResponse msg 401)) ∧
    (updateCategory st user id body).store = st ∧
    (∃ msg, (deleteCategory st user id).result = .error (.errorResponse msg 401)) ∧
    (deleteCategory st user id).store = st ∧
    statusOf (.errorResponse "" 401) = 401 ∧
    (c.isDefault = true →
      (updateCategory st user id body).result =
        .error (.errorResponse "Cannot modify default category" 401) ∧
      (deleteCategory st user id).result =
        .error (.errorResponse "Cannot delete default category" 401)) := by
  by_cases hd : c.isDefault = true
  · simp [updateCategory, deleteCategory, hfind, hd, statusOf]
  · rcases hcase with h | ⟨owner, ho, hne⟩
    · exact absurd h hd
    · simp [updateCategory, deleteCategory, hfind, hd, ho, hne, statusOf]

/-- An instance of C13: the administrator cannot delete the default category
"Food", which is in use, and user 7 cannot rename "Pets" of user 8. -/
theorem category_write_refused_witness :
    (categoryFindById categoryStore 1 = some
        { id := 1, name := "Food", color := "#FF5722", user := none, isDefault := true } ∧
      ((true : Bool) = true ∨ ∃ owner, (none : Option ObjectId) = some owner ∧
        owner ≠ exampleAdmin.id)) ∧
    ((∃ msg, (updateCategory categoryStore exampleAdmin 1 { name := some "Meals" }).result =
        .error (.errorResponse msg 401)) ∧
      (updateCategory categoryStore exampleAdmin 1 { name := some "Meals" }).store =
        categoryStore ∧
      (∃ msg, (deleteCategory categoryStore exampleAdmin 1).result =
        .error (.errorResponse msg 401)) ∧
      (deleteCategory categoryStore exampleAdmin 1).store = categoryStore ∧
      statusOf (.errorResponse "" 401) = 401 ∧
      ((true : Bool) = true →
        (updateCategory categoryStore exampleAdmin 1 { name := some "Meals" }).result =
          .error (.errorResponse "Cannot modify default category" 401) ∧
        (deleteCategory categoryStore exampleAdmin 1).result =
          .error (.errorResponse "Cannot delete default category" 401))) ∧
    (updateCategory categoryStore exampleUser 4 { name := some "Cats" }).result =
      .error (.errorResponse "User 7 is not authorized to update this category" 401) ∧
    (deleteCategory categoryStore exampleUser 4).result =
      .error (.errorResponse "User 7 is not authorized to delete this category" 401) :=
  ⟨⟨by decide, Or.inl rfl⟩,
    category_write_refused categoryStore exampleAdmin 1
      { id := 1, name := "Food", color := "#FF5722", user := none, isDefault := true }
      { name := some "Meals" } (by decide) (Or.inl rfl),
    by decide, by decide⟩

/-- What the two handlers do with a category that is neither default nor
owned: reading its owner throws, and the global handler answers 500. -/
theorem category_write_ownerless :
    (updateCategory categoryStore exampleUser 5 { name := some "Mine" }).result =
      .error (.typeError "Cannot read properties of undefined (reading toString)") ∧
    (deleteCategory categoryStore exampleUser 5).result =
      .error (.typeError "Cannot read properties of undefined (reading toString)") ∧
    statusOf (.typeError "Cannot read properties of undefined (reading toString)") = 500 := by
  decide

/-! ## `getCategory` -/

/-- C14 (amended): `getCategory` fails with a 404 error exactly when no
category has the id; for a category that is found it fails with a 401 error
exactly when the category is not default and has an owner who is not the
requester, and otherwise, also for a category that is neither default nor
owned, it returns the category; the store is left as it was. -/
theorem getCategory_cases (st : Store) (user : ReqUser) (id : ObjectId) :
    ((∃ msg, (getCategory st user id).result = .error (.errorResponse msg 404)) ↔
      ∀ c ∈ st.categories, c.id ≠ id) ∧
    (∀ c, categoryFindById st id = some c →
      ((∃ msg, (getCategory st user id).result = .error (.errorResponse msg 401)) ↔
        c.isDefault = false ∧ ∃ owner, c.user = some owner ∧ owner ≠ user.id) ∧
      (¬ (c.isDefault = false ∧ ∃ owner, c.user = some owner ∧ owner ≠ user.id) →
        (getCategory st user id).result = .ok { status := 200, data := c })) ∧
    (getCategory st user id).store = st := by
  cases hf : categoryFindById st id with
  | none =>
    have hnone : ∀ c ∈ st.categories, c.id ≠ id := by
      unfold categoryFindById at hf
      rw [List.find?_eq_none] at hf
      intro c hc
      simpa using hf c hc
    simp only [getCategory, hf]
    refine ⟨⟨fun _ => hnone, fun _ => ⟨_, rfl⟩⟩, ?_, trivial⟩
    intro c hc
    cases hc
  | some c =>
    obtain ⟨hmem, hid⟩ := categoryFindById_some st id c hf
    have hex : ¬ ∀ x ∈ st.categories, x.id ≠ id := fun h => h c hmem hid
    refine ⟨?_, ?_, ?_⟩
    · simp only [hex, iff_false]
      rintro ⟨msg, h⟩
      simp only [getCategory, hf] at h
      split at h <;> simp at h
    · intro c2 hc2
      cases hc2
      cases hd : c.isDefault <;> cases hu : c.user with
      | none => simp [getCategory, hf, hd, hu]
      | some owner =>
        by_cases ho : owner = user.id <;> simp [getCategory, hf, hd, hu, ho]
    · simp only [getCategory, hf]
      split <;> rfl

/-- C14 as stated fails: a category that is not default and has no owner is
returned to any requester, not refused with 401. -/
theorem getCategory_ownerless_counterexample :
    categoryFindById categoryStore 5 = some
      { id := 5, name := "Orphan", color := "#654321", user := none, isDefault := false } ∧
    (getCategory categoryStore exampleUser 5).result = .ok
      { status := 200
        data := { id := 5, name := "Orphan", color := "#654321", user := none,
                  isDefault := false } } := by
  decide

/-- An instance of C14: user 7 is refused on "Pets" of user 8 and reads the
default category "Food"; the store stays as it was. -/
theorem getCategory_cases_witness :
    (getCategory categoryStore exampleUser 4).store = categoryStore ∧
    (getCategory categoryStore exampleUser 4).result =
      .error (.errorResponse "User 7 is not authorized to access this category" 401) ∧
    (getCategory categoryStore exampleUser 1).result = .ok
      { status := 200
        data := { id := 1, name := "Food", color := "#FF5722", user := none,
                  isDefault := true } } ∧
    (getCategory categoryStore exampleUser 77).result =
      .error (.errorResponse "Category not found with id of 77" 404) :=
  ⟨(getCategory_cases categoryStore exampleUser 4).2.2, by decide, by decide, by decide⟩

/-! ## `getCategories` -/

theorem lexLe_total : ∀ a b : List Char, lexLe a b = true ∨ lexLe b a = true
  | [], _ => Or.inl (by simp [lexLe])
  | _ :: _, [] => Or.inr (by simp [lexLe])
  | a :: as, b :: bs => by
    rcases lexLe_total as bs with h | h
    · rcases Nat.lt_trichotomy a.toNat b.toNat with h1 | h1 | h1
      · exact Or.inl (by simp [lexLe, h1])
      · exact Or.inl (by simp [lexLe, h1, h])
      · exact Or.inr (by simp [lexLe, h1])
    · rcases Nat.lt_trichotomy a.toNat b.toNat with h1 | h1 | h1
      · exact Or.inl (by simp [lexLe, h1])
      · exact Or.inr (by simp [lexLe, h1, h])
      · exact Or.inr (by simp [lexLe, h1])

theorem lexLe_trans : ∀ a b c : List Char,
    lexLe a b = true → lexLe b c = true → lexLe a c = true
  | [], _, _ => fun _ _ => by simp [lexLe]
  | _ :: _, [], _ => fun h _ => by simp [lexLe] at h
  | _ :: _, _ :: _, [] => fun _ h => by simp [lexLe] at h
  | a :: as, b :: bs, c :: cs => by
    intro h1 h2
    simp only [lexLe, Bool.or_eq_true, Bool.and_eq_true, decide_eq_true_eq] at h1 h2 ⊢
    rcases h1 with h1 | ⟨e1, r1⟩
    · rcases h2 with h2 | ⟨e2, _⟩
      · exact Or.inl (by omega)
      · exact Or.inl (by omega)
    · rcases h2 with h2 | ⟨e2, r2⟩
      · exact Or.inl (by omega)
      · exact Or.inr ⟨by omega, lexLe_trans as bs cs r1 r2⟩

instance : IsTotal Category nameAsc := ⟨fun a b => lexLe_total a.name.data b.name.data⟩

instance : IsTrans Category nameAsc :=
  ⟨fun a b c h1 h2 => lexLe_trans a.name.data b.name.data c.name.data h1 h2⟩

/-- C15: for every store and requester `getCategories` answers with exactly
the categories owned by the requester or default, each as often as it is
stored, never a non-default category of another user, ordered by name
ascending, and the count is the number of returned categories. -/
theorem getCategories_visible (st : Store) (user : ReqUser) :
    ∃ reply, (getCategories st user).result = .ok reply ∧ reply.status = 200 ∧
      reply.data.Perm
        (st.categories.filter (fun c => c.user = some user.id || c.isDefault)) ∧
      (∀ c, c ∈ reply.data ↔
        c ∈ st.categories ∧ (c.user = some user.id ∨ c.isDefault = true)) ∧
      (∀ c ∈ reply.data, c.isDefault = false → c.user = some user.id) ∧
      reply.data.Pairwise (fun a b => lexLe a.name.data b.name.data = true) ∧
      reply.count = reply.data.length ∧
      (getCategories st user).store = st := by
  have hperm := List.perm_insertionSort nameAsc (visibleCategories st user.id)
  have hmem : ∀ c, c ∈ (visibleCategories st user.id).insertionSort nameAsc ↔
      c ∈ st.categories ∧ (c.user = some user.id ∨ c.isDefault = true) := by
    intro c
    rw [hperm.mem_iff]
    simp [visibleCategories, List.mem_filter]
  refine ⟨_, rfl, rfl, hperm, hmem, ?_, ?_, rfl, rfl⟩
  · intro c hc hd
    rcases ((hmem c).mp hc).2 with h | h
    · exact h
    · rw [hd] at h; cases h
  · exact List.sorted_insertionSort nameAsc _

/-- An instance of C15: user 7 gets "Education", "Food" and "Gifts" in this
order, not "Pets" of user 8 nor the category without owner. -/
theorem getCategories_visible_witness :
    (∃ reply, (getCategories categoryStore exampleUser).result = .ok reply ∧
      reply.status = 200 ∧
      reply.data.Perm
        (categoryStore.categories.filter (fun c => c.user = some exampleUser.id || c.isDefault)) ∧
      (∀ c, c ∈ reply.data ↔
        c ∈ categoryStore.categories ∧ (c.user = some exampleUser.id ∨ c.isDefault = true)) ∧
      (∀ c ∈ reply.data, c.isDefault = false → c.user = some exampleUser.id) ∧
      reply.data.Pairwise (fun a b => lexLe a.name.data b.name.data = true) ∧
      reply.count = reply.data.length ∧
      (getCategories categoryStore exampleUser).store = categoryStore) ∧
    ((getCategories categoryStore exampleUser).result.toOption.map
      (fun r => (r.count, r.data.map (fun c => c.name)))) =
      some (3, ["Education", "Food", "Gifts"]) :=
  ⟨getCategories_visible categoryStore exampleUser, by decide⟩

/-! ## Uniqueness of category names -/

theorem namesDistinct_visibleUnique (st : Store) (h : NamesDistinct st) : VisibleUnique st := by
  intro uid
  unfold visibleCategories
  exact h.sublist ((List.filter_sublist _).map _)

theorem categoryCreate_distinct (st : Store) (doc : CategoryBody) (c : Category) (st1 : Store)
    (hnd : NamesDistinct st) (h : categoryCreate st doc = .ok (c, st1)) : NamesDistinct st1 := by
  obtain ⟨hcats, _, _, _, _, _, hfree, _⟩ := categoryCreate_ok st doc c st1 h
  unfold NamesDistinct at hnd ⊢
  rw [hcats, List.map_append, List.map_singleton]
  have hnot : c.name ∉ st.categories.map (fun c => c.name) := by
    intro hmem
    obtain ⟨x, hx, hxn⟩ := List.mem_map.mp hmem
    exact hfree x hx hxn
  exact List.Nodup.append hnd (List.nodup_singleton _) (by simpa using hnot)

theorem ensureCategory_distinct (env : Env) (st : Store) (user : ReqUser) (body : ExpenseBody)
    (st1 : Store) (hnd : NamesDistinct st) (h : ensureCategory env st user body = .ok st1) :
    NamesDistinct st1 := by
  unfold ensureCategory at h
  split at h
  · cases h; exact hnd
  · split at h
    · rename_i c st2 hc
      cases h
      exact categoryCreate_distinct _ _ _ _ hnd hc
    · cases h

theorem removeCategory_sublist (id : ObjectId) (cats : List Category) :
    (removeCategory id cats).Sublist cats := by
  induction cats with
  | nil => exact List.Sublist.refl _
  | cons c cs ih =>
    unfold removeCategory
    split
    · exact List.sublist_cons_self c cs
    · exact ih.cons₂ c

theorem mem_replaceCategory (id : ObjectId) (c1 y : Category) (cats : List Category)
    (h : y ∈ replaceCategory id (fun _ => c1) cats) : y = c1 ∨ y ∈ cats := by
  induction cats with
  | nil => simp [replaceCategory] at h
  | cons z zs ih =>
    unfold replaceCategory at h
    split at h
    · rcases List.mem_cons.mp h with h | h
      · exact Or.inl h
      · exact Or.inr (List.mem_cons_of_mem _ h)
    · rcases List.mem_cons.mp h with h | h
      · exact Or.inr (by rw [h]; exact List.mem_cons_self _ _)
      · rcases ih h with h3 | h3
        · exact Or.inl h3
        · exact Or.inr (List.mem_cons_of_mem _ h3)

theorem replaceCategory_distinct (id : ObjectId) (c c1 : Category) (cats : List Category)
    (hnd : (cats.map (fun x => x.name)).Nodup)
    (hfind : cats.find? (fun x => x.id = id) = some c)
    (hname : c1.name = c.name ∨ ∀ x ∈ cats, x.name ≠ c1.name) :
    ((replaceCategory id (fun _ => c1) cats).map (fun x => x.name)).Nodup := by
  induction cats with
  | nil => simp at hfind
  | cons x xs ih =>
    simp only [List.map_cons, List.nodup_cons] at hnd
    obtain ⟨hx, hxs⟩ := hnd
    by_cases hid : x.id = id
    · simp only [List.find?_cons, hid, decide_True, Option.some.injEq] at hfind
      subst hfind
      simp only [replaceCategory, hid, if_true, List.map_cons, List.nodup_cons]
      refine ⟨?_, hxs⟩
      rcases hname with h | h
      · rw [h]; exact hx
      · intro hmem
        obtain ⟨y, hy, hyn⟩ := List.mem_map.mp hmem
        exact h y (List.mem_cons_of_mem _ hy) hyn
    · simp only [List.find?_cons, hid, decide_False] at hfind
      simp only [replaceCategory, hid, if_false, List.map_cons, List.nodup_cons]
      have hname2 : c1.name = c.name ∨ ∀ y ∈ xs, y.name ≠ c1.name := by
        rcases hname with h | h
        · exact Or.inl h
        · exact Or.inr (fun y hy => h y (List.mem_cons_of_mem _ hy))
      refine ⟨?_, ih hxs hfind hname2⟩
      intro hmem
      obtain ⟨y, hy, hyn⟩ := List.mem_map.mp hmem
      have hc := List.mem_of_find?_eq_some hfind
      have : y = c1 ∨ y ∈ xs := mem_replaceCategory id c1 y xs hy
      rcases this with rfl | hyxs
      · rcases hname with h | h
        · exact hx (List.mem_map.mpr ⟨c, hc, by rw [← h, hyn]⟩)
        · exact h x (List.mem_cons_self _ _) hyn.symm
      · exact hx (List.mem_map.mpr ⟨y, hyxs, hyn⟩)

theorem createCategory_distinct (st : Store) (user : ReqUser) (body : CategoryBody)
    (hnd : NamesDistinct st) : NamesDistinct (createCategory st user body).store := by
  unfold createCategory
  simp only
  split
  · exact hnd
  · split
    · exact hnd
    · rename_i c st1 hc
      exact categoryCreate_distinct _ _ _ _ hnd hc

theorem createExpense_distinct (env : Env) (st : Store) (user : ReqUser) (body : ExpenseBody)
    (hnd : NamesDistinct st) : NamesDistinct (createExpense env st user body).store := by
  unfold createExpense
  simp only
  split
  · exact hnd
  · rename_i st1 h1
    have h2 := ensureCategory_distinct _ _ _ _ _ hnd h1
    split
    · exact h2
    · rename_i e st2 he
      obtain ⟨_, hcats, _⟩ := expenseCreate_ok _ _ _ _ _ he
      unfold NamesDistinct
      rw [hcats]
      exact h2

theorem expenseFindByIdAndUpdate_categories (st : Store) (id : ObjectId) (upd : ExpenseBody)
    (r : Option Expense) (st1 : Store)
    (h : expenseFindByIdAndUpdate st id upd = .ok (r, st1)) :
    st1.categories = st.categories := by
  unfold expenseFindByIdAndUpdate at h
  split at h
  · simp only [Except.ok.injEq, Prod.mk.injEq] at h
    rw [← h.2]
  · cases h

theorem updateExpense_distinct (env : Env) (st : Store) (user : ReqUser) (id : ObjectId)
    (body : ExpenseBody) (hnd : NamesDistinct st) :
    NamesDistinct (updateExpense env st user id body).store := by
  unfold updateExpense
  split
  · exact hnd
  · split
    · exact hnd
    · simp only
      split
      · exact hnd
      · rename_i st1 h1
        have h2 : NamesDistinct st1 := by
          split at h1
          · exact ensureCategory_distinct _ _ _ _ _ hnd h1
          · cases h1; exact hnd
        split
        · exact h2
        · rename_i r st2 hu
          unfold NamesDistinct
          rw [expenseFindByIdAndUpdate_categories _ _ _ _ _ hu]
          exact h2

theorem deleteCategory_distinct (st : Store) (user : ReqUser) (id : ObjectId)
    (hnd : NamesDistinct st) : NamesDistinct (deleteCategory st user id).store := by
  unfold deleteCategory
  split
  · exact hnd
  · split
    · exact hnd
    · split
      · exact hnd
      · split
        · exact hnd
        · simp only
          split
          · exact hnd
          · exact hnd.sublist ((removeCategory_sublist _ _).map _)

theorem categoryFindByIdAndUpdate_distinct (st : Store) (id : ObjectId) (upd : CategoryBody)
    (r : Option Category) (st1 : Store) (hnd : NamesDistinct st)
    (h : categoryFindByIdAndUpdate st id upd = .ok (r, st1)) : NamesDistinct st1 := by
  unfold categoryFindByIdAndUpdate at h
  split at h
  · cases h
  · split at h
    · simp only [Except.ok.injEq, Prod.mk.injEq] at h
      rw [← h.2]
      exact hnd
    · rename_i c hfind
      simp only at h
      split at h
      · cases h
      · rename_i hcheck
        simp only [Except.ok.injEq, Prod.mk.injEq] at h
        rw [← h.2]
        unfold NamesDistinct
        simp only
        apply replaceCategory_distinct id c _ _ hnd hfind
        by_cases hn : (applyCategoryUpdate c upd).name = c.name
        · exact Or.inl hn
        · right
          intro x hx hxn
          apply hcheck
          simp only [Bool.and_eq_true, decide_eq_true_eq, List.any_eq_true]
          exact ⟨by simpa using hn, x, hx, hxn⟩

theorem updateCategory_distinct (st : Store) (user : ReqUser) (id : ObjectId)
    (body : CategoryBody) (hnd : NamesDistinct st) :
    NamesDistinct (updateCategory st user id body).store := by
  unfold updateCategory
  split
  · exact hnd
  · split
    · exact hnd
    · split
      · exact hnd
      · split
        · exact hnd
        · split
          · exact hnd
          · split
            · exact hnd
            · rename_i r st1 hu
              exact categoryFindByIdAndUpdate_distinct _ _ _ _ _ hnd hu

/-- The name stored by a successful `createCategory` is the requested name,
trimmed. -/
theorem createCategory_name (st : Store) (user : ReqUser) (body : CategoryBody)
    (reply : Reply Category) (hok : (createCategory st user body).result = .ok reply) :
    ∃ n, body.name = some n ∧ reply.data.name = jsTrim n := by
  unfold createCategory at hok
  simp only at hok
  split at hok
  · cases hok
  · cases hc : categoryCreate st { body with user := some user.id } with
    | error err => simp [hc] at hok
    | ok p =>
      obtain ⟨c, st1⟩ := p
      simp only [hc, Except.ok.injEq] at hok
      subst hok
      obtain ⟨_, _, _, _, hn, _⟩ := categoryCreate_ok _ _ _ _ hc
      exact hn

/-- C16: in a store of the schema, one in which all stored category names are
distinct as the unique index on `name` keeps them, no two categories visible
to the same user have the same stored name, and every `createCategory`,
`updateCategory`, `deleteCategory`, `createExpense` and `updateExpense` call
leaves the store in such a state; the name stored by `createCategory` is the
requested name, trimmed. -/
theorem names_stay_unique (env : Env) (st : Store) (user : ReqUser) (id : ObjectId)
    (cbody : CategoryBody) (ebody : ExpenseBody) (hnd : NamesDistinct st) :
    VisibleUnique st ∧
    (NamesDistinct (createCategory st user cbody).store ∧
      VisibleUnique (createCategory st user cbody).store) ∧
    (NamesDistinct (updateCategory st user id cbody).store ∧
      VisibleUnique (updateCategory st user id cbody).store) ∧
    (NamesDistinct (deleteCategory st user id).store ∧
      VisibleUnique (deleteCategory st user id).store) ∧
    (NamesDistinct (createExpense env st user ebody).store ∧
      VisibleUnique (createExpense env st user ebody).store) ∧
    (NamesDistinct (updateExpense env st user id ebody).store ∧
      VisibleUnique (updateExpense env st user id ebody).store) ∧
    (∀ reply, (createCategory st user cbody).result = .ok reply →
      ∃ n, cbody.name = some n ∧ reply.data.name = jsTrim n) := by
  have h1 := createCategory_distinct st user cbody hnd
  have h2 := updateCategory_distinct st user id cbody hnd
  have h3 := deleteCategory_distinct st user id hnd
  have h4 := createExpense_distinct env st user ebody hnd
  have h5 := updateExpense_distinct env st user id ebody hnd
  exact ⟨namesDistinct_visibleUnique _ hnd,
    ⟨h1, namesDistinct_visibleUnique _ h1⟩, ⟨h2, namesDistinct_visibleUnique _ h2⟩,
    ⟨h3, namesDistinct_visibleUnique _ h3⟩, ⟨h4, namesDistinct_visibleUnique _ h4⟩,
    ⟨h5, namesDistinct_visibleUnique _ h5⟩,
    fun reply hok => createCategory_name st user cbody reply hok⟩

/-- An instance of C16: in the store of the worked example user 7 renames
"Education" to " Hobbies ", and the names stay distinct. -/
theorem names_stay_unique_witness :
    NamesDistinct categoryStore ∧
    NamesDistinct (updateCategory categoryStore exampleUser 3 { name := some " Hobbies " }).store ∧
    VisibleUnique (updateCategory categoryStore exampleUser 3 { name := some " Hobbies " }).store ∧
    (updateCategory categoryStore exampleUser 3 { name := some " Hobbies " }).result = .ok
      { status := 200
        data := some { id := 3, name := "Hobbies", color := "#00BCD4", user := some 7,
                       isDefault := false } } ∧
    (updateCategory categoryStore exampleUser 3 { name := some "Pets" }).result =
      .error (.duplicateKey "Pets") ∧
    (updateCategory categoryStore exampleUser 3 { name := some " Food" }).result =
      .error (.errorResponse "Category with name  Food already exists" 400) :=
  ⟨by unfold NamesDistinct; decide,
    (names_stay_unique exampleEnv categoryStore exampleUser 3 { name := some " Hobbies " } {}
      (by unfold NamesDistinct; decide)).2.2.1.1,
    (names_stay_unique exampleEnv categoryStore exampleUser 3 { name := some " Hobbies " } {}
      (by unfold NamesDistinct; decide)).2.2.1.2,
    by decide, by decide, by decide⟩

/-! ## `login` -/

/-- C17: for all non-empty email and password, the answer of `login` in a
store where no user has the email and its answer in a store where the user
with the email has another password are the same error, "Invalid credentials"
with status 401, and in neither case is a cookie set or a token issued; the
stores are left as they were. -/
theorem login_same_error (M : UserModel) (env : AuthEnv) (users1 users2 : List User)
    (email password : String) (u : User) (he : email ≠ "") (hp : password ≠ "")
    (hnone : ∀ v ∈ users1, v.email ≠ email)
    (hfound : users2.find? (fun v => v.email = email) = some u)
    (hbad : M.matchPassword u password = false) :
    (login M env users1 (some email) (some password)).result =
      (login M env users2 (some email) (some password)).result ∧
    (login M env users1 (some email) (some password)).result =
      .error (.errorResponse "Invalid credentials" 401) ∧
    statusOf (.errorResponse "Invalid credentials" 401) = 401 ∧
    (login M env users1 (some email) (some password)).cookie = none ∧
    (login M env users2 (some email) (some password)).cookie = none ∧
    (∀ reply, (login M env users1 (some email) (some password)).result ≠ .ok reply) ∧
    (∀ reply, (login M env users2 (some email) (some password)).result ≠ .ok reply) ∧
    (login M env users1 (some email) (some password)).users = users1 ∧
    (login M env users2 (some email) (some password)).users = users2 := by
  have h1 : users1.find? (fun v => v.email = email) = none := by
    rw [List.find?_eq_none]
    intro v hv
    simpa using hnone v hv
  have r1 : login M env users1 (some email) (some password) =
      { users := users1, cookie := none, mail := none
        result := .error (.errorResponse "Invalid credentials" 401) } := by
    simp [login, truthy, he, hp, h1]
  have r2 : login M env users2 (some email) (some password) =
      { users := users2, cookie := none, mail := none
        result := .error (.errorResponse "Invalid credentials" 401) } := by
    simp [login, truthy, he, hp, hfound, hbad]
  rw [r1, r2]
  simp [statusOf]

/-- An instance of C17: an unknown email and a wrong password of ann give the
same answer; the right password gives a token and a cookie. -/
theorem login_same_error_witness :
    (("zoe@example.com" ≠ "" ∧ "wrong" ≠ "") ∧
      (∀ v ∈ ([] : List User), v.email ≠ "ann@example.com") ∧
      exampleUsers.find? (fun v => v.email = "ann@example.com") = some
        { id := 1, username := "ann", email := "ann@example.com", password := "h:secret1",
          role := "user", resetPasswordToken := none, resetPasswordExpire := none }) ∧
    ((login exampleModel exampleAuthEnv [] (some "ann@example.com") (some "wrong")).result =
        (login exampleModel exampleAuthEnv exampleUsers (some "ann@example.com")
          (some "wrong")).result ∧
      (login exampleModel exampleAuthEnv [] (some "ann@example.com") (some "wrong")).result =
        .error (.errorResponse "Invalid credentials" 401) ∧
      statusOf (.errorResponse "Invalid credentials" 401) = 401 ∧
      (login exampleModel exampleAuthEnv [] (some "ann@example.com") (some "wrong")).cookie =
        none ∧
      (login exampleModel exampleAuthEnv exampleUsers (some "ann@example.com")
        (some "wrong")).cookie = none ∧
      (∀ reply, (login exampleModel exampleAuthEnv [] (some "ann@example.com")
        (some "wrong")).result ≠ .ok reply) ∧
      (∀ reply, (login exampleModel exampleAuthEnv exampleUsers (some "ann@example.com")
        (some "wrong")).result ≠ .ok reply) ∧
      (login exampleModel exampleAuthEnv [] (some "ann@example.com") (some "wrong")).users =
        [] ∧
      (login exampleModel exampleAuthEnv exampleUsers (some "ann@example.com")
        (some "wrong")).users = exampleUsers) ∧
    (login exampleModel exampleAuthEnv exampleUsers (some "zoe@example.com")
      (some "wrong")).result = .error (.errorResponse "Invalid credentials" 401) ∧
    (login exampleModel exampleAuthEnv exampleUsers (some "ann@example.com")
      (some "secret1")).result = .ok
        { status := 200, token := "jwt-ann"
          user := { id := 1, username := "ann", email := "ann@example.com", role := "user" } } :=
  ⟨⟨by decide, by decide, by decide⟩,
    login_same_error exampleModel exampleAuthEnv [] exampleUsers "ann@example.com" "wrong"
      { id := 1, username := "ann", email := "ann@example.com", password := "h:secret1",
        role := "user", resetPasswordToken := none, resetPasswordExpire := none }
      (by decide) (by decide) (by decide) (by decide) (by decide),
    by decide, by decide⟩

/-! ## The reset token -/

theorem find?_replaceUser (P : User → Bool) (id : ObjectId) (u1 : User) (users : List User)
    (hids : (users.map (fun v => v.id)).Nodup) (hex : ∃ v ∈ users, v.id = id)
    (hothers : ∀ v ∈ users, v.id ≠ id → P v = false) :
    (replaceUser id u1 users).find? P = if P u1 then some u1 else none := by
  induction users with
  | nil => obtain ⟨v, hv, _⟩ := hex; cases hv
  | cons x xs ih =>
    simp only [List.map_cons, List.nodup_cons] at hids
    obtain ⟨hx, hxs⟩ := hids
    by_cases hid : x.id = id
    · have hrest : xs.find? P = none := by
        rw [List.find?_eq_none]
        intro v hv
        have hne : v.id ≠ id := by
          intro h
          exact hx (List.mem_map.mpr ⟨v, hv, by rw [h, hid]⟩)
        simp [hothers v (List.mem_cons_of_mem _ hv) hne]
      simp only [replaceUser, hid, if_true, List.find?_cons]
      cases hP : P u1 <;> simp [hrest]
    · have hPx : P x = false := hothers x (List.mem_cons_self _ _) hid
      have hex2 : ∃ v ∈ xs, v.id = id := by
        obtain ⟨v, hv, hvid⟩ := hex
        rcases List.mem_cons.mp hv with rfl | hv2
        · exact absurd hvid hid
        · exact ⟨v, hv2, hvid⟩
      simp only [replaceUser, hid, if_false, List.find?_cons, hPx]
      exact ih hxs hex2 (fun v hv hne => hothers v (List.mem_cons_of_mem _ hv) hne)

theorem replaceUser_replaceUser (id : ObjectId) (u1 u2 : User) (users : List User)
    (h1 : u1.id = id) :
    replaceUser id u2 (replaceUser id u1 users) = replaceUser id u2 users := by
  induction users with
  | nil => rfl
  | cons x xs ih =>
    by_cases hid : x.id = id
    · simp [replaceUser, hid, h1]
    · simp [replaceUser, hid, ih]

theorem replaceUser_self (u : User) (users : List User)
    (h : users.find? (fun v => v.id = u.id) = some u) :
    replaceUser u.id u users = users := by
  induction users with
  | nil => rfl
  | cons x xs ih =>
    by_cases hid : x.id = u.id
    · simp only [List.find?_cons, hid, decide_True, Option.some.injEq] at h
      simp [replaceUser, hid, h]
    · simp only [List.find?_cons, hid, decide_False] at h
      simp [replaceUser, hid, ih h]

theorem find?_id_of_mem (u : User) (users : List User)
    (hids : (users.map (fun v => v.id)).Nodup) (hmem : u ∈ users) :
    users.find? (fun v => v.id = u.id) = some u := by
  induction users with
  | nil => cases hmem
  | cons x xs ih =>
    simp only [List.map_cons, List.nodup_cons] at hids
    obtain ⟨hx, hxs⟩ := hids
    rcases List.mem_cons.mp hmem with rfl | hm
    · simp
    · have hne : x.id ≠ u.id := by
        intro h
        exact hx (List.mem_map.mpr ⟨u, hm, h.symm⟩)
      simp [List.find?_cons, hne, ih hxs hm]

/-- What `forgotPassword` stores when the mail is delivered. -/
theorem forgotPassword_delivered (M : UserModel) (env : AuthEnv) (users : List User)
    (email : String) (u : User)
    (hfind : users.find? (fun v => v.email = email) = some u)
    (hmail : env.mailDelivers = true) :
    (forgotPassword M env users (some email)).users =
      replaceUser u.id
        { u with resetPasswordToken := some (M.sha256 env.randomHex)
                 resetPasswordExpire := some (env.now + 10 * 60 * 1000) } users ∧
    (forgotPassword M env users (some email)).result =
      .ok { status := 200, data := "Email sent", expiresIn := "10 minutes" } := by
  simp [forgotPassword, hfind, hmail]

/-- C18: after `forgotPassword` has stored a token at time `env0.now` and the
mail went out, `resetPassword` called with the raw token at time `env1.now`
fails with the error "Invalid token" whenever `env1.now` is at least
`env0.now + 600000`, although the hash matches, and its lookup finds the user
whenever `env1.now` is below `env0.now + 600000`. Ids are distinct and no
other user holds the same token hash. -/
theorem reset_token_expiry (M : UserModel) (env0 env1 : AuthEnv) (users : List User)
    (email password : String) (u : User)
    (hfind : users.find? (fun v => v.email = email) = some u)
    (hmail : env0.mailDelivers = true)
    (hids : (users.map (fun v => v.id)).Nodup)
    (hfresh : ∀ v ∈ users, v.id ≠ u.id →
      v.resetPasswordToken ≠ some (M.sha256 env0.randomHex)) :
    (env0.now + 600000 ≤ env1.now →
      (resetPassword M env1 (forgotPassword M env0 users (some email)).users
        env0.randomHex password).result = .error (.errorResponse "Invalid token" 400) ∧
      (resetPassword M env1 (forgotPassword M env0 users (some email)).users
        env0.randomHex password).users = (forgotPassword M env0 users (some email)).users) ∧
    (env1.now < env0.now + 600000 →
      findByResetToken (forgotPassword M env0 users (some email)).users
        (M.sha256 env0.randomHex) env1.now = some
          { u with resetPasswordToken := some (M.sha256 env0.randomHex)
                   resetPasswordExpire := some (env0.now + 600000) } ∧
      ∀ msg code, (resetPassword M env1 (forgotPassword M env0 users (some email)).users
        env0.randomHex password).result ≠ .error (.errorResponse msg code)) := by
  obtain ⟨husers, _⟩ := forgotPassword_delivered M env0 users email u hfind hmail
  have hmem : u ∈ users := List.mem_of_find?_eq_some hfind
  have hlook : findByResetToken (forgotPassword M env0 users (some email)).users
      (M.sha256 env0.randomHex) env1.now =
      if env0.now + 600000 > env1.now then some
        { u with resetPasswordToken := some (M.sha256 env0.randomHex)
                 resetPasswordExpire := some (env0.now + 600000) }
      else none := by
    rw [husers]
    unfold findByResetToken
    rw [find?_replaceUser _ u.id _ users hids ⟨u, hmem, rfl⟩]
    · simp
    · intro v hv hne
      simp [hfresh v hv hne]
  constructor
  · intro hlate
    have hnot : ¬ env0.now + 600000 > env1.now := by omega
    simp only [hnot, if_false] at hlook
    simp [resetPassword, hlook]
  · intro hearly
    have hyes : env0.now + 600000 > env1.now := by omega
    simp only [hyes, if_true] at hlook
    refine ⟨hlook, ?_⟩
    intro msg code
    simp only [resetPassword, hlook]
    split <;> simp [sendTokenResponse]

/-- An instance of C18: ann asks for a token at time 1000000; at time 1600000
the token is refused, at time 1599999 a new password is accepted. -/
theorem reset_token_expiry_witness :
    (exampleUsers.find? (fun v => v.email = "ann@example.com") = some
        { id := 1, username := "ann", email := "ann@example.com", password := "h:secret1",
          role := "user", resetPasswordToken := none, resetPasswordExpire := none } ∧
      exampleAuthEnv.mailDelivers = true ∧
      (exampleUsers.map (fun v => v.id)).Nodup ∧
      ∀ v ∈ exampleUsers, v.id ≠ 1 →
        v.resetPasswordToken ≠ some (exampleModel.sha256 exampleAuthEnv.randomHex)) ∧
    ((exampleAuthEnv.now + 600000 ≤ 1600000 →
      (resetPassword exampleModel { now := 1600000, randomHex := "", mailDelivers := true }
        (forgotPassword exampleModel exampleAuthEnv exampleUsers
          (some "ann@example.com")).users
        exampleAuthEnv.randomHex "newsecret").result =
          .error (.errorResponse "Invalid token" 400) ∧
      (resetPassword exampleModel { now := 1600000, randomHex := "", mailDelivers := true }
        (forgotPassword exampleModel exampleAuthEnv exampleUsers
          (some "ann@example.com")).users
        exampleAuthEnv.randomHex "newsecret").users =
          (forgotPassword exampleModel exampleAuthEnv exampleUsers
            (some "ann@example.com")).users)) ∧
    (resetPassword exampleModel { now := 1600000, randomHex := "", mailDelivers := true }
      (forgotPassword exampleModel exampleAuthEnv exampleUsers (some "ann@example.com")).users
      "abc" "newsecret").result = .error (.errorResponse "Invalid token" 400) ∧
    (resetPassword exampleModel { now := 1599999, randomHex := "", mailDelivers := true }
      (forgotPassword exampleModel exampleAuthEnv exampleUsers (some "ann@example.com")).users
      "abc" "newsecret").result = .ok
        { status := 200, token := "jwt-ann"
          user := { id := 1, username := "ann", email := "ann@example.com", role := "user" } } :=
  ⟨⟨by decide, by decide, by decide, by decide⟩,
    (reset_token_expiry exampleModel exampleAuthEnv
      { now := 1600000, randomHex := "", mailDelivers := true } exampleUsers
      "ann@example.com" "newsecret"
      { id := 1, username := "ann", email := "ann@example.com", password := "h:secret1",
        role := "user", resetPasswordToken := none, resetPasswordExpire := none }
      (by decide) (by decide) (by decide) (by decide)).1,
    by decide, by decide⟩

theorem mem_replaceUser_self (id : ObjectId) (u1 : User) (users : List User)
    (hex : ∃ v ∈ users, v.id = id) : u1 ∈ replaceUser id u1 users := by
  induction users with
  | nil => obtain ⟨v, hv, _⟩ := hex; cases hv
  | cons x xs ih =>
    by_cases hid : x.id = id
    · simp [replaceUser, hid]
    · have hex2 : ∃ v ∈ xs, v.id = id := by
        obtain ⟨v, hv, hvid⟩ := hex
        rcases List.mem_cons.mp hv with rfl | hv2
        · exact absurd hvid hid
        · exact ⟨v, hv2, hvid⟩
      simp only [replaceUser, hid, if_false]
      exact List.mem_cons_of_mem _ (ih hex2)

theorem findByResetToken_some (users : List User) (h : String) (now : Int) (u : User)
    (hf : findByResetToken users h now = some u) :
    u ∈ users ∧ u.resetPasswordToken = some h := by
  unfold findByResetToken at hf
  refine ⟨List.mem_of_find?_eq_some hf, ?_⟩
  have := List.find?_some hf
  simp only [Bool.and_eq_true, decide_eq_true_eq] at this
  exact this.1

/-- What a successful `resetPassword` found and stored. -/
theorem resetPassword_ok (M : UserModel) (env : AuthEnv) (users : List User)
    (token password : String) (reply : TokenReply)
    (hok : (resetPassword M env users token password).result = .ok reply) :
    ∃ u, findByResetToken users (M.sha256 token) env.now = some u ∧
      reply.user.id = u.id ∧
      (resetPassword M env users token password).users =
        replaceUser u.id
          { u with password := M.hashPassword password
                   resetPasswordToken := none
                   resetPasswordExpire := none } users := by
  unfold resetPassword at hok ⊢
  simp only at hok ⊢
  cases hf : findByResetToken users (M.sha256 token) env.now with
  | none => simp [hf] at hok
  | some u =>
    simp only [hf] at hok ⊢
    split at hok
    · rename_i hval
      simp only [sendTokenResponse, Except.ok.injEq] at hok
      subst hok
      exact ⟨u, rfl, rfl, by simp [hval, sendTokenResponse]⟩
    · cases hok

/-- C19: after a successful `resetPassword` with raw token `token` the token
and its expiry are cleared on the user, no user holds the hash of the token,
and every later `resetPassword` with the same token, at any time and with any
new password, fails with the error "Invalid token" and changes nothing, so
that it fails again. Ids are distinct and one user at most holds the hash. -/
theorem reset_token_single_use (M : UserModel) (env env2 : AuthEnv) (users : List User)
    (token password password2 : String) (reply : TokenReply)
    (hids : (users.map (fun v => v.id)).Nodup)
    (huniq : ∀ v ∈ users, ∀ w ∈ users, v.resetPasswordToken = some (M.sha256 token) →
      w.resetPasswordToken = some (M.sha256 token) → v.id = w.id)
    (hok : (resetPassword M env users token password).result = .ok reply) :
    (∃ v ∈ (resetPassword M env users token password).users, v.id = reply.user.id ∧
      v.resetPasswordToken = none ∧ v.resetPasswordExpire = none) ∧
    (∀ v ∈ (resetPassword M env users token password).users,
      v.resetPasswordToken ≠ some (M.sha256 token)) ∧
    (resetPassword M env2 (resetPassword M env users token password).users
      token password2).result = .error (.errorResponse "Invalid token" 400) ∧
    (resetPassword M env2 (resetPassword M env users token password).users
      token password2).users = (resetPassword M env users token password).users := by
  obtain ⟨u, hf, hid, husers⟩ := resetPassword_ok M env users token password reply hok
  obtain ⟨hmem, htok⟩ := findByResetToken_some users _ _ u hf
  have hothers : ∀ v ∈ users, v.id ≠ u.id →
      v.resetPasswordToken ≠ some (M.sha256 token) :=
    fun v hv hne h => hne (huniq v hv u hmem h htok)
  have hnone : ∀ P : User → Bool, (∀ v, P v = true → v.resetPasswordToken = some (M.sha256 token)) →
      (resetPassword M env users token password).users.find? P = none := by
    intro P hP
    rw [husers, find?_replaceUser P u.id _ users hids ⟨u, hmem, rfl⟩]
    · have : P { u with password := M.hashPassword password
                        resetPasswordToken := none
                        resetPasswordExpire := none } = false := by
        cases hc : P { u with password := M.hashPassword password
                              resetPasswordToken := none
                              resetPasswordExpire := none }
        · rfl
        · have := hP _ hc
          simp at this
      simp [this]
    · intro v hv hne
      cases hc : P v
      · rfl
      · exact absurd (hP v hc) (hothers v hv hne)
  have hlook : findByResetToken (resetPassword M env users token password).users
      (M.sha256 token) env2.now = none := by
    unfold findByResetToken
    apply hnone
    intro v hv
    simp only [Bool.and_eq_true, decide_eq_true_eq] at hv
    exact hv.1
  refine ⟨?_, ?_, ?_, ?_⟩
  · have hin := mem_replaceUser_self u.id
      { u with password := M.hashPassword password, resetPasswordToken := none,
               resetPasswordExpire := none } users ⟨u, hmem, rfl⟩
    rw [← husers] at hin
    exact ⟨_, hin, hid.symm, rfl, rfl⟩
  · intro v hv hvt
    have h := hnone (fun w => decide (w.resetPasswordToken = some (M.sha256 token)))
      (fun w hw => by simpa using hw)
    rw [List.find?_eq_none] at h
    exact h v hv (by simpa using hvt)
  · generalize (resetPassword M env users token password).users = users1 at hlook
    simp [resetPassword, hlook]
  · generalize (resetPassword M env users token password).users = users1 at hlook
    simp [resetPassword, hlook]

/-- An instance of C19: bob resets his password with the token "old" at time
1500000; the same token is refused a moment later. -/
theorem reset_token_single_use_witness :
    ((exampleUsers.map (fun v => v.id)).Nodup ∧
      (∀ v ∈ exampleUsers, ∀ w ∈ exampleUsers,
        v.resetPasswordToken = some (exampleModel.sha256 "old") →
        w.resetPasswordToken = some (exampleModel.sha256 "old") → v.id = w.id) ∧
      (resetPassword exampleModel { now := 1500000, randomHex := "", mailDelivers := true }
        exampleUsers "old" "newsecret").result = .ok
          { status := 200, token := "jwt-bob"
            user := { id := 2, username := "bob", email := "bob@example.com",
                      role := "user" } }) ∧
    ((∃ v ∈ (resetPassword exampleModel { now := 1500000, randomHex := "", mailDelivers := true }
        exampleUsers "old" "newsecret").users, v.id = 2 ∧
      v.resetPasswordToken = none ∧ v.resetPasswordExpire = none) ∧
    (∀ v ∈ (resetPassword exampleModel { now := 1500000, randomHex := "", mailDelivers := true }
        exampleUsers "old" "newsecret").users,
      v.resetPasswordToken ≠ some (exampleModel.sha256 "old")) ∧
    (resetPassword exampleModel { now := 1500001, randomHex := "", mailDelivers := true }
      (resetPassword exampleModel { now := 1500000, randomHex := "", mailDelivers := true }
        exampleUsers "old" "newsecret").users
      "old" "another1").result = .error (.errorResponse "Invalid token" 400) ∧
    (resetPassword exampleModel { now := 1500001, randomHex := "", mailDelivers := true }
      (resetPassword exampleModel { now := 1500000, randomHex := "", mailDelivers := true }
        exampleUsers "old" "newsecret").users
      "old" "another1").users =
      (resetPassword exampleModel { now := 1500000, randomHex := "", mailDelivers := true }
        exampleUsers "old" "newsecret").users) :=
  ⟨⟨by decide, by decide, by decide⟩,
    reset_token_single_use exampleModel
      { now := 1500000, randomHex := "", mailDelivers := true }
      { now := 1500001, randomHex := "", mailDelivers := true } exampleUsers
      "old" "newsecret" "another1"
      { status := 200, token := "jwt-bob"
        user := { id := 2, username := "bob", email := "bob@example.com", role := "user" } }
      (by decide) (by decide) (by decide)⟩

/-! ## `forgotPassword` when the mail is not delivered -/

/-- C20 (amended): if the mail is not delivered, `forgotPassword` answers with
the 500 error "Email could not be sent" and clears the two token fields of the
user: after the call both are absent, no other field of the user and no other
user has changed, and the collection is as before the call exactly when the
user had no token and no expiry before. Ids are distinct. -/
theorem forgotPassword_mail_fails (M : UserModel) (env : AuthEnv) (users : List User)
    (email : String) (u : User)
    (hfind : users.find? (fun v => v.email = email) = some u)
    (hids : (users.map (fun v => v.id)).Nodup)
    (hmail : env.mailDelivers = false) :
    (forgotPassword M env users (some email)).result =
      .error (.errorResponse "Email could not be sent" 500) ∧
    statusOf (.errorResponse "Email could not be sent" 500) = 500 ∧
    (forgotPassword M env users (some email)).users =
      replaceUser u.id { u with resetPasswordToken := none, resetPasswordExpire := none } users ∧
    (forgotPassword M env users (some email)).users.find? (fun v => v.id = u.id) =
      some { u with resetPasswordToken := none, resetPasswordExpire := none } ∧
    (∀ w, w.id ≠ u.id →
      (w ∈ (forgotPassword M env users (some email)).users ↔ w ∈ users)) ∧
    ((forgotPassword M env users (some email)).users = users ↔
      u.resetPasswordToken = none ∧ u.resetPasswordExpire = none) := by
  have hmem : u ∈ users := List.mem_of_find?_eq_some hfind
  have husers : (forgotPassword M env users (some email)).users =
      replaceUser u.id { u with resetPasswordToken := none, resetPasswordExpire := none }
        users := by
    simp [forgotPassword, hfind, hmail, replaceUser_replaceUser]
  have hlook : (replaceUser u.id
      { u with resetPasswordToken := none, resetPasswordExpire := none } users).find?
      (fun v => v.id = u.id) =
      some { u with resetPasswordToken := none, resetPasswordExpire := none } := by
    rw [find?_replaceUser _ u.id _ users hids ⟨u, hmem, rfl⟩]
    · simp
    · intro v _ hne
      simpa using hne
  have hself := find?_id_of_mem u users hids hmem
  refine ⟨by simp [forgotPassword, hfind, hmail], by decide, husers, ?_, ?_, ?_⟩
  · rw [husers]; exact hlook
  · intro w hw
    rw [husers]
    clear hlook hself husers hmem hids hfind
    induction users with
    | nil => simp [replaceUser]
    | cons x xs ih =>
      by_cases hid : x.id = u.id
      · have hxw : w ≠ x := fun h => hw (by rw [h, hid])
        have hw2 : w ≠ { u with resetPasswordToken := none, resetPasswordExpire := none } :=
          fun h => hw (by rw [h])
        simp [replaceUser, hid, hxw, hw2]
      · simp [replaceUser, hid, ih]
  · rw [husers]
    constructor
    · intro heq
      rw [heq, hself] at hlook
      have h2 := Option.some.inj hlook
      constructor
      · have := congrArg User.resetPasswordToken h2
        simpa using this
      · have := congrArg User.resetPasswordExpire h2
        simpa using this
    · rintro ⟨h1, h2⟩
      have hu : ({ u with resetPasswordToken := none, resetPasswordExpire := none } : User) =
          u := by
        cases u
        simp only at h1 h2
        simp [h1, h2]
      rw [hu]
      exact replaceUser_self u users hself

/-- An instance of C20: the mail to ann, who has no pending token, is not
delivered, and the collection is as before. -/
theorem forgotPassword_mail_fails_witness :
    (exampleUsers.find? (fun v => v.email = "ann@example.com") = some
        { id := 1, username := "ann", email := "ann@example.com", password := "h:secret1",
          role := "user", resetPasswordToken := none, resetPasswordExpire := none } ∧
      (exampleUsers.map (fun v => v.id)).Nodup) ∧
    (forgotPassword exampleModel { now := 1000000, randomHex := "abc", mailDelivers := false }
      exampleUsers (some "ann@example.com")).result =
        .error (.errorResponse "Email could not be sent" 500) ∧
    (forgotPassword exampleModel { now := 1000000, randomHex := "abc", mailDelivers := false }
      exampleUsers (some "ann@example.com")).users = exampleUsers :=
  ⟨⟨by decide, by decide⟩,
    (forgotPassword_mail_fails exampleModel
      { now := 1000000, randomHex := "abc", mailDelivers := false } exampleUsers
      "ann@example.com"
      { id := 1, username := "ann", email := "ann@example.com", password := "h:secret1",
        role := "user", resetPasswordToken := none, resetPasswordExpire := none }
      (by decide) (by decide) rfl).1,
    by decide⟩

/-- C20 as stated fails: bob has a pending token that is still valid; after
the call in which the mail is not delivered his token and expiry are absent,
not the values they had before the call. -/
theorem forgotPassword_rollback_counterexample :
    (exampleUsers.find? (fun v => v.email = "bob@example.com")).map
      (fun v => (v.resetPasswordToken, v.resetPasswordExpire)) =
      some (some "sha:old", some 2000000) ∧
    (forgotPassword exampleModel { now := 1000000, randomHex := "abc", mailDelivers := false }
      exampleUsers (some "bob@example.com")).result =
        .error (.errorResponse "Email could not be sent" 500) ∧
    ((forgotPassword exampleModel { now := 1000000, randomHex := "abc", mailDelivers := false }
      exampleUsers (some "bob@example.com")).users.find?
        (fun v => v.email = "bob@example.com")).map
      (fun v => (v.resetPasswordToken, v.resetPasswordExpire)) = some (none, none) := by
  decide

/-! ## The global error handler -/

/-- C21 (amended): for every error, the body of the global error handler has
the empty object as its `error` field exactly when `NODE_ENV` is
"production"; in every other mode, unset, "test", "staging" and
"development" alike, the field is the error object. -/
theorem errorHandler_error_field (nodeEnv : Option String) (err : Failure) :
    ((errorHandler nodeEnv err).error = none ↔ nodeEnv = some "production") ∧
    (nodeEnv ≠ some "production" → (errorHandler nodeEnv err).error = some err) ∧
    (errorHandler nodeEnv err).status = statusOf err := by
  unfold errorHandler
  by_cases h : nodeEnv = some "production" <;> simp [h]

/-- C21 as stated fails: with `NODE_ENV` unset, "test" or "staging" the body
carries the error object, here the duplicate-key error with the key value and
a not-found error with its status code. -/
theorem errorHandler_counterexample :
    (errorHandler none (.errorResponse "Expense not found with id of 3" 404)).error =
      some (.errorResponse "Expense not found with id of 3" 404) ∧
    (errorHandler (some "test") (.duplicateKey "Gifts")).error = some (.duplicateKey "Gifts") ∧
    (errorHandler (some "staging") (.duplicateKey "Gifts")).error =
      some (.duplicateKey "Gifts") ∧
    (errorHandler (some "production") (.duplicateKey "Gifts")).error = none := by
  decide

/-- C22 at the failing inputs: a `createExpense` without amount, one with a
negative amount and one without category, and an `updateExpense` with a
negative amount are rejected by the validators of the schema, and the global
error handler answers each with status 500. -/
theorem validation_status_500 :
    (createExpense exampleEnv exampleStore exampleUser { category := some "Food" }).result =
      .error (.validationError ["Please add an amount"]) ∧
    (errorHandler none (.validationError ["Please add an amount"])).status = 500 ∧
    ((createExpense exampleEnv exampleStore exampleUser
        { amount := some (-5), category := some "Food" }).result.toOption = none ∧
      ∀ err, (createExpense exampleEnv exampleStore exampleUser
        { amount := some (-5), category := some "Food" }).result = .error err →
        (errorHandler none err).status = 500) ∧
    (∀ err, (createExpense exampleEnv exampleStore exampleUser
        { amount := some 5 }).result = .error err → (errorHandler none err).status = 500) ∧
    (createExpense exampleEnv exampleStore exampleUser { amount := some 5 }).result =
      .error (.validationError ["Please add a category name"]) ∧
    (updateExpense exampleEnv exampleStore exampleUser 3 { amount := some (-1) }).result =
      .error (.validationError ["Amount cannot be negative"]) ∧
    (errorHandler (some "production") (.validationError ["Amount cannot be negative"])).status =
      500 := by
  refine ⟨by decide, by decide, ⟨by decide, ?_⟩, ?_, by decide, by decide, by decide⟩
  · intro err h
    have h2 : (createExpense exampleEnv exampleStore exampleUser
        { amount := some (-5), category := some "Food" }).result =
        .error (.validationError ["Amount cannot be negative"]) := by decide
    rw [h2] at h
    cases h
    decide
  · intro err h
    have h2 : (createExpense exampleEnv exampleStore exampleUser { amount := some 5 }).result =
        .error (.validationError ["Please add a category name"]) := by decide
    rw [h2] at h
    cases h
    decide

/-- Every error thrown by a model method, a validation error included, is
answered with status 500; only an `ErrorResponse` carries its own status. -/
theorem errorHandler_status (nodeEnv : Option String) (err : Failure) :
    (∀ messages, err = .validationError messages → (errorHandler nodeEnv err).status = 500) ∧
    (∀ name, err = .duplicateKey name → (errorHandler nodeEnv err).status = 500) ∧
    (∀ message code, err = .errorResponse message code → code ≠ 0 →
      (errorHandler nodeEnv err).status = code) := by
  refine ⟨?_, ?_, ?_⟩
  · rintro m rfl; rfl
  · rintro n rfl; rfl
  · rintro m c rfl hc
    simp [errorHandler, statusOf, hc]

/-! ## The colour of a category total -/

theorem withColor_spec (st : Store) (uid : ObjectId) (g : GroupRow) :
    (∃ c ∈ st.categories, (c.user = some uid ∨ c.isDefault = true) ∧ c.name = g.key ∧
      (withColor (visibleCategories st uid) g).color = c.color) ∨
    ((∀ c ∈ st.categories, (c.user = some uid ∨ c.isDefault = true) → c.name ≠ g.key) ∧
      (withColor (visibleCategories st uid) g).color = "#757575") := by
  unfold withColor
  cases hf : (visibleCategories st uid).find? (fun c => c.name = g.key) with
  | none =>
    right
    rw [List.find?_eq_none] at hf
    refine ⟨?_, rfl⟩
    intro c hc hv hn
    have hmem : c ∈ visibleCategories st uid := by
      simp only [visibleCategories, List.mem_filter, Bool.or_eq_true, decide_eq_true_eq]
      exact ⟨hc, hv⟩
    exact hf c hmem (by simpa using hn)
  | some c =>
    left
    have hmem := List.mem_of_find?_eq_some hf
    have hname := List.find?_some hf
    simp only [visibleCategories, List.mem_filter, Bool.or_eq_true, decide_eq_true_eq] at hmem
    exact ⟨c, hmem.1, hmem.2, by simpa using hname, rfl⟩

/-- C23: for every entry of the data of `getCategoryTotals`, either a category
owned by the requester or default has the name of the entry and the colour of
the entry is the colour of such a category, or no such category has the name
and the colour is "#757575", whatever categories other users own. -/
theorem getCategoryTotals_colour (st : Store) (user : ReqUser) (year month : String)
    (yearNum monthNum : Int)
    (hv : validateYearMonth year month = .ok (yearNum, monthNum)) :
    ∃ reply, (getCategoryTotals st user year month).result = .ok reply ∧
      ∀ r ∈ reply.data,
        (∃ c ∈ st.categories, (c.user = some user.id ∨ c.isDefault = true) ∧
          c.name = r.category ∧ r.color = c.color) ∨
        ((∀ c ∈ st.categories, (c.user = some user.id ∨ c.isDefault = true) →
            c.name ≠ r.category) ∧
          r.color = "#757575") := by
  refine ⟨_, getCategoryTotals_ok st user year month yearNum monthNum hv, ?_⟩
  intro r hr
  simp only [List.mem_map] at hr
  obtain ⟨g, _, rfl⟩ := hr
  have h := withColor_spec st user.id g
  simpa [withColor] using h

/-- An instance of C23: "Food" and "Gifts" get their colours, "Pets", which
only user 8 owns, and "Misc" get the gray. -/
theorem getCategoryTotals_colour_witness :
    validateYearMonth "2025" "8" = .ok (2025, 7) ∧
    (∃ reply, (getCategoryTotals colourStore exampleUser "2025" "8").result = .ok reply ∧
      ∀ r ∈ reply.data,
        (∃ c ∈ colourStore.categories, (c.user = some exampleUser.id ∨ c.isDefault = true) ∧
          c.name = r.category ∧ r.color = c.color) ∨
        ((∀ c ∈ colourStore.categories, (c.user = some exampleUser.id ∨ c.isDefault = true) →
            c.name ≠ r.category) ∧
          r.color = "#757575")) ∧
    ((getCategoryTotals colourStore exampleUser "2025" "8").result.toOption.map
      (fun r => r.data.map (fun x => (x.category, x.color)))) =
      some [("Food", "#FF5722"), ("Gifts", "#795548"), ("Pets", "#757575"),
            ("Misc", "#757575")] :=
  ⟨by decide, getCategoryTotals_colour colourStore exampleUser "2025" "8" 2025 7 (by decide),
    by decide⟩

/-! ## A failing `createExpense` -/

theorem expenseCreate_error (env : Env) (st : Store) (doc : ExpenseBody) (err : Failure)
    (h : expenseCreate env st doc = .error err) : ∃ msgs, err = .validationError msgs := by
  unfold expenseCreate at h
  split at h
  · split at h
    · cases h
    · cases h; exact ⟨_, rfl⟩
  · cases h; exact ⟨_, rfl⟩

/-- C24 (amended): if `createExpense` fails, no expense is stored; the
categories are as before when a category visible to the requester has the
trimmed requested name or when the creation of the category is what fails;
when the category was created and the validators of the schema then reject
the expense, exactly that category has been added and stays. -/
theorem createExpense_failure (env : Env) (st : Store) (user : ReqUser) (body : ExpenseBody)
    (err : Failure) (hfail : (createExpense env st user body).result = .error err) :
    (createExpense env st user body).store.expenses = st.expenses ∧
    ((createExpense env st user body).store = st ∨
      ∃ n c msgs, body.category = some n ∧ ¬ hasVisibleCategory st user.id (jsTrim n) ∧
        (createExpense env st user body).store.categories = st.categories ++ [c] ∧
        c.name = jsTrim n ∧ c.user = some user.id ∧ err = .validationError msgs) ∧
    (∀ n, body.category = some n → hasVisibleCategory st user.id (jsTrim n) →
      (createExpense env st user body).store = st) := by
  unfold createExpense at hfail ⊢
  simp only at hfail ⊢
  cases hens : ensureCategory env st user { body with user := some user.id } with
  | error e1 =>
    simp [hens]
  | ok st1 =>
    simp only [hens] at hfail ⊢
    obtain ⟨hexps, hcase⟩ := ensureCategory_ok _ _ _ _ _ hens
    simp only at hcase
    cases hexp : expenseCreate env st1 { body with user := some user.id } with
    | ok p => simp [hexp] at hfail
    | error e2 =>
      simp only [hexp, Except.error.injEq] at hfail ⊢
      subst hfail
      obtain ⟨msgs, hm⟩ := expenseCreate_error _ _ _ _ hexp
      refine ⟨hexps, ?_, ?_⟩
      · rcases hcase with ⟨n, _, _, hst⟩ | ⟨n, c, hn, hno, hc, hname, hu, _, _⟩
        · exact Or.inl hst
        · exact Or.inr ⟨n, c, msgs, hn, hno, hc, hname, hu, hm⟩
      · intro n hn hv
        rcases hcase with ⟨_, _, _, hst⟩ | ⟨n2, c, hn2, hno, _⟩
        · exact hst
        · rw [hn] at hn2
          cases hn2
          exact absurd hv hno

/-- An instance of C24: an expense of the default category "Food" without
amount is refused and the store is as before. -/
theorem createExpense_failure_witness :
    (createExpense exampleEnv exampleStore exampleUser { category := some "Food" }).result =
      .error (.validationError ["Please add an amount"]) ∧
    (createExpense exampleEnv exampleStore exampleUser { category := some "Food" }).store.expenses =
      exampleStore.expenses ∧
    (createExpense exampleEnv exampleStore exampleUser { category := some "Food" }).store =
      exampleStore :=
  ⟨by decide,
    (createExpense_failure exampleEnv exampleStore exampleUser { category := some "Food" }
      (.validationError ["Please add an amount"]) (by decide)).1,
    by decide⟩

/-- C24 as stated fails: an expense of the unknown category "Gym" without
amount is refused, yet the category "Gym" has been created and stays. -/
theorem createExpense_atomic_counterexample :
    (createExpense exampleEnv exampleStore exampleUser { category := some "Gym" }).result =
      .error (.validationError ["Please add an amount"]) ∧
    (createExpense exampleEnv exampleStore exampleUser { category := some "Gym" }).store.expenses =
      exampleStore.expenses ∧
    (createExpense exampleEnv exampleStore exampleUser { category := some "Gym" }).store.categories =
      exampleStore.categories ++
        [{ id := 9, name := "Gym", color := "#ff", user := some 7, isDefault := false }] ∧
    (createExpense exampleEnv exampleStore exampleUser { category := some "Gym" }).store ≠
      exampleStore := by
  decide

/-! ## Ownership fields in updates -/

/-- C25 at the failing inputs: user 7 updates their expense 3 with a body that
carries `user: 8`, and their category 3 with a body that carries `user: 8` and
`isDefault: true`; both updates succeed and store the fields of the body. A
`createExpense` whose body carries `user: 99` stores the requester. -/
theorem update_changes_ownership :
    (expenseFindById exampleStore 3).map (fun e => e.user) = some 7 ∧
    (updateExpense exampleEnv exampleStore exampleUser 3 { user := some 8 }).result = .ok
      { status := 200
        data := some { id := 3, amount := 5, category := "Transport", description := none,
                       date := 1755000000000, user := 8 } } ∧
    (expenseFindById
      (updateExpense exampleEnv exampleStore exampleUser 3 { user := some 8 }).store 3).map
      (fun e => e.user) = some 8 ∧
    (categoryFindById categoryStore 3).map (fun c => (c.user, c.isDefault)) =
      some (some 7, false) ∧
    (updateCategory categoryStore exampleUser 3
      { user := some 8, isDefault := some true }).result = .ok
      { status := 200
        data := some { id := 3, name := "Education", color := "#00BCD4", user := some 8,
                       isDefault := true } } ∧
    (categoryFindById (updateCategory categoryStore exampleUser 3
      { user := some 8, isDefault := some true }).store 3).map
      (fun c => (c.user, c.isDefault)) = some (some 8, true) ∧
    ((createExpense exampleEnv exampleStore exampleUser
      { amount := some 3, category := some "Food", user := some 99 }).result.toOption.map
      (fun r => r.data.user)) = some 7 := by
  decide

theorem find?_replaceExpense (id : ObjectId) (f : Expense → Expense) (es : List Expense)
    (e : Expense) (hf : ∀ x, (f x).id = x.id)
    (h : es.find? (fun x => x.id = id) = some e) :
    (replaceExpense id f es).find? (fun x => x.id = id) = some (f e) := by
  induction es with
  | nil => simp at h
  | cons y ys ih =>
    by_cases hy : y.id = id
    · simp only [List.find?_cons, hy, decide_True, Option.some.injEq] at h
      subst h
      simp [replaceExpense, hy, hf]
    · simp only [List.find?_cons, hy, decide_False] at h
      simp [replaceExpense, hy, ih h]

/-- An update whose body carries no `user` field leaves the owner of the
expense as it was. -/
theorem updateExpense_owner_kept (env : Env) (st : Store) (user : ReqUser) (id : ObjectId)
    (body : ExpenseBody) (e : Expense) (r : Reply (Option Expense))
    (hfind : expenseFindById st id = some e) (hbody : body.user = none)
    (hok : (updateExpense env st user id body).result = .ok r) :
    ∀ x, r.data = some x → x.user = e.user := by
  unfold updateExpense at hok
  simp only [hfind] at hok
  split at hok
  · cases hok
  · split at hok
    · cases hok
    · rename_i st1 hchk
      have hexp : st1.expenses = st.expenses := by
        split at hchk
        · exact (ensureCategory_ok _ _ _ _ _ hchk).1
        · cases hchk; rfl
      split at hok
      · cases hok
      · rename_i updated st2 hu
        simp only [Except.ok.injEq] at hok
        subst hok
        unfold expenseFindByIdAndUpdate at hu
        split at hu
        · simp only [Except.ok.injEq, Prod.mk.injEq] at hu
          obtain ⟨hupd, _⟩ := hu
          intro x hx
          simp only at hx
          rw [← hupd, hexp, find?_replaceExpense id _ st.expenses e
            (fun y => by simp [applyExpenseUpdate]) hfind] at hx
          cases hx
          simp [applyExpenseUpdate, hbody]
        · cases hu

/-! ## The category of an updated expense -/

/-- C26 (amended): after every successful `updateExpense` by which the owner of
an expense changes its category name, a category whose name is the new name
trimmed is visible to the owner, owned by the owner or default, and the
owner's `getCategories` returns it; the expense carries the new name as it
was given. -/
theorem updateExpense_category_visible (env : Env) (st : Store) (user : ReqUser)
    (id : ObjectId) (body : ExpenseBody) (e : Expense) (n : String)
    (r : Reply (Option Expense))
    (hfind : expenseFindById st id = some e) (howner : e.user = user.id)
    (hcat : body.category = some n) (hne : n ≠ "") (hchange : n ≠ e.category)
    (hbody : body.user = none)
    (hok : (updateExpense env st user id body).result = .ok r) :
    hasVisibleCategory (updateExpense env st user id body).store user.id (jsTrim n) ∧
    (∃ c ∈ (visibleCategories (updateExpense env st user id body).store user.id).insertionSort
        nameAsc, c.name = jsTrim n) ∧
    (∃ listing, (getCategories (updateExpense env st user id body).store user).result =
        .ok listing ∧ ∃ c ∈ listing.data, c.name = jsTrim n) ∧
    (∀ x, r.data = some x → x.category = n ∧ x.user = user.id) := by
  have hkept := updateExpense_owner_kept env st user id body e r hfind hbody hok
  have hauth : notAuthorized e user = false := by simp [notAuthorized, howner]
  have hcond : (truthy body.category && decide (body.category ≠ some e.category)) = true := by
    simp [truthy, hcat, hne, hchange]
  have hvis : hasVisibleCategory (updateExpense env st user id body).store user.id (jsTrim n) ∧
      (∀ x, r.data = some x → x.category = n) := by
    unfold updateExpense at hok ⊢
    simp only [hfind, hauth, hcond] at hok ⊢
    simp only [Bool.false_eq_true, if_false, if_true] at hok ⊢
    cases hens : ensureCategory env st user body with
    | error err => simp [hens] at hok
    | ok st1 =>
      simp only [hens] at hok ⊢
      have hv1 : hasVisibleCategory st1 user.id (jsTrim n) := by
        obtain ⟨_, hcase⟩ := ensureCategory_ok _ _ _ _ _ hens
        rcases hcase with ⟨n2, hn2, hv, hst⟩ | ⟨n2, c, hn2, _, hc, hname, hu, _, _⟩
        · rw [hcat] at hn2; cases hn2; rw [hst]; exact hv
        · rw [hcat] at hn2; cases hn2
          exact ⟨c, by rw [hc]; simp, hname, Or.inl hu⟩
      have hexp1 : st1.expenses = st.expenses := (ensureCategory_ok _ _ _ _ _ hens).1
      cases hupd : expenseFindByIdAndUpdate st1 id body with
      | error err => simp [hupd] at hok
      | ok p =>
        obtain ⟨updated, st2⟩ := p
        simp only [hupd, Except.ok.injEq] at hok ⊢
        subst hok
        have hcats := expenseFindByIdAndUpdate_categories _ _ _ _ _ hupd
        refine ⟨?_, ?_⟩
        · obtain ⟨c, hc, hcn, hcv⟩ := hv1
          exact ⟨c, by rw [hcats]; exact hc, hcn, hcv⟩
        · intro x hx
          simp only at hx
          unfold expenseFindByIdAndUpdate at hupd
          split at hupd
          · simp only [Except.ok.injEq, Prod.mk.injEq] at hupd
            rw [← hupd.1, hexp1, find?_replaceExpense id _ st.expenses e
              (fun y => by simp [applyExpenseUpdate]) hfind] at hx
            cases hx
            simp [applyExpenseUpdate, hcat]
          · cases hupd
  obtain ⟨⟨c, hc, hcn, hcv⟩, hcatn⟩ := hvis
  have hmem : c ∈ (visibleCategories (updateExpense env st user id body).store
      user.id).insertionSort nameAsc := by
    rw [(List.perm_insertionSort nameAsc _).mem_iff]
    simp only [visibleCategories, List.mem_filter, Bool.or_eq_true, decide_eq_true_eq]
    exact ⟨hc, hcv⟩
  refine ⟨⟨c, hc, hcn, hcv⟩, ⟨c, hmem, hcn⟩, ⟨_, rfl, c, hmem, hcn⟩, ?_⟩
  intro x hx
  exact ⟨hcatn x hx, by rw [hkept x hx, howner]⟩

/-- An instance of C26: user 7 moves their expense 3 to the new category
"Gym"; the category is created for user 7 and listed. -/
theorem updateExpense_category_visible_witness :
    (expenseFindById exampleStore 3 = some
        { id := 3, amount := 5, category := "Transport", description := none,
          date := 1755000000000, user := 7 } ∧
      (7 : ObjectId) = exampleUser.id ∧ "Gym" ≠ "" ∧ "Gym" ≠ "Transport" ∧
      (updateExpense exampleEnv exampleStore exampleUser 3 { category := some "Gym" }).result =
        .ok { status := 200
              data := some { id := 3, amount := 5, category := "Gym", description := none,
                             date := 1755000000000, user := 7 } }) ∧
    hasVisibleCategory
      (updateExpense exampleEnv exampleStore exampleUser 3 { category := some "Gym" }).store
      exampleUser.id (jsTrim "Gym") ∧
    ((getCategories
      (updateExpense exampleEnv exampleStore exampleUser 3 { category := some "Gym" }).store
      exampleUser).result.toOption.map (fun l => l.data.map (fun c => (c.name, c.user)))) =
      some [("Food", none), ("Gym", some 7), ("Transport", none)] :=
  ⟨⟨by decide, rfl, by decide, by decide, by decide⟩,
    (updateExpense_category_visible exampleEnv exampleStore exampleUser 3
      { category := some "Gym" }
      { id := 3, amount := 5, category := "Transport", description := none,
        date := 1755000000000, user := 7 } "Gym"
      { status := 200
        data := some { id := 3, amount := 5, category := "Gym", description := none,
                       date := 1755000000000, user := 7 } }
      (by decide) rfl rfl (by decide) (by decide) rfl (by decide)).1,
    by decide⟩

/-- C26 as stated fails: user 7 moves their expense 3 to the category " Gym";
the update succeeds, the expense carries " Gym", and the category that exists
afterwards is named "Gym": no category visible to user 7 has the new name of
the expense, and the colour lookup of `getCategoryTotals` answers the gray. -/
theorem updateExpense_category_counterexample :
    (updateExpense exampleEnv exampleStore exampleUser 3 { category := some " Gym" }).result =
      .ok { status := 200
            data := some { id := 3, amount := 5, category := " Gym", description := none,
                           date := 1755000000000, user := 7 } } ∧
    (∀ c ∈ (updateExpense exampleEnv exampleStore exampleUser 3
        { category := some " Gym" }).store.categories, c.name ≠ " Gym") ∧
    ((getCategoryTotals
      (updateExpense exampleEnv exampleStore exampleUser 3 { category := some " Gym" }).store
      exampleUser "2025" "8").result.toOption.map
      (fun r => r.data.map (fun x => (x.category, x.color)))) =
      some [("Food", "#FF5722"), (" Gym", "#757575")] := by
  decide

/-- What happens when an administrator changes the category of another user's
expense: the category is looked up and created for the administrator, and the
owner of the expense does not see it. -/
theorem updateExpense_admin_category :
    (updateExpense exampleEnv exampleStore exampleAdmin 3 { category := some "Gym" }).result =
      .ok { status := 200
            data := some { id := 3, amount := 5, category := "Gym", description := none,
                           date := 1755000000000, user := 7 } } ∧
    (updateExpense exampleEnv exampleStore exampleAdmin 3
      { category := some "Gym" }).store.categories =
      exampleStore.categories ++
        [{ id := 9, name := "Gym", color := "#ff", user := some 1, isDefault := false }] ∧
    ((getCategories
      (updateExpense exampleEnv exampleStore exampleAdmin 3 { category := some "Gym" }).store
      exampleUser).result.toOption.map (fun l => l.data.map (fun c => c.name))) =
      some ["Food", "Transport"] := by
  decide

/-! ## The orders of a list -/

theorem mem_insertAll {α : Type} (x : α) : ∀ (a b : List α), a ++ x :: b ∈ insertAll x (a ++ b)
  | [], b => by cases b <;> simp [insertAll]
  | y :: a, b => by
    have ih := mem_insertAll x a b
    simp only [List.cons_append, insertAll, List.mem_cons, List.mem_map]
    exact Or.inr ⟨_, ih, rfl⟩

/-- Every rearrangement of a list is among its orders. -/
theorem mem_orders {α : Type} : ∀ (l p : List α), p.Perm l → p ∈ orders l
  | [], p, h => by
    rw [List.perm_nil] at h
    subst h
    simp [orders]
  | x :: xs, p, h => by
    have hx : x ∈ p := h.mem_iff.2 (by simp)
    obtain ⟨a, b, rfl⟩ := List.append_of_mem hx
    have hp : (a ++ b).Perm xs :=
      (List.perm_cons x).1 ((List.perm_middle.symm).trans h)
    have ih := mem_orders xs (a ++ b) hp
    simp only [orders, List.mem_flatMap]
    exact ⟨a ++ b, ih, mem_insertAll x a b⟩

/-! ## The two monthly reports agree -/

theorem count_accumulate (rows : List GroupRow) (e : Expense) :
    ((accumulate rows e).map (fun r => r.count)).sum =
      (rows.map (fun r => r.count)).sum + 1 := by
  induction rows with
  | nil => simp [accumulate]
  | cons r rs ih =>
    unfold accumulate
    split
    · simp only [List.map_cons, List.sum_cons]
      ring
    · simp only [List.map_cons, List.sum_cons, ih]
      ring

theorem count_foldl_accumulate (es : List Expense) :
    ∀ rows : List GroupRow,
      ((es.foldl accumulate rows).map (fun r => r.count)).sum =
        (rows.map (fun r => r.count)).sum + es.length := by
  induction es with
  | nil => intro rows; simp
  | cons e es ih =>
    intro rows
    rw [List.foldl_cons, ih, count_accumulate]
    simp only [List.length_cons]
    omega

/-- The sum of two whole numbers is whole and exact as long as it is at most
2^53. -/
theorem whole_add (a b : Number) (ha : IsWhole a) (hb : IsWhole b)
    (h : a.whole + b.whole ≤ 9007199254740992) :
    IsWhole (a + b) ∧ (a + b).whole = a.whole + b.whole := by
  have e : a + b = Number.ofNat (a.whole + b.whole) := by
    calc a + b = Number.ofNat a.whole + Number.ofNat b.whole := by rw [← ha, ← hb]
      _ = Number.ofNat (a.whole + b.whole) := Number.ofNat_add _ _ h
  rw [e]
  exact ⟨isWhole_ofNat _, Number.whole_ofNat _⟩

theorem accumulate_whole (e : Expense) (he : IsWhole e.amount) :
    ∀ rows : List GroupRow, (∀ r ∈ rows, IsWhole r.total) →
      (rows.map (fun r => r.total.whole)).sum + e.amount.whole ≤ 9007199254740992 →
      (∀ r ∈ accumulate rows e, IsWhole r.total) ∧
        ((accumulate rows e).map (fun r => r.total.whole)).sum =
          (rows.map (fun r => r.total.whole)).sum + e.amount.whole
  | [], _, hb => by
    have h0 : IsWhole (0 : Number) := isWhole_ofNat 0
    have hw0 : (0 : Number).whole = 0 := Number.whole_ofNat 0
    obtain ⟨h1, h2⟩ := whole_add 0 e.amount h0 he (by rw [hw0]; simpa using hb)
    simp only [accumulate, List.mem_singleton, forall_eq, List.map_cons, List.map_nil,
      List.sum_cons, List.sum_nil]
    exact ⟨h1, by rw [h2, hw0]; omega⟩
  | r :: rs, hr, hb => by
    simp only [List.map_cons, List.sum_cons] at hb
    unfold accumulate
    split
    · obtain ⟨h1, h2⟩ := whole_add r.total e.amount (hr r (by simp)) he (by omega)
      constructor
      · intro x hx
        rcases List.mem_cons.1 hx with rfl | hx
        · exact h1
        · exact hr x (List.mem_cons_of_mem _ hx)
      · simp only [List.map_cons, List.sum_cons, h2]
        omega
    · obtain ⟨h1, h2⟩ := accumulate_whole e he rs
        (fun x hx => hr x (List.mem_cons_of_mem _ hx)) (by omega)
      constructor
      · intro x hx
        rcases List.mem_cons.1 hx with rfl | hx
        · exact hr x (by simp)
        · exact h1 x hx
      · simp only [List.map_cons, List.sum_cons, h2]
        omega

theorem foldl_accumulate_whole :
    ∀ (es : List Expense) (rows : List GroupRow), (∀ r ∈ rows, IsWhole r.total) →
      (∀ e ∈ es, IsWhole e.amount) →
      (rows.map (fun r => r.total.whole)).sum + wholeSum (es.map (fun e => e.amount)) ≤
        9007199254740992 →
      (∀ r ∈ es.foldl accumulate rows, IsWhole r.total) ∧
        ((es.foldl accumulate rows).map (fun r => r.total.whole)).sum =
          (rows.map (fun r => r.total.whole)).sum + wholeSum (es.map (fun e => e.amount))
  | [], rows, hr, _, _ => by simpa [wholeSum] using hr
  | e :: es, rows, hr, he, hb => by
    have hs : wholeSum ((e :: es).map (fun e => e.amount)) =
        e.amount.whole + wholeSum (es.map (fun e => e.amount)) := by simp [wholeSum]
    rw [hs] at hb ⊢
    obtain ⟨h1, h2⟩ := accumulate_whole e (he e (by simp)) rows hr (by omega)
    obtain ⟨h3, h4⟩ := foldl_accumulate_whole es (accumulate rows e) h1
      (fun x hx => he x (List.mem_cons_of_mem _ hx)) (by omega)
    rw [List.foldl_cons]
    exact ⟨h3, by rw [h4, h2]; omega⟩

/-- C27 (amended): for every store, requester and year and month that pass the
validation and give a window, the two monthly reports answer, the counts of
`getCategoryTotals` add up to the number of the expenses of
`getMonthlyExpenses`, and both answers carry the same `meta`, whose month is the
month number read from the request. When the amounts of the listed expenses
are whole numbers adding up to at most 2^53, the totals add up to the sum of
the amounts, which is then exact. -/
theorem monthly_reports_agree (st : Store) (user : ReqUser) (year month : String)
    (yearNum monthNum : Int) (s e : Int)
    (hv : validateYearMonth year month = .ok (yearNum, monthNum))
    (hs : windowStart yearNum monthNum = some s) (he : windowEnd yearNum monthNum = some e) :
    ∃ totals listing,
      (getCategoryTotals st user year month).result = .ok totals ∧
      (getMonthlyExpenses st user year month).result = .ok listing ∧
      (totals.data.map (fun r => r.count)).sum = listing.data.length ∧
      (totals.data.map (fun r => r.count)).sum = listing.count ∧
      totals.meta = listing.meta ∧
      totals.meta = { year := yearNum, month := monthNum + 1,
                      startDate := some s, endDate := some e } ∧
      parseInt month = some totals.meta.month ∧ parseInt year = some totals.meta.year ∧
      (WholeAmounts (listing.data.map (fun x => x.amount)) →
        sumFromZero (totals.data.map (fun r => r.total)) =
          sumFromZero (listing.data.map (fun x => x.amount)) ∧
        sumFromZero (totals.data.map (fun r => r.total)) =
          Number.ofNat (wholeSum (listing.data.map (fun x => x.amount)))) := by
  obtain ⟨hy, hm, _, _⟩ := (validateYearMonth_ok_iff year month yearNum monthNum).mp hv
  refine ⟨_, _, getCategoryTotals_ok st user year month yearNum monthNum hv,
    getMonthlyExpenses_ok st user year month yearNum monthNum s e hv hs he, ?_⟩
  simp only [hs, he]
  have hperm := aggregateTotals_perm st user.id s e
  have hsort := List.perm_insertionSort dateAsc (monthExpenses st user.id s e)
  have h2 := count_foldl_accumulate (monthExpenses st user.id s e) []
  have ht : ((aggregateTotals st user.id (some s) (some e)).map
      (withColor (visibleCategories st user.id))).map (fun r => r.total) =
      (aggregateTotals st user.id (some s) (some e)).map (fun g => g.total) := by
    simp [List.map_map, Function.comp_def, withColor]
  have hc : ((aggregateTotals st user.id (some s) (some e)).map
      (withColor (visibleCategories st user.id))).map (fun r => r.count) =
      (aggregateTotals st user.id (some s) (some e)).map (fun g => g.count) := by
    simp [List.map_map, Function.comp_def, withColor]
  have hcount : ((aggregateTotals st user.id (some s) (some e)).map (fun g => g.count)).sum =
      (monthExpenses st user.id s e).length := by
    rw [(hperm.map _).sum_eq]
    simpa [groupByCategory] using h2
  refine ⟨?_, ?_, trivial, trivial, hm, hy, ?_⟩
  · rw [hc, hcount, hsort.length_eq]
  · rw [hc, hcount, hsort.length_eq]
  · intro hw
    have hw2 : WholeAmounts ((monthExpenses st user.id s e).map (fun x => x.amount)) :=
      wholeAmounts_perm _ _ (hsort.symm.map _) hw
    obtain ⟨h3, h4⟩ := foldl_accumulate_whole (monthExpenses st user.id s e) []
      (by simp) (fun x hx => hw2.1 _ (List.mem_map_of_mem _ hx))
      (by simpa using hw2.2)
    have hrows : WholeAmounts ((aggregateTotals st user.id (some s) (some e)).map
        (fun g => g.total)) := by
      constructor
      · intro x hx
        obtain ⟨g, hg, rfl⟩ := List.mem_map.1 hx
        exact h3 g (by simpa [groupByCategory] using hperm.mem_iff.1 hg)
      · have e1 : wholeSum ((aggregateTotals st user.id (some s) (some e)).map
            (fun g => g.total)) =
            ((groupByCategory (monthExpenses st user.id s e)).map
              (fun r => r.total.whole)).sum := by
          unfold wholeSum
          rw [List.map_map]
          exact (hperm.map _).sum_eq
        rw [e1]
        simp only [groupByCategory]
        rw [h4]
        simpa using hw2.2
    have hsum : wholeSum ((aggregateTotals st user.id (some s) (some e)).map
        (fun g => g.total)) = wholeSum (((monthExpenses st user.id s e).insertionSort
          dateAsc).map (fun x => x.amount)) := by
      have e1 : wholeSum ((aggregateTotals st user.id (some s) (some e)).map
          (fun g => g.total)) =
          ((groupByCategory (monthExpenses st user.id s e)).map
            (fun r => r.total.whole)).sum := by
        unfold wholeSum
        rw [List.map_map]
        exact (hperm.map _).sum_eq
      rw [e1]
      simp only [groupByCategory]
      rw [h4, wholeSum_perm _ _ (hsort.map _)]
      simp
    rw [ht, sumFromZero_whole _ hrows, sumFromZero_whole _ hw, hsum]
    exact ⟨rfl, rfl⟩

/-- The worked example of C27: in August 2025 the totals 30 and 5 add up to
the amounts 10, 5 and 20 of the three listed expenses. -/
theorem monthly_reports_agree_witness :
    (validateYearMonth "2025" "8" = .ok (2025, 7) ∧
      windowStart 2025 7 = some 1754006400000 ∧ windowEnd 2025 7 = some 1756684799999) ∧
    (∃ totals listing,
      (getCategoryTotals exampleStore exampleUser "2025" "8").result = .ok totals ∧
      (getMonthlyExpenses exampleStore exampleUser "2025" "8").result = .ok listing ∧
      (totals.data.map (fun r => r.count)).sum = listing.data.length ∧
      (totals.data.map (fun r => r.count)).sum = listing.count ∧
      totals.meta = listing.meta ∧
      totals.meta = { year := 2025, month := 7 + 1,
                      startDate := some 1754006400000, endDate := some 1756684799999 } ∧
      parseInt "8" = some totals.meta.month ∧ parseInt "2025" = some totals.meta.year ∧
      (WholeAmounts (listing.data.map (fun x => x.amount)) →
        sumFromZero (totals.data.map (fun r => r.total)) =
          sumFromZero (listing.data.map (fun x => x.amount)) ∧
        sumFromZero (totals.data.map (fun r => r.total)) =
          Number.ofNat (wholeSum (listing.data.map (fun x => x.amount))))) ∧
    ((getMonthlyExpenses exampleStore exampleUser "2025" "8").result.toOption.map
      (fun r => decide (WholeAmounts (r.data.map (fun x => x.amount))))) = some true ∧
    ((getCategoryTotals exampleStore exampleUser "2025" "8").result.toOption.map
      (fun r => sumFromZero (r.data.map (fun x => x.total)))) = some 35 ∧
    ((getMonthlyExpenses exampleStore exampleUser "2025" "8").result.toOption.map
      (fun r => sumFromZero (r.data.map (fun x => x.amount)))) = some 35 :=
  ⟨by decide,
    monthly_reports_agree exampleStore exampleUser "2025" "8" 2025 7
      1754006400000 1756684799999 (by decide) (by decide) (by decide),
    by decide, by decide, by decide⟩

/-- C27 as stated fails: with "Food" 3.47 and 61.13 and "Bills" 41.9 and 20.94 the
totals are 64.60000000000001 and 62.84 and add up, in either order, to
127.44000000000001; the four listed amounts add up to 127.44, in the order of
the list and in every other order. The exact sums differ as well. -/
theorem monthly_sums_counterexample :
    ((getCategoryTotals centsStore exampleUser "2025" "8").result.toOption.map
      (fun r => r.data.map (fun x => (x.category, x.total, x.count)))) =
      some [("Food", Number.ofDecimal 6460000000000001 14, 2),
            ("Bills", Number.ofDecimal 6284 2, 2)] ∧
    ((getMonthlyExpenses centsStore exampleUser "2025" "8").result.toOption.map
      (fun r => r.data.map (fun x => x.amount))) =
      some [Number.ofDecimal 347 2, Number.ofDecimal 6113 2, Number.ofDecimal 419 1,
            Number.ofDecimal 2094 2] ∧
    sumFromZero [Number.ofDecimal 6460000000000001 14, Number.ofDecimal 6284 2] =
      Number.ofDecimal 12744000000000001 14 ∧
    sumFromZero [Number.ofDecimal 6284 2, Number.ofDecimal 6460000000000001 14] =
      Number.ofDecimal 12744000000000001 14 ∧
    (∀ p : List Number, p.Perm [Number.ofDecimal 347 2, Number.ofDecimal 6113 2,
        Number.ofDecimal 419 1, Number.ofDecimal 2094 2] →
      sumFromZero p = Number.ofDecimal 12744 2) ∧
    Number.ofDecimal 12744000000000001 14 ≠ Number.ofDecimal 12744 2 ∧
    exactSum [Number.ofDecimal 6460000000000001 14, Number.ofDecimal 6284 2] ≠
      exactSum [Number.ofDecimal 347 2, Number.ofDecimal 6113 2, Number.ofDecimal 419 1,
        Number.ofDecimal 2094 2] ∧
    numberToString (Number.ofDecimal 12744000000000001 14) = "127.44000000000001" ∧
    numberToString (Number.ofDecimal 12744 2) = "127.44" := by
  refine ⟨by decide, by decide, by decide, by decide, ?_, by decide, by decide, by decide,
    by decide⟩
  intro p hp
  have hall : ∀ q ∈ orders [Number.ofDecimal 347 2, Number.ofDecimal 6113 2,
      Number.ofDecimal 419 1, Number.ofDecimal 2094 2],
      sumFromZero q = Number.ofDecimal 12744 2 := by decide
  exact hall p (mem_orders _ p hp)

/-! ## The random colour -/

/-- The value `Math.floor(Math.random() * 16777215)` written in base 16 has at
most five digits when it is below 1048576. -/
theorem toHex_short (n : Nat) (h : n < 1048576) : (toHex n).data.length ≤ 5 := by
  unfold toHex Nat.toDigits
  exact Nat.toDigitsCore_length 16 (by decide) (n + 1) n 5 (by simpa using h) (by decide)

/-- Below 1048576 the generated colour is not "#" and six hexadecimal digits. -/
theorem random_colour_short (n : Nat) (h : n < 1048576) :
    isHexColour ("#" ++ toHex n) = false := by
  have hlen := toHex_short n h
  have hdata : ("#" ++ toHex n).data = '#' :: (toHex n).data := by
    simp [String.data_append]
  simp only [isHexColour, hdata, Bool.and_eq_false_imp, decide_eq_true_eq]
  intro h6
  omega

/-- C28 at failing inputs: for the values 255, 0 and 1048575 the colour given
to an auto-created category is "#ff", "#0" and "#fffff", none of them "#" and
six hexadecimal digits; for 1048576 it is "#100000". -/
theorem random_colour_not_six_digits :
    colorOrRandom { now := 0, random := 255 } none = "#ff" ∧
    isHexColour (colorOrRandom { now := 0, random := 255 } none) = false ∧
    colorOrRandom { now := 0, random := 0 } none = "#0" ∧
    colorOrRandom { now := 0, random := 1048575 } none = "#fffff" ∧
    isHexColour (colorOrRandom { now := 0, random := 1048575 } none) = false ∧
    colorOrRandom { now := 0, random := 1048576 } none = "#100000" ∧
    isHexColour (colorOrRandom { now := 0, random := 1048576 } none) = true ∧
    (createExpense { now := 0, random := 255 } exampleStore exampleUser
      { amount := some 3, category := some "Gym" }).store.categories =
      exampleStore.categories ++
        [{ id := 9, name := "Gym", color := "#ff", user := some 7, isDefault := false }] := by
  decide

/-! ## The CSV export -/

/-- No decimal digit is a comma or a line break. -/
theorem digitChar_ne (c : Char) (hc : c = ',' ∨ c = '\n') (k : Nat) (hk : k < 10) :
    Nat.digitChar k ≠ c := by
  have h1 : ∀ j, j < 10 → Nat.digitChar j ≠ ',' := by decide
  have h2 : ∀ j, j < 10 → Nat.digitChar j ≠ '\n' := by decide
  rcases hc with rfl | rfl
  · exact h1 k hk
  · exact h2 k hk

/-- The digits written by `Nat.toDigitsCore` hold no separator. -/
theorem toDigitsCore_plain (c : Char) (hc : c = ',' ∨ c = '\n') (fuel : Nat) :
    ∀ (n : Nat) (ds : List Char), c ∉ ds → c ∉ Nat.toDigitsCore 10 fuel n ds := by
  induction fuel with
  | zero => intro n ds h; simpa [Nat.toDigitsCore] using h
  | succ f ih =>
    intro n ds h
    have hd : c ∉ Nat.digitChar (n % 10) :: ds := by
      simp only [List.mem_cons, not_or]
      exact ⟨fun e => digitChar_ne c hc _ (Nat.mod_lt _ (by decide)) e.symm, h⟩
    unfold Nat.toDigitsCore
    dsimp only
    split
    · exact hd
    · exact ih _ _ hd

/-- The decimal text of a natural number holds no separator. -/
theorem natRepr_plain (c : Char) (hc : c = ',' ∨ c = '\n') (n : Nat) :
    c ∉ (toString n).data := by
  show c ∉ (Nat.repr n).data
  unfold Nat.repr Nat.toDigits
  simpa [List.asString] using toDigitsCore_plain c hc (n + 1) n [] (by simp)

/-- A character other than a decimal digit, the point, the signs and the
letter `e`: such a character is in no text of a number. -/
theorem sep_cases (c : Char) (hc : c = ',' ∨ c = '\n') :
    c ≠ '0' ∧ c ≠ '.' ∧ c ≠ '-' ∧ c ≠ '+' ∧ c ≠ 'e' := by
  rcases hc with rfl | rfl <;> decide

theorem not_mem_stripZeros (c : Char) (ds : List Char) (h : c ∉ ds) : c ∉ stripZeros ds := by
  unfold stripZeros
  intro hm
  rw [List.mem_reverse] at hm
  have := (List.dropWhile_sublist _).subset hm
  exact h (List.mem_reverse.1 this)

theorem not_mem_shortestDigits (c : Char) (hc : c = ',' ∨ c = '\n') (a : Nat) :
    c ∉ (shortestDigits a).1 := by
  unfold shortestDigits
  split
  · exact not_mem_stripZeros c _ (natRepr_plain c hc _)
  · have := (sep_cases c hc).1
    simpa using this

theorem not_mem_layoutNumber (c : Char) (hc : c = ',' ∨ c = '\n') (digits : List Char)
    (n : Int) (h : c ∉ digits) : c ∉ layoutNumber digits n := by
  obtain ⟨h0, hp, hm, hpl, he⟩ := sep_cases c hc
  have htake : ∀ k, c ∉ digits.take k := fun k hk => h (List.mem_of_mem_take hk)
  have hdrop : ∀ k, c ∉ digits.drop k := fun k hk => h (List.mem_of_mem_drop hk)
  have hrep : ∀ k, c ∉ List.replicate k '0' := by
    intro k hk
    exact h0 (List.eq_of_mem_replicate hk)
  have htail : c ∉ digits.tail := fun hk => h (List.mem_of_mem_tail hk)
  have hexp := natRepr_plain c hc (n - 1).natAbs
  unfold layoutNumber
  simp only
  split_ifs <;>
    simp only [List.mem_append, List.mem_cons, not_or] <;>
    simp [h, htake, hdrop, hrep, htail, hexp, hp, hm, hpl, he, h0]

/-- The text of a number holds no separator. -/
theorem numberToString_plain (x : Number) : plainText (numberToString x) := by
  have key : ∀ c : Char, c = ',' ∨ c = '\n' → c ∉ (numberToString x).data := by
    intro c hc
    obtain ⟨h0, hp, hm, hpl, he⟩ := sep_cases c hc
    unfold numberToString
    split
    · have : c ≠ '0' := h0
      simpa using this
    · have hl := not_mem_layoutNumber c hc (shortestDigits x.units.natAbs).1
        (shortestDigits x.units.natAbs).2 (not_mem_shortestDigits c hc _)
      simp only [List.mem_append, not_or]
      refine ⟨?_, hl⟩
      split
      · simpa using hm
      · simp
  exact ⟨key ',' (Or.inl rfl), key '\n' (Or.inr rfl)⟩

/-- The text of `toFixed(2)` holds no separator. -/
theorem toFixed2_plain (x : Number) : plainText (toFixed2 x) := by
  have key : ∀ c : Char, c = ',' ∨ c = '\n' → c ∉ (toFixed2 x).data := by
    intro c hc
    obtain ⟨h0, hp, hm, hpl, he⟩ := sep_cases c hc
    have hs : c ∉ (if x.units < 0 then ['-'] else []) := by
      split
      · simpa using hm
      · simp
    unfold toFixed2
    simp only
    split
    · have hn := (numberToString_plain ⟨(x.units.natAbs : Int)⟩)
      have hn2 : c ∉ (numberToString ⟨(x.units.natAbs : Int)⟩).data := by
        rcases hc with rfl | rfl
        · exact hn.1
        · exact hn.2
      simp only [List.mem_append, not_or]
      exact ⟨hs, hn2⟩
    · have hd := natRepr_plain c hc ((200 * x.units.natAbs + 1 <<< 1074) >>> 1075)
      have hpad : c ∉ List.replicate
          (3 - (toString ((200 * x.units.natAbs + 1 <<< 1074) >>> 1075)).data.length) '0' ++
          (toString ((200 * x.units.natAbs + 1 <<< 1074) >>> 1075)).data := by
        simp only [List.mem_append, not_or]
        exact ⟨fun hk => h0 (List.eq_of_mem_replicate hk), hd⟩
      simp only [List.mem_append, List.mem_cons, not_or]
      exact ⟨⟨hs, fun hk => hpad (List.mem_of_mem_take hk)⟩, hp,
        fun hk => hpad (List.mem_of_mem_drop hk)⟩
  exact ⟨key ',' (Or.inl rfl), key '\n' (Or.inr rfl)⟩

/-- A character that is neither the separator nor in a field is not in the
joined text. -/
theorem not_mem_joinChars (sep c : Char) (hc : c ≠ sep) :
    ∀ fs : List (List Char), (∀ f ∈ fs, c ∉ f) → c ∉ joinChars sep fs
  | [], _ => by simp [joinChars]
  | [x], h => by simpa [joinChars] using h x (by simp)
  | x :: y :: rest, h => by
    have ih := not_mem_joinChars sep c hc (y :: rest)
      (fun f hf => h f (List.mem_cons_of_mem _ hf))
    have hx := h x (by simp)
    simp only [joinChars, List.mem_append, List.mem_cons, not_or]
    exact ⟨hx, hc, ih⟩

/-- Splitting never gives the empty list. -/
theorem splitChars_ne_nil (sep : Char) : ∀ cs : List Char, splitChars sep cs ≠ []
  | [] => by simp [splitChars]
  | c :: cs => by
    unfold splitChars
    split
    · simp
    · split <;> simp

/-- A text without the separator splits into itself. -/
theorem splitChars_plain (sep : Char) : ∀ x : List Char, sep ∉ x → splitChars sep x = [x]
  | [], _ => by simp [splitChars]
  | c :: cs, h => by
    have hc : c ≠ sep := fun e => h (by simp [e])
    have ih := splitChars_plain sep cs (fun m => h (List.mem_cons_of_mem _ m))
    simp [splitChars, hc, ih]

/-- Splitting reads a first field without the separator up to the separator. -/
theorem splitChars_append (sep : Char) (rest : List Char) :
    ∀ x : List Char, sep ∉ x → splitChars sep (x ++ sep :: rest) = x :: splitChars sep rest
  | [], _ => by simp [splitChars]
  | c :: cs, h => by
    have hc : c ≠ sep := fun e => h (by simp [e])
    have ih := splitChars_append sep rest cs (fun m => h (List.mem_cons_of_mem _ m))
    simp [splitChars, hc, ih]

/-- Splitting undoes joining when no field holds the separator. -/
theorem splitChars_joinChars (sep : Char) :
    ∀ fs : List (List Char), fs ≠ [] → (∀ f ∈ fs, sep ∉ f) →
      splitChars sep (joinChars sep fs) = fs
  | [], h, _ => absurd rfl h
  | [x], _, h => by simpa [joinChars] using splitChars_plain sep x (h x (by simp))
  | x :: y :: rest, _, h => by
    have ih := splitChars_joinChars sep (y :: rest) (by simp)
      (fun f hf => h f (List.mem_cons_of_mem _ hf))
    simp only [joinChars]
    rw [splitChars_append sep _ x (h x (by simp)), ih]

/-- The text of a table whose fields hold neither a comma nor a line break
splits on line breaks and commas into the table. -/
theorem csvString_splits (rows : List (List String)) (hne : rows ≠ [])
    (hrow : ∀ row ∈ rows, row ≠ [])
    (hplain : ∀ row ∈ rows, ∀ f ∈ row, plainText f) :
    (splitChars '\n' (csvString rows).data).map (splitChars ',') =
      rows.map (fun row => row.map String.data) := by
  unfold csvString
  simp only
  rw [splitChars_joinChars]
  · rw [List.map_map]
    apply List.map_congr_left
    intro row hr
    simp only [Function.comp]
    apply splitChars_joinChars
    · simpa using hrow row hr
    · intro f hf
      obtain ⟨s, hs, rfl⟩ := List.mem_map.1 hf
      exact (hplain row hr s hs).1
  · simpa using hne
  · intro line hl
    obtain ⟨row, hr, rfl⟩ := List.mem_map.1 hl
    apply not_mem_joinChars _ _ (by decide)
    intro f hf
    obtain ⟨s, hs, rfl⟩ := List.mem_map.1 hf
    exact (hplain row hr s hs).2

/-- The value `expense.description || ""` is the description, or the empty text
when there is none. -/
theorem descriptionOrEmpty_eq (d : Option String) : descriptionOrEmpty d = d.getD "" := by
  cases d with
  | none => simp [descriptionOrEmpty, truthy]
  | some s =>
    by_cases h : s = ""
    · simp [descriptionOrEmpty, truthy, h]
    · simp [descriptionOrEmpty, truthy, h]

/-- C29, amended: for a non-empty list of expenses whose date texts, categories and
descriptions hold neither a comma nor a line break, the text of either
`exportToCSV` splits on line breaks into the header line and one line per
expense in input order, and every line splits on commas into exactly four
fields, the fields of that expense. -/
theorem exportToCSV_table (formatDate : String → String) (expenses : List ClientExpense)
    (hne : expenses ≠ [])
    (hplain : ∀ e ∈ expenses, plainText (formatDate e.date) ∧ plainText e.date ∧
      plainText e.category ∧ plainText (e.description.getD "")) :
    (∃ csv, exportToCSV formatDate expenses = some csv ∧
      (splitChars '\n' csv.data).map (splitChars ',') =
        ["Date", "Category", "Description", "Amount"].map String.data ::
          expenses.map (fun e => [(formatDate e.date).data, e.category.data,
            (e.description.getD "").data, (toFixed2 e.amount).data]) ∧
      (splitChars '\n' csv.data).length = expenses.length + 1 ∧
      ∀ line ∈ splitChars '\n' csv.data, (splitChars ',' line).length = 4) ∧
    ((splitChars '\n' (exportToCSVPlain expenses).data).map (splitChars ',') =
        ["Date", "Category", "Description", "Amount"].map String.data ::
          expenses.map (fun e => [e.date.data, e.category.data,
            (e.description.getD "").data,
            (numberToString e.amount).data]) ∧
      (splitChars '\n' (exportToCSVPlain expenses).data).length = expenses.length + 1 ∧
      ∀ line ∈ splitChars '\n' (exportToCSVPlain expenses).data,
        (splitChars ',' line).length = 4) := by
  have hhead : ∀ f ∈ ["Date", "Category", "Description", "Amount"], plainText f := by
    unfold plainText; decide
  have finish : ∀ (text : List Char) (table : List (List (List Char))),
      (splitChars '\n' text).map (splitChars ',') = table →
      table.length = expenses.length + 1 → (∀ row ∈ table, row.length = 4) →
      (splitChars '\n' text).length = expenses.length + 1 ∧
        ∀ line ∈ splitChars '\n' text, (splitChars ',' line).length = 4 := by
    intro text table h hl h4
    constructor
    · rw [← hl, ← h, List.length_map]
    · intro line hline
      exact h4 _ (h ▸ List.mem_map_of_mem _ hline)
  constructor
  · refine ⟨csvString (csvRows formatDate expenses), ?_, ?_⟩
    · have : expenses.length ≠ 0 := by simpa using hne
      simp [exportToCSV, this]
    · have key := csvString_splits (csvRows formatDate expenses) (by simp [csvRows])
        (by
          intro row hr
          simp only [csvRows, List.mem_cons, List.mem_map] at hr
          rcases hr with rfl | ⟨e, _, rfl⟩ <;> simp)
        (by
          intro row hr f hf
          simp only [csvRows, List.mem_cons, List.mem_map] at hr
          rcases hr with rfl | ⟨e, he, rfl⟩
          · exact hhead f hf
          · obtain ⟨h1, _, h3, h4⟩ := hplain e he
            simp only [List.mem_cons, List.mem_singleton, List.not_mem_nil, or_false] at hf
            rcases hf with rfl | rfl | rfl | rfl
            · exact h1
            · exact h3
            · rw [descriptionOrEmpty_eq]; exact h4
            · exact toFixed2_plain _)
      have key2 : (splitChars '\n' (csvString (csvRows formatDate expenses)).data).map
          (splitChars ',') =
          ["Date", "Category", "Description", "Amount"].map String.data ::
            expenses.map (fun e => [(formatDate e.date).data, e.category.data,
              (e.description.getD "").data, (toFixed2 e.amount).data]) := by
        rw [key]
        simp [csvRows, descriptionOrEmpty_eq, Function.comp_def]
      refine ⟨key2, finish _ _ key2 (by simp) ?_⟩
      intro row hr
      simp only [List.mem_cons, List.mem_map] at hr
      rcases hr with rfl | ⟨e, _, rfl⟩ <;> simp
  · have key := csvString_splits
        (["Date", "Category", "Description", "Amount"] ::
          expenses.map (fun exp =>
            [exp.date, exp.category, exp.description.getD "",
             numberToString exp.amount]))
        (by simp)
        (by
          intro row hr
          simp only [List.mem_cons, List.mem_map] at hr
          rcases hr with rfl | ⟨e, _, rfl⟩ <;> simp)
        (by
          intro row hr f hf
          simp only [List.mem_cons, List.mem_map] at hr
          rcases hr with rfl | ⟨e, he, rfl⟩
          · exact hhead f hf
          · obtain ⟨_, h2, h3, h4⟩ := hplain e he
            simp only [List.mem_cons, List.mem_singleton, List.not_mem_nil, or_false] at hf
            rcases hf with rfl | rfl | rfl | rfl
            · exact h2
            · exact h3
            · exact h4
            · exact numberToString_plain _)
    have key2 : (splitChars '\n' (exportToCSVPlain expenses).data).map (splitChars ',') =
        ["Date", "Category", "Description", "Amount"].map String.data ::
          expenses.map (fun e => [e.date.data, e.category.data,
            (e.description.getD "").data,
            (numberToString e.amount).data]) := by
      unfold exportToCSVPlain
      rw [key]
      simp [Function.comp_def]
    refine ⟨key2, finish _ _ key2 (by simp) ?_⟩
    intro row hr
    simp only [List.mem_cons, List.mem_map] at hr
    rcases hr with rfl | ⟨e, _, rfl⟩ <;> simp

/-- Witness for C29: two expenses with plain texts (one with quotes) are exported
as a header line and two lines of four fields. -/
theorem exportToCSV_table_witness :
    exportToCSV (fun s => s) exportPlainExamples =
      some "Date,Category,Description,Amount\n2025-08-01,Food,Lunch \"out\",10.00\n2025-08-02,Bills,,-20.00" ∧
    (∃ csv, exportToCSV (fun s => s) exportPlainExamples = some csv ∧
      (splitChars '\n' csv.data).map (splitChars ',') =
        ["Date", "Category", "Description", "Amount"].map String.data ::
          exportPlainExamples.map (fun e => [e.date.data, e.category.data,
            (e.description.getD "").data, (toFixed2 e.amount).data]) ∧
      (splitChars '\n' csv.data).length = exportPlainExamples.length + 1 ∧
      ∀ line ∈ splitChars '\n' csv.data, (splitChars ',' line).length = 4) :=
  ⟨by decide,
   (exportToCSV_table (fun s => s) exportPlainExamples (by decide)
      (by unfold plainText; decide)).1⟩

/-- C29 as stated fails: a comma in a category gives a line of five fields, and
a line break in a description gives one line more than there are expenses, in
both `exportToCSV` functions. -/
theorem exportToCSV_comma_counterexample :
    exportExamples ≠ [] ∧
    exportToCSV (fun s => s) exportExamples =
      some "Date,Category,Description,Amount\n2025-08-01,Food,Lunch,10.00\n2025-08-02,Food, drinks,,20.00\n2025-08-03,Bills,Rent\nAugust,5.00" ∧
    (∃ csv, exportToCSV (fun s => s) exportExamples = some csv ∧
      (splitChars '\n' csv.data).length = 5 ∧
      exportExamples.length + 1 = 4 ∧
      ((splitChars '\n' csv.data).map (fun line => (splitChars ',' line).length)) =
        [4, 4, 5, 3, 2]) ∧
    ((splitChars '\n' (exportToCSVPlain exportExamples).data).map
        (fun line => (splitChars ',' line).length)) = [4, 4, 5, 3, 2] := by
  refine ⟨by decide, by decide, ⟨_, rfl, ?_, ?_, ?_⟩, ?_⟩ <;> decide

/-! ## The monthly report page -/

/-- The first day of a year lies within two days of the mean-year estimate. -/
theorem dayFromYear_approx (y : Int) :
    146097 * (y - 1970) - 506 ≤ 400 * dayFromYear y ∧
      400 * dayFromYear y ≤ 146097 * (y - 1970) + 589 := by
  unfold dayFromYear
  omega

/-- A year has 365 or 366 days. -/
theorem dayFromYear_step (y : Int) :
    dayFromYear y + 365 ≤ dayFromYear (y + 1) ∧ dayFromYear (y + 1) ≤ dayFromYear y + 366 := by
  rw [dayFromYear_succ]
  split <;> omega

/-- The year read from a time value is the year that holds its day. -/
theorem yearFromTime_spec (t : Int) :
    dayFromYear (yearFromTime t) ≤ dayOfTime t ∧
      dayOfTime t < dayFromYear (yearFromTime t + 1) := by
  have a1 := dayFromYear_approx (1970 + 400 * dayOfTime t / 146097 - 1)
  have a2 := dayFromYear_approx (1970 + 400 * dayOfTime t / 146097 + 1 + 1)
  have s0 := dayFromYear_step (1970 + 400 * dayOfTime t / 146097 - 1)
  have e0 : 1970 + 400 * dayOfTime t / 146097 - 1 + 1 = 1970 + 400 * dayOfTime t / 146097 := by
    omega
  rw [e0] at s0
  simp only [yearFromTime]
  split_ifs with h1 h2
  · exact ⟨h1, by omega⟩
  · exact ⟨h2, by omega⟩
  · rw [e0]
    exact ⟨by omega, by omega⟩

/-- The year that holds the day of a time value is the year read from it. -/
theorem yearFromTime_unique (t y : Int) (h1 : dayFromYear y ≤ dayOfTime t)
    (h2 : dayOfTime t < dayFromYear (y + 1)) : yearFromTime t = y := by
  have b1 := dayFromYear_approx y
  have b2 := dayFromYear_approx (y + 1)
  have hy : y = 1970 + 400 * dayOfTime t / 146097 - 1 ∨ y = 1970 + 400 * dayOfTime t / 146097 ∨
      y = 1970 + 400 * dayOfTime t / 146097 + 1 := by omega
  have s0 := dayFromYear_step (1970 + 400 * dayOfTime t / 146097 - 1)
  have s1 := dayFromYear_step (1970 + 400 * dayOfTime t / 146097)
  have s2 := dayFromYear_step (1970 + 400 * dayOfTime t / 146097 + 1)
  have e0 : 1970 + 400 * dayOfTime t / 146097 - 1 + 1 = 1970 + 400 * dayOfTime t / 146097 := by
    omega
  rw [e0] at s0
  simp only [yearFromTime]
  rcases hy with rfl | rfl | rfl
  · rw [e0] at h2
    split_ifs <;> omega
  · split_ifs <;> omega
  · rw [if_pos (by omega)]

/-- The leap-year test of `daysInMonth` is `inLeapYear`. -/
theorem daysInMonth_leap (y m : Int) :
    daysInMonth y m =
      if m = 2 then (if inLeapYear y then 29 else 28)
      else if m = 4 ∨ m = 6 ∨ m = 9 ∨ m = 11 then 30 else 31 := by
  unfold daysInMonth
  by_cases hleap : (y % 4 = 0 ∧ y % 100 ≠ 0) ∨ y % 400 = 0
  · rw [if_pos hleap, (inLeapYear_iff y).mpr hleap]
    rfl
  · have h : inLeapYear y = false := by
      cases hb : inLeapYear y
      · rfl
      · exact absurd ((inLeapYear_iff y).mp hb) hleap
    rw [if_neg hleap, h]
    rfl

/-- The month table of `monthFromDay`, month by month; `l` is the leap day. -/
theorem monthFromDay_table (leap : Bool) (d l : Int) (hl : l = if leap then 1 else 0) :
    (d < 31 → monthFromDay leap d = 0) ∧
    (31 ≤ d → d < 59 + l → monthFromDay leap d = 1) ∧
    (59 + l ≤ d → d < 90 + l → monthFromDay leap d = 2) ∧
    (90 + l ≤ d → d < 120 + l → monthFromDay leap d = 3) ∧
    (120 + l ≤ d → d < 151 + l → monthFromDay leap d = 4) ∧
    (151 + l ≤ d → d < 181 + l → monthFromDay leap d = 5) ∧
    (181 + l ≤ d → d < 212 + l → monthFromDay leap d = 6) ∧
    (212 + l ≤ d → d < 243 + l → monthFromDay leap d = 7) ∧
    (243 + l ≤ d → d < 273 + l → monthFromDay leap d = 8) ∧
    (273 + l ≤ d → d < 304 + l → monthFromDay leap d = 9) ∧
    (304 + l ≤ d → d < 334 + l → monthFromDay leap d = 10) ∧
    (334 + l ≤ d → monthFromDay leap d = 11) := by
  have h0 : 0 ≤ l := by rw [hl]; split <;> decide
  unfold monthFromDay
  dsimp only
  rw [← hl]
  clear hl
  refine ⟨?_, ?_, ?_, ?_, ?_, ?_, ?_, ?_, ?_, ?_, ?_, ?_⟩ <;> intros <;>
    repeat (first | rw [if_pos (by omega)] | rw [if_neg (by omega)])

/-- The days before each month of a year; `l` is the leap day. -/
theorem daysBeforeMonth_values (leap : Bool) (l : Int) (hl : l = if leap then 1 else 0) :
    daysBeforeMonth leap 0 = 0 ∧ daysBeforeMonth leap 1 = 31 ∧
    daysBeforeMonth leap 2 = 59 + l ∧ daysBeforeMonth leap 3 = 90 + l ∧
    daysBeforeMonth leap 4 = 120 + l ∧ daysBeforeMonth leap 5 = 151 + l ∧
    daysBeforeMonth leap 6 = 181 + l ∧ daysBeforeMonth leap 7 = 212 + l ∧
    daysBeforeMonth leap 8 = 243 + l ∧ daysBeforeMonth leap 9 = 273 + l ∧
    daysBeforeMonth leap 10 = 304 + l ∧ daysBeforeMonth leap 11 = 334 + l := by
  subst hl
  cases leap <;> decide

/-- The length of each month of a year; `l` is the leap day. -/
theorem daysInMonth_values (y l : Int) (hl : l = if inLeapYear y then 1 else 0) :
    daysInMonth y (0 + 1) = 31 ∧ daysInMonth y (1 + 1) = 28 + l ∧
    daysInMonth y (2 + 1) = 31 ∧ daysInMonth y (3 + 1) = 30 ∧
    daysInMonth y (4 + 1) = 31 ∧ daysInMonth y (5 + 1) = 30 ∧
    daysInMonth y (6 + 1) = 31 ∧ daysInMonth y (7 + 1) = 31 ∧
    daysInMonth y (8 + 1) = 30 ∧ daysInMonth y (9 + 1) = 31 ∧
    daysInMonth y (10 + 1) = 30 ∧ daysInMonth y (11 + 1) = 31 := by
  subst hl
  simp only [daysInMonth_leap]
  generalize inLeapYear y = leap
  cases leap <;> decide

/-- The month table puts every day of a year in a month, on one of its days. -/
theorem monthFromDay_range (y d : Int) (h0 : 0 ≤ d)
    (h1 : d < 365 + (if inLeapYear y then 1 else 0)) :
    0 ≤ monthFromDay (inLeapYear y) d ∧ monthFromDay (inLeapYear y) d ≤ 11 ∧
      1 ≤ d + 1 - daysBeforeMonth (inLeapYear y) (monthFromDay (inLeapYear y) d) ∧
      d + 1 - daysBeforeMonth (inLeapYear y) (monthFromDay (inLeapYear y) d) ≤
        daysInMonth y (monthFromDay (inLeapYear y) d + 1) := by
  obtain ⟨l, hl⟩ : ∃ l : Int, l = if inLeapYear y then 1 else 0 := ⟨_, rfl⟩
  have hl01 : 0 ≤ l ∧ l ≤ 1 := by rw [hl]; split <;> decide
  rw [← hl] at h1
  have bv := fun (_ : Unit) => daysBeforeMonth_values (inLeapYear y) l hl
  have nv := fun (_ : Unit) => daysInMonth_values y l hl
  have tbl := fun k => monthFromDay_table (inLeapYear y) k l hl
  clear hl
  by_cases c0 : d < 31
  · rw [(tbl d).1 c0, (bv ()).1, (nv ()).1]; omega
  by_cases c1 : d < 59 + l
  · rw [(tbl d).2.1 (by omega) c1, (bv ()).2.1, (nv ()).2.1]; omega
  by_cases c2 : d < 90 + l
  · rw [(tbl d).2.2.1 (by omega) c2, (bv ()).2.2.1, (nv ()).2.2.1]; omega
  by_cases c3 : d < 120 + l
  · rw [(tbl d).2.2.2.1 (by omega) c3, (bv ()).2.2.2.1, (nv ()).2.2.2.1]; omega
  by_cases c4 : d < 151 + l
  · rw [(tbl d).2.2.2.2.1 (by omega) c4, (bv ()).2.2.2.2.1, (nv ()).2.2.2.2.1]; omega
  by_cases c5 : d < 181 + l
  · rw [(tbl d).2.2.2.2.2.1 (by omega) c5, (bv ()).2.2.2.2.2.1, (nv ()).2.2.2.2.2.1]; omega
  by_cases c6 : d < 212 + l
  · rw [(tbl d).2.2.2.2.2.2.1 (by omega) c6, (bv ()).2.2.2.2.2.2.1, (nv ()).2.2.2.2.2.2.1]; omega
  by_cases c7 : d < 243 + l
  · rw [(tbl d).2.2.2.2.2.2.2.1 (by omega) c7, (bv ()).2.2.2.2.2.2.2.1, (nv ()).2.2.2.2.2.2.2.1]; omega
  by_cases c8 : d < 273 + l
  · rw [(tbl d).2.2.2.2.2.2.2.2.1 (by omega) c8, (bv ()).2.2.2.2.2.2.2.2.1, (nv ()).2.2.2.2.2.2.2.2.1]; omega
  by_cases c9 : d < 304 + l
  · rw [(tbl d).2.2.2.2.2.2.2.2.2.1 (by omega) c9, (bv ()).2.2.2.2.2.2.2.2.2.1, (nv ()).2.2.2.2.2.2.2.2.2.1]; omega
  by_cases c10 : d < 334 + l
  · rw [(tbl d).2.2.2.2.2.2.2.2.2.2.1 (by omega) c10, (bv ()).2.2.2.2.2.2.2.2.2.2.1, (nv ()).2.2.2.2.2.2.2.2.2.2.1]; omega
  · rw [(tbl d).2.2.2.2.2.2.2.2.2.2.2 (by omega), (bv ()).2.2.2.2.2.2.2.2.2.2.2, (nv ()).2.2.2.2.2.2.2.2.2.2.2]; omega

/-- The month table reads back the month of a day given by month and date. -/
theorem monthFromDay_of (y m date : Int) (h0 : 0 ≤ m) (h11 : m ≤ 11) (hd1 : 1 ≤ date)
    (hd2 : date ≤ daysInMonth y (m + 1)) :
    monthFromDay (inLeapYear y) (daysBeforeMonth (inLeapYear y) m + date - 1) = m ∧
      0 ≤ daysBeforeMonth (inLeapYear y) m + date - 1 ∧
      daysBeforeMonth (inLeapYear y) m + date - 1 < 365 + (if inLeapYear y then 1 else 0) := by
  obtain ⟨l, hl⟩ : ∃ l : Int, l = if inLeapYear y then 1 else 0 := ⟨_, rfl⟩
  have hl01 : 0 ≤ l ∧ l ≤ 1 := by rw [hl]; split <;> decide
  rw [← hl]
  have bv := fun (_ : Unit) => daysBeforeMonth_values (inLeapYear y) l hl
  have nv := fun (_ : Unit) => daysInMonth_values y l hl
  have tbl := fun k => monthFromDay_table (inLeapYear y) k l hl
  clear hl
  interval_cases m
  · rw [(nv ()).1] at hd2; rw [(bv ()).1]
    exact ⟨(tbl _).1 (by omega), by omega, by omega⟩
  · rw [(nv ()).2.1] at hd2; rw [(bv ()).2.1]
    exact ⟨(tbl _).2.1 (by omega) (by omega), by omega, by omega⟩
  · rw [(nv ()).2.2.1] at hd2; rw [(bv ()).2.2.1]
    exact ⟨(tbl _).2.2.1 (by omega) (by omega), by omega, by omega⟩
  · rw [(nv ()).2.2.2.1] at hd2; rw [(bv ()).2.2.2.1]
    exact ⟨(tbl _).2.2.2.1 (by omega) (by omega), by omega, by omega⟩
  · rw [(nv ()).2.2.2.2.1] at hd2; rw [(bv ()).2.2.2.2.1]
    exact ⟨(tbl _).2.2.2.2.1 (by omega) (by omega), by omega, by omega⟩
  · rw [(nv ()).2.2.2.2.2.1] at hd2; rw [(bv ()).2.2.2.2.2.1]
    exact ⟨(tbl _).2.2.2.2.2.1 (by omega) (by omega), by omega, by omega⟩
  · rw [(nv ()).2.2.2.2.2.2.1] at hd2; rw [(bv ()).2.2.2.2.2.2.1]
    exact ⟨(tbl _).2.2.2.2.2.2.1 (by omega) (by omega), by omega, by omega⟩
  · rw [(nv ()).2.2.2.2.2.2.2.1] at hd2; rw [(bv ()).2.2.2.2.2.2.2.1]
    exact ⟨(tbl _).2.2.2.2.2.2.2.1 (by omega) (by omega), by omega, by omega⟩
  · rw [(nv ()).2.2.2.2.2.2.2.2.1] at hd2; rw [(bv ()).2.2.2.2.2.2.2.2.1]
    exact ⟨(tbl _).2.2.2.2.2.2.2.2.1 (by omega) (by omega), by omega, by omega⟩
  · rw [(nv ()).2.2.2.2.2.2.2.2.2.1] at hd2; rw [(bv ()).2.2.2.2.2.2.2.2.2.1]
    exact ⟨(tbl _).2.2.2.2.2.2.2.2.2.1 (by omega) (by omega), by omega, by omega⟩
  · rw [(nv ()).2.2.2.2.2.2.2.2.2.2.1] at hd2; rw [(bv ()).2.2.2.2.2.2.2.2.2.2.1]
    exact ⟨(tbl _).2.2.2.2.2.2.2.2.2.2.1 (by omega) (by omega), by omega, by omega⟩
  · rw [(nv ()).2.2.2.2.2.2.2.2.2.2.2] at hd2; rw [(bv ()).2.2.2.2.2.2.2.2.2.2.2]
    exact ⟨(tbl _).2.2.2.2.2.2.2.2.2.2.2 (by omega), by omega, by omega⟩

/-- A time value lies in a month of its year, on one of the days of that month. -/
theorem dateFromTime_range (t : Int) :
    0 ≤ monthFromTime t ∧ monthFromTime t ≤ 11 ∧ 1 ≤ dateFromTime t ∧
      dateFromTime t ≤ daysInMonth (yearFromTime t) (monthFromTime t + 1) := by
  have sp := yearFromTime_spec t
  have su := dayFromYear_succ (yearFromTime t)
  have h0 : 0 ≤ dayWithinYear t := by unfold dayWithinYear; omega
  have h1 : dayWithinYear t < 365 + (if inLeapYear (yearFromTime t) then 1 else 0) := by
    unfold dayWithinYear; omega
  exact monthFromDay_range (yearFromTime t) (dayWithinYear t) h0 h1

/-- A time value on day `date` of month `m` (0-based) of year `y` is read back as
that year, month and date. -/
theorem date_read_back (t y m date : Int) (h0 : 0 ≤ m) (h11 : m ≤ 11) (hd1 : 1 ≤ date)
    (hd2 : date ≤ daysInMonth y (m + 1)) (ht : dayOfTime t = makeDay y m date) :
    yearFromTime t = y ∧ monthFromTime t = m ∧ dateFromTime t = date := by
  obtain ⟨hm, hlo, hhi⟩ := monthFromDay_of y m date h0 h11 hd1 hd2
  have su := dayFromYear_succ y
  have e1 : m / 12 = 0 := by omega
  have e2 : m % 12 = m := by omega
  have hday : dayOfTime t = dayFromYear y + (daysBeforeMonth (inLeapYear y) m + date - 1) := by
    rw [ht]
    simp only [makeDay, e1, e2, add_zero]
    omega
  have hy : yearFromTime t = y := by
    apply yearFromTime_unique
    · omega
    · rw [su]; omega
  have hw : dayWithinYear t = daysBeforeMonth (inLeapYear y) m + date - 1 := by
    unfold dayWithinYear
    rw [hy]
    omega
  refine ⟨hy, ?_, ?_⟩
  · unfold monthFromTime
    rw [hy, hw, hm]
  · unfold dateFromTime monthFromTime
    rw [hy, hw, hm]
    omega

/-- The constructor `new Date(year, month + 1, 0)` gives a date whose day of the
month is the number of days of the month. -/
theorem newDateLocal_last_day (b : Browser) (y m : Int) (hy : 100 ≤ y ∧ y ≤ 275759)
    (hm : 0 ≤ m ∧ m ≤ 11) (hz : -86400000 ≤ b.offset ∧ b.offset ≤ 86400000) :
    getDate b (newDateLocal b y (m + 1) 0) = some (daysInMonth y (m + 1)) := by
  have hfull : makeFullYear y = y := by
    unfold makeFullYear
    rw [if_neg (by omega)]
  have hdim := daysInMonth_bounds y (m + 1)
  have hbm := daysBeforeMonth_bounds (inLeapYear y) m hm.1 hm.2
  have hdy := dayFromYear_bounds y (by omega) hy.2
  have e1 : m / 12 = 0 := by omega
  have e2 : m % 12 = m := by omega
  have hday : makeDay y m (daysInMonth y (m + 1)) =
      dayFromYear y + daysBeforeMonth (inLeapYear y) m + daysInMonth y (m + 1) - 1 := by
    simp only [makeDay, e1, e2, add_zero]
  have hrange : -99999900 ≤ makeDay y m (daysInMonth y (m + 1)) ∧
      makeDay y m (daysInMonth y (m + 1)) ≤ 99999966 := by
    rw [hday]
    generalize dayFromYear y = a at hdy ⊢
    generalize daysBeforeMonth (inLeapYear y) m = c at hbm ⊢
    generalize daysInMonth y (m + 1) = e at hdim ⊢
    omega
  obtain ⟨-, -, hdate⟩ := date_read_back
    (makeDay y m (daysInMonth y (m + 1)) * 86400000) y m (daysInMonth y (m + 1))
    hm.1 hm.2 (by omega) (le_refl _) (by unfold dayOfTime; omega)
  unfold newDateLocal
  rw [hfull, makeDay_next_month_zero y m hm.1 hm.2]
  generalize makeDay y m (daysInMonth y (m + 1)) = k at hrange hdate
  have hclip : timeClip (makeDate k (makeTime 0 0 0 0) - b.offset) =
      some (k * 86400000 - b.offset) := by
    unfold timeClip makeDate makeTime
    rw [if_pos (by omega)]
    congr 1
    omega
  rw [hclip]
  simp only [getDate, Option.map_some', localTime]
  rw [show k * 86400000 - b.offset + b.offset = k * 86400000 by omega, hdate]

/-- An expense kept by the filter has a date that can be read, in the selected
month and year, on one of the days of that month. -/
theorem filtered_day (b : Browser) (expenses : List ClientExpense) (m y : Int)
    (e : ClientExpense) (he : e ∈ filteredExpenses b expenses m y) :
    ∃ d, getDate b (b.parse e.date) = some d ∧ 1 ≤ d ∧ d ≤ daysInMonth y (m + 1) := by
  unfold filteredExpenses at he
  obtain ⟨-, hk⟩ := List.mem_filter.1 he
  simp only [Bool.and_eq_true, decide_eq_true_eq] at hk
  obtain ⟨hmo, hye⟩ := hk
  cases hp : b.parse e.date with
  | none => simp [hp, getMonth] at hmo
  | some t =>
    simp only [hp, getMonth, getFullYear, Option.map_some', Option.some.injEq] at hmo hye
    have hr := dateFromTime_range (localTime b t)
    rw [hmo, hye] at hr
    exact ⟨dateFromTime (localTime b t), by simp [getDate], hr.2.2.1, hr.2.2.2⟩

/-- Adding an amount on a day that is a key of the map changes the value at
that key and nothing else. -/
theorem addToDay_row (d : Int) (a : Number) (f : Int → Number) :
    ∀ ks : List Int, ks.Pairwise (fun x y => x < y) → d ∈ ks →
      addToDay (dayRow ks f) (some d) a = dayRow ks (fun k => if k = d then f k + a else f k)
  | [], _, hd => by simp at hd
  | k :: rest, hs, hd => by
    obtain ⟨hk, hrest⟩ := List.pairwise_cons.1 hs
    by_cases hkd : k = d
    · subst hkd
      have hsame : dayRow rest (fun x => if x = k then f x + a else f x) = dayRow rest f := by
        unfold dayRow
        apply List.map_congr_left
        intro x hx
        have hx2 : x ≠ k := by
          have := hk x hx
          omega
        simp [hx2]
      simp only [dayRow, List.map_cons, addToDay, if_true, numAdd] at hsame ⊢
      rw [hsame]
    · have hmem : d ∈ rest := by
        rcases List.mem_cons.1 hd with h | h
        · exact absurd h.symm hkd
        · exact h
      have hlt := hk d hmem
      have ih := addToDay_row d a f rest hrest hmem
      have hne : ¬ (some k = some d) := by simpa using hkd
      have hkb : keyBefore (some d) (some k) = false := by
        simp only [keyBefore, decide_eq_false_iff_not]
        omega
      simp only [dayRow, List.map_cons, addToDay, if_neg hne, hkb, if_neg hkd] at ih ⊢
      rw [ih]
      simp

/-- Filling the map from expenses dated on its keys adds, at every key, the
amounts of the expenses of that day in the order of the list. -/
theorem foldl_addToDay (b : Browser) (ks : List Int) (hs : ks.Pairwise (fun x y => x < y)) :
    ∀ (es : List ClientExpense) (f : Int → Number),
      (∀ e ∈ es, ∃ d, getDate b (b.parse e.date) = some d ∧ d ∈ ks) →
      es.foldl (fun dayMap expense =>
          addToDay dayMap (getDate b (b.parse expense.date)) expense.amount) (dayRow ks f) =
        dayRow ks (fun k =>
          ((es.filter (fun e => decide (getDate b (b.parse e.date) = some k))).map
            (fun e => e.amount)).foldl (fun acc x => acc + x) (f k))
  | [], f, _ => by simp
  | e :: es, f, h => by
    obtain ⟨d, hd, hmem⟩ := h e (by simp)
    rw [List.foldl_cons, hd, addToDay_row d e.amount f ks hs hmem,
      foldl_addToDay b ks hs es _ (fun x hx => h x (List.mem_cons_of_mem _ hx))]
    unfold dayRow
    apply List.map_congr_left
    intro k _
    dsimp only
    by_cases hkd : k = d
    · subst hkd
      simp [List.filter_cons, hd]
    · have : ¬ (d = k) := fun hh => hkd hh.symm
      simp [List.filter_cons, hd, hkd, this]

/-- The days 1 to `n` are in ascending order. -/
theorem daysUpTo_sorted (n : Nat) : (daysUpTo n).Pairwise (fun x y => x < y) := by
  unfold daysUpTo
  refine List.Pairwise.map _ ?_ (List.pairwise_lt_range n)
  intro i j h
  show (i : Int) + 1 < (j : Int) + 1
  omega

/-- The days 1 to `n` are the integers from 1 to `n`. -/
theorem mem_daysUpTo (n : Nat) (d : Int) (h1 : 1 ≤ d) (h2 : d ≤ n) : d ∈ daysUpTo n := by
  unfold daysUpTo
  rw [List.mem_map]
  refine ⟨(d - 1).toNat, List.mem_range.2 ?_, ?_⟩ <;> omega

/-- The running totals of a list of numbers are the sums of its beginnings. -/
theorem cumulativeData_take :
    ∀ (vs : List Number) (r : Number), cumulativeData (some r) (vs.map some) =
      (List.range vs.length).map
        (fun i => some ((vs.take (i + 1)).foldl (fun acc x => acc + x) r))
  | [], r => by simp [cumulativeData]
  | v :: vs, r => by
    simp only [List.map_cons, cumulativeData, numAdd, List.length_cons]
    rw [cumulativeData_take vs (r + v), List.range_succ_eq_map, List.map_cons, List.map_map]
    simp only [List.take_succ_cons, List.foldl_cons, List.take_zero, List.foldl_nil,
      List.cons.injEq, true_and]
    apply List.map_congr_left
    intro i _
    simp only [Function.comp, List.take_succ_cons, List.foldl_cons]

/-- The total spent up to a day is the total up to the day before plus the
total of the day. -/
theorem totalUpTo_succ (b : Browser) (es : List ClientExpense) (d : Nat) :
    totalUpTo b es (d + 1) = totalUpTo b es d + dayTotal b es ((d : Int) + 1) := by
  unfold totalUpTo sumFromZero
  rw [List.range_succ, List.map_append, List.foldl_append]
  rfl

/-- The beginning of the list of daily totals sums to the total up to that day. -/
theorem take_dayTotals (b : Browser) (es : List ClientExpense) (n i : Nat) (hi : i < n) :
    (((List.range n).map (fun (j : Nat) => dayTotal b es ((j : Int) + 1))).take (i + 1)).foldl
      (fun acc x => acc + x) 0 = totalUpTo b es (i + 1) := by
  unfold totalUpTo sumFromZero
  rw [← List.map_take, List.take_range, Nat.min_eq_left (by omega)]

/-- A sum, from 0 or from a number that is not negative, of numbers that are
not negative is not negative. -/
theorem foldl_nonneg : ∀ (xs : List Number) (r : Number), 0 ≤ r → (∀ x ∈ xs, 0 ≤ x) →
    0 ≤ xs.foldl (fun acc x => acc + x) r
  | [], r, hr, _ => hr
  | x :: xs, r, hr, h => by
    rw [List.foldl_cons]
    exact foldl_nonneg xs (r + x) (Number.add_nonneg r x hr (h x (by simp)))
      (fun y hy => h y (List.mem_cons_of_mem _ hy))

/-- The total of a day is not negative when no amount is. -/
theorem dayTotal_nonneg (b : Browser) (k : Int) (es : List ClientExpense)
    (h : ∀ e ∈ es, 0 ≤ e.amount) : 0 ≤ dayTotal b es k := by
  unfold dayTotal sumFromZero
  apply foldl_nonneg _ _ (le_refl _)
  intro x hx
  obtain ⟨e, he, rfl⟩ := List.mem_map.1 hx
  exact h e (List.mem_filter.1 he).1

/-- The total spent up to a day does not fall from one day to a later one when
no amount is negative. -/
theorem totalUpTo_mono (b : Browser) (es : List ClientExpense) (h : ∀ e ∈ es, 0 ≤ e.amount)
    (i j : Nat) (hi : 1 ≤ i) (hij : i ≤ j) : totalUpTo b es i ≤ totalUpTo b es j := by
  induction j with
  | zero => omega
  | succ j ih =>
    by_cases he : i = j + 1
    · rw [he]
    · have h1 := ih (by omega)
      obtain ⟨k, rfl⟩ : ∃ k, j = k + 1 := ⟨j - 1, by omega⟩
      have hd : roundUnits (totalUpTo b es (k + 1)).units = (totalUpTo b es (k + 1)).units := by
        rw [totalUpTo_succ]
        exact Number.add_isDouble _ _
      have h2 := Number.le_add (totalUpTo b es (k + 1)) (dayTotal b es (((k + 1 : Nat) : Int) + 1))
        hd (dayTotal_nonneg b _ es h)
      rw [totalUpTo_succ b es (k + 1)]
      exact le_trans h1 h2

/-! ### Whole amounts -/

theorem dayWhole_cons (b : Browser) (e : ClientExpense) (es : List ClientExpense) (k : Int) :
    dayWhole b (e :: es) k =
      (if getDate b (b.parse e.date) = some k then e.amount.whole else 0) + dayWhole b es k := by
  unfold dayWhole wholeSum
  by_cases h : getDate b (b.parse e.date) = some k
  · simp [List.filter_cons, h]
  · simp [List.filter_cons, h]

/-- One expense counts on exactly one of the days 1 to `n`, if its day is one
of them. -/
theorem sum_one_day (key : Option Int) (a : Nat) :
    ∀ n : Nat, ((List.range n).map
        (fun (j : Nat) => if key = some ((j : Int) + 1) then a else 0)).sum =
      if ∃ d : Int, key = some d ∧ 1 ≤ d ∧ d ≤ n then a else 0
  | 0 => by
    have : ¬ ∃ d : Int, key = some d ∧ 1 ≤ d ∧ d ≤ ((0 : Nat) : Int) := by
      rintro ⟨d, -, h1, h2⟩
      omega
    rw [if_neg this]
    rfl
  | n + 1 => by
    rw [List.range_succ, List.map_append, List.sum_append, sum_one_day key a n]
    simp only [List.map_cons, List.map_nil, List.sum_cons, List.sum_nil, add_zero]
    by_cases h1 : ∃ d : Int, key = some d ∧ 1 ≤ d ∧ d ≤ (n : Int)
    · obtain ⟨d, hk, hd1, hd2⟩ := h1
      have hne : ¬ (key = some ((n : Int) + 1)) := by
        rw [hk]
        intro hh
        have := Option.some.inj hh
        omega
      rw [if_pos ⟨d, hk, hd1, hd2⟩, if_neg hne, if_pos ⟨d, hk, hd1, by push_cast; omega⟩]
      omega
    · rw [if_neg h1]
      by_cases h2 : key = some ((n : Int) + 1)
      · rw [if_pos h2, if_pos ⟨(n : Int) + 1, h2, by omega, by push_cast; omega⟩]
        omega
      · have : ¬ ∃ d : Int, key = some d ∧ 1 ≤ d ∧ d ≤ ((n + 1 : Nat) : Int) := by
          rintro ⟨d, hk, hd1, hd2⟩
          by_cases hdn : d ≤ (n : Int)
          · exact h1 ⟨d, hk, hd1, hdn⟩
          · apply h2
            rw [hk]
            congr 1
            push_cast at hd2
            omega
        rw [if_neg h2, if_neg this]

/-- The whole parts of the days 1 to `n` add up to the whole parts of all
amounts when every expense is dated on one of these days. -/
theorem dayWhole_all (b : Browser) (n : Nat) :
    ∀ es : List ClientExpense,
      (∀ e ∈ es, ∃ d : Int, getDate b (b.parse e.date) = some d ∧ 1 ≤ d ∧ d ≤ n) →
      ((List.range n).map (fun (j : Nat) => dayWhole b es ((j : Int) + 1))).sum =
        wholeSum (es.map (fun e => e.amount))
  | [], _ => by simp [dayWhole, wholeSum]
  | e :: es, h => by
    have ih := dayWhole_all b n es (fun x hx => h x (List.mem_cons_of_mem _ hx))
    have hsplit : ((List.range n).map (fun (j : Nat) => dayWhole b (e :: es) ((j : Int) + 1))).sum =
        ((List.range n).map (fun (j : Nat) =>
          if getDate b (b.parse e.date) = some ((j : Int) + 1) then e.amount.whole else 0)).sum +
        ((List.range n).map (fun (j : Nat) => dayWhole b es ((j : Int) + 1))).sum := by
      rw [← List.sum_map_add]
      congr 1
      apply List.map_congr_left
      intro j _
      exact dayWhole_cons b e es _
    rw [hsplit, sum_one_day, if_pos (h e (by simp)), ih]
    simp [wholeSum]

/-- The value `totalAmount` is the sum of the amounts from 0, in the order of
the list. -/
theorem totalAmount_sum (es : List ClientExpense) :
    totalAmount es = sumFromZero (es.map (fun e => e.amount)) := by
  unfold totalAmount sumFromZero
  rw [List.foldl_map]

/-- With whole amounts the total of a day is exact. -/
theorem dayTotal_whole (b : Browser) (es : List ClientExpense) (k : Int)
    (hw : WholeAmounts (es.map (fun e => e.amount))) :
    dayTotal b es k = Number.ofNat (dayWhole b es k) := by
  unfold dayTotal dayWhole
  exact sumFromZero_whole _ (wholeAmounts_sublist _ _ ((List.filter_sublist _).map _) hw)

/-- With whole amounts, each dated on one of the days 1 to `n`, the total up
to day `n` is the exact sum of all amounts. -/
theorem totalUpTo_whole (b : Browser) (n : Nat) (es : List ClientExpense)
    (hday : ∀ e ∈ es, ∃ d : Int, getDate b (b.parse e.date) = some d ∧ 1 ≤ d ∧ d ≤ n)
    (hw : WholeAmounts (es.map (fun e => e.amount))) :
    totalUpTo b es n = Number.ofNat (wholeSum (es.map (fun e => e.amount))) := by
  have hlist : (List.range n).map (fun (j : Nat) => dayTotal b es ((j : Int) + 1)) =
      (List.range n).map (fun (j : Nat) => Number.ofNat (dayWhole b es ((j : Int) + 1))) := by
    apply List.map_congr_left
    intro j _
    exact dayTotal_whole b es _ hw
  have hsum : wholeSum ((List.range n).map
      (fun (j : Nat) => Number.ofNat (dayWhole b es ((j : Int) + 1)))) =
      wholeSum (es.map (fun e => e.amount)) := by
    have hfun : (fun (j : Nat) => (Number.ofNat (dayWhole b es ((j : Int) + 1))).whole) =
        fun (j : Nat) => dayWhole b es ((j : Int) + 1) :=
      funext (fun j => Number.whole_ofNat _)
    calc wholeSum ((List.range n).map
          (fun (j : Nat) => Number.ofNat (dayWhole b es ((j : Int) + 1))))
        = ((List.range n).map
            (fun (j : Nat) => (Number.ofNat (dayWhole b es ((j : Int) + 1))).whole)).sum := by
          simp only [wholeSum, List.map_map, Function.comp_def]
      _ = ((List.range n).map (fun (j : Nat) => dayWhole b es ((j : Int) + 1))).sum := by
          rw [hfun]
      _ = wholeSum (es.map (fun e => e.amount)) := dayWhole_all b n es hday
  unfold totalUpTo
  rw [hlist, sumFromZero_whole, hsum]
  constructor
  · intro x hx
    obtain ⟨j, _, rfl⟩ := List.mem_map.1 hx
    exact isWhole_ofNat _
  · rw [hsum]
    exact hw.2

/-- C30 (amended): in MonthlyReport, for a month and a year that the page offers
for selection (a month index from 0 to 11, a year of the list `years`; the
clock of the browser shows a year from 105 to 275759 and local time is within
a day of UTC) and every list of expenses, `expensesByDay` has exactly the keys
1 to the number of days of the month, in this order, the value of day `d` is
the sum of the amounts of the filtered expenses dated on day `d` as
floating-point addition gives it in the order of the list, the cumulative
series has one point per day and its `d`-th point is the sum, so computed, of
the values of the days 1 to `d`; the series does not fall when no amount is
negative. When the amounts are whole numbers adding up to at most 2^53, the
last point is `totalAmount`, the exact sum. -/
theorem monthlyReport_by_day (b : Browser) (expenses : List ClientExpense)
    (selectedMonth selectedYear : Int)
    (hmonth : 0 ≤ selectedMonth ∧ selectedMonth ≤ 11)
    (hyear : selectedYear ∈ years b)
    (hclock : 105 ≤ currentYear b ∧ currentYear b ≤ 275759)
    (hzone : -86400000 ≤ b.offset ∧ b.offset ≤ 86400000) :
    expensesByDay b (filteredExpenses b expenses selectedMonth selectedYear)
        selectedMonth selectedYear =
      (List.range (daysInMonth selectedYear (selectedMonth + 1)).toNat).map
        (fun (i : Nat) => (some ((i : Int) + 1),
          some (dayTotal b (filteredExpenses b expenses selectedMonth selectedYear)
            ((i : Int) + 1)))) ∧
    (lineChartData (expensesByDay b (filteredExpenses b expenses selectedMonth selectedYear)
        selectedMonth selectedYear)).labels =
      (List.range (daysInMonth selectedYear (selectedMonth + 1)).toNat).map
        (fun (i : Nat) => some ((i : Int) + 1)) ∧
    (lineChartData (expensesByDay b (filteredExpenses b expenses selectedMonth selectedYear)
        selectedMonth selectedYear)).data =
      (List.range (daysInMonth selectedYear (selectedMonth + 1)).toNat).map
        (fun (i : Nat) => some (totalUpTo b
          (filteredExpenses b expenses selectedMonth selectedYear) (i + 1))) ∧
    ((∀ e ∈ filteredExpenses b expenses selectedMonth selectedYear, 0 ≤ e.amount) →
      ((List.range (daysInMonth selectedYear (selectedMonth + 1)).toNat).map
        (fun (i : Nat) => totalUpTo b
          (filteredExpenses b expenses selectedMonth selectedYear) (i + 1))).Pairwise
        (fun x y => x ≤ y)) ∧
    (WholeAmounts ((filteredExpenses b expenses selectedMonth selectedYear).map
        (fun e => e.amount)) →
      (lineChartData (expensesByDay b (filteredExpenses b expenses selectedMonth selectedYear)
          selectedMonth selectedYear)).data.getLast? =
        some (some (totalAmount (filteredExpenses b expenses selectedMonth selectedYear))) ∧
      totalAmount (filteredExpenses b expenses selectedMonth selectedYear) =
        Number.ofNat (wholeSum ((filteredExpenses b expenses selectedMonth selectedYear).map
          (fun e => e.amount)))) := by
  have hyr : 100 ≤ selectedYear ∧ selectedYear ≤ 275759 := by
    unfold years at hyear
    obtain ⟨i, hi, rfl⟩ := List.mem_map.1 hyear
    have := List.mem_range.1 hi
    omega
  have hlast := newDateLocal_last_day b selectedYear selectedMonth hyr hmonth hzone
  have hdim := daysInMonth_bounds selectedYear (selectedMonth + 1)
  generalize hf : filteredExpenses b expenses selectedMonth selectedYear = filtered
  have hday : ∀ e ∈ filtered, ∃ d, getDate b (b.parse e.date) = some d ∧ 1 ≤ d ∧
      d ≤ daysInMonth selectedYear (selectedMonth + 1) := by
    intro e he
    exact filtered_day b expenses selectedMonth selectedYear e (hf ▸ he)
  generalize hn : (daysInMonth selectedYear (selectedMonth + 1)).toNat = n
  have hcast : daysInMonth selectedYear (selectedMonth + 1) = (n : Int) := by omega
  rw [hcast] at hday hlast
  clear hyear hclock hzone hf
  have hmap : expensesByDay b filtered selectedMonth selectedYear =
      (List.range n).map
        (fun (i : Nat) => (some ((i : Int) + 1), some (dayTotal b filtered ((i : Int) + 1)))) := by
    have hinit : initDayMap (some (n : Int)) = dayRow (daysUpTo n) (fun _ => 0) := by
      simp [initDayMap, dayRow, daysUpTo, List.map_map, Function.comp_def]
    unfold expensesByDay
    simp only [hlast, hinit]
    rw [foldl_addToDay b (daysUpTo n) (daysUpTo_sorted n) filtered (fun _ => 0)]
    · simp [dayRow, daysUpTo, List.map_map, Function.comp_def, dayTotal, sumFromZero]
    · intro e he
      obtain ⟨d, hd, h1, h2⟩ := hday e he
      exact ⟨d, hd, mem_daysUpTo n d h1 h2⟩
  have hdata : (lineChartData (expensesByDay b filtered selectedMonth selectedYear)).data =
      (List.range n).map (fun (i : Nat) => some (totalUpTo b filtered (i + 1))) := by
    have hvals : ((List.range n).map (fun (i : Nat) =>
        ((some ((i : Int) + 1) : Option Int), some (dayTotal b filtered ((i : Int) + 1))))).map
        Prod.snd =
        ((List.range n).map (fun (j : Nat) => dayTotal b filtered ((j : Int) + 1))).map some := by
      simp [List.map_map, Function.comp_def]
    simp only [lineChartData, hmap]
    rw [hvals, cumulativeData_take, List.length_map, List.length_range]
    apply List.map_congr_left
    intro i hi
    rw [take_dayTotals b filtered n i (List.mem_range.1 hi)]
  refine ⟨hmap, ?_, hdata, ?_, ?_⟩
  · simp [lineChartData, hmap, List.map_map, Function.comp_def]
  · intro hpos
    refine List.Pairwise.map _ ?_ (List.pairwise_lt_range n)
    intro i j hij
    exact totalUpTo_mono b filtered hpos (i + 1) (j + 1) (by omega) (by omega)
  · intro hw
    have htot : totalAmount filtered =
        Number.ofNat (wholeSum (filtered.map (fun e => e.amount))) := by
      rw [totalAmount_sum, sumFromZero_whole _ hw]
    refine ⟨?_, htot⟩
    rw [hdata]
    obtain ⟨k, rfl⟩ : ∃ k, n = k + 1 := ⟨n - 1, by omega⟩
    rw [List.range_succ, List.map_append]
    simp only [List.map_cons, List.map_nil]
    rw [List.getLast?_concat, totalUpTo_whole b (k + 1) filtered hday hw, htot]

/-- Witness for C30: August 2025 in a browser two hours ahead of UTC on 12 August
2025; three of the five example expenses are kept, one of them dated in July
by UTC; their amounts 10, 7 and 5 are whole. -/
theorem monthlyReport_by_day_witness :
    (0 ≤ (7 : Int) ∧ (7 : Int) ≤ 11) ∧ (2025 : Int) ∈ years exampleBrowser ∧
    (105 ≤ currentYear exampleBrowser ∧ currentYear exampleBrowser ≤ 275759) ∧
    (-86400000 ≤ exampleBrowser.offset ∧ exampleBrowser.offset ≤ 86400000) ∧
    (filteredExpenses exampleBrowser reportExamples 7 2025).map (fun e => e.amount) =
      [10, 7, 5] ∧
    WholeAmounts ((filteredExpenses exampleBrowser reportExamples 7 2025).map
      (fun e => e.amount)) ∧
    (expensesByDay exampleBrowser (filteredExpenses exampleBrowser reportExamples 7 2025)
        7 2025).take 2 = [(some 1, some 15), (some 2, some 0)] ∧
    totalAmount (filteredExpenses exampleBrowser reportExamples 7 2025) = 22 ∧
    expensesByDay exampleBrowser (filteredExpenses exampleBrowser reportExamples 7 2025)
        7 2025 =
      (List.range (daysInMonth 2025 (7 + 1)).toNat).map
        (fun (i : Nat) => (some ((i : Int) + 1),
          some (dayTotal exampleBrowser (filteredExpenses exampleBrowser reportExamples 7 2025)
            ((i : Int) + 1)))) ∧
    (WholeAmounts ((filteredExpenses exampleBrowser reportExamples 7 2025).map
        (fun e => e.amount)) →
      (lineChartData (expensesByDay exampleBrowser
          (filteredExpenses exampleBrowser reportExamples 7 2025) 7 2025)).data.getLast? =
        some (some (totalAmount (filteredExpenses exampleBrowser reportExamples 7 2025))) ∧
      totalAmount (filteredExpenses exampleBrowser reportExamples 7 2025) =
        Number.ofNat (wholeSum ((filteredExpenses exampleBrowser reportExamples 7 2025).map
          (fun e => e.amount)))) :=
  ⟨by decide, by decide, by decide, by decide, by decide, by decide, by decide, by decide,
   (monthlyReport_by_day exampleBrowser reportExamples 7 2025 (by decide) (by decide)
      (by decide) (by decide)).1,
   (monthlyReport_by_day exampleBrowser reportExamples 7 2025 (by decide) (by decide)
      (by decide) (by decide)).2.2.2.2⟩

set_option maxRecDepth 20000 in
/-- C30 as stated fails: with the amounts 3.47 and 61.13 on 1 August and 41.9 and
20.94 on 2 August 2025 the values of the two days are 64.60000000000001 and
62.84, the cumulative series ends with 127.44000000000001, and `totalAmount` is
127.44. -/
theorem monthlyReport_last_point_counterexample :
    (0 ≤ (7 : Int) ∧ (7 : Int) ≤ 11) ∧ (2025 : Int) ∈ years exampleBrowser ∧
    filteredExpenses exampleBrowser reportCents 7 2025 = reportCents ∧
    (expensesByDay exampleBrowser (filteredExpenses exampleBrowser reportCents 7 2025)
        7 2025).take 3 =
      [(some 1, some (Number.ofDecimal 6460000000000001 14)),
       (some 2, some (Number.ofDecimal 6284 2)), (some 3, some 0)] ∧
    (lineChartData (expensesByDay exampleBrowser
        (filteredExpenses exampleBrowser reportCents 7 2025) 7 2025)).data.getLast? =
      some (some (Number.ofDecimal 12744000000000001 14)) ∧
    totalAmount (filteredExpenses exampleBrowser reportCents 7 2025) =
      Number.ofDecimal 12744 2 ∧
    Number.ofDecimal 12744000000000001 14 ≠ Number.ofDecimal 12744 2 ∧
    (∀ e ∈ filteredExpenses exampleBrowser reportCents 7 2025, 0 ≤ e.amount) :=
  ⟨by decide, by decide, by decide, by decide, by decide, by decide, by decide, by decide⟩
end ExpenseTracker
